import Mathlib

/-!
# Oxford Dictionary client (`main.go`)

A shallow embedding of the client: the constants, the response data model,
`NewClient`, the five lookup operations, `generateRequest`, `doHTTP` and
`fetchJSON`.

The Go standard library is not part of the repository.  Its calls are kept
as named models with the behaviour its documentation gives:

* `http.NewRequest` succeeds or fails (`httpNewRequest`); its rejection of a
  URL holding a control byte is modelled, the rest of `url.Parse` is the
  parameter `Lib.urlParse`;
* `(*http.Client).Do` is the parameter `Lib.Do`;
* `(*json.Decoder).Decode` is the parameter `Lib.Decode`; the model of the
  library decoder for the declared types is `jsonDecode`.

Go strings are modelled as Lean strings, a nil error as `none`, a nil slice
or nil map as `none`, a panic as the absence of a result.
-/

namespace Oxford

/-! ## Go values -/

/-- The Go `error` values; a nil error is `none : Option GoError`. -/
structure GoError where
  msg : String

/-- Go `errors.New`. -/
def errorsNew (text : String) : GoError := ⟨text⟩

/-- A Go slice `[]α`: `none` is the nil slice, `some xs` a non-nil slice. -/
abbrev Slice (α : Type) := Option (List α)

/-- Go `len` of a slice. -/
def Slice.len {α : Type} : Slice α → Nat
  | none => 0
  | some xs => xs.length

/-- A Go `float64`, kept as its 64-bit pattern; no arithmetic is done on it. -/
structure Float64 where
  bits : Nat

/-- The dynamic values a Go `interface{}` can hold, as far as the program
meets them: the six kinds the JSON decoder produces, and `int` for a value
of another dynamic type that a caller can store in the metadata map. -/
inductive GoAny where
  | nil
  | bool (b : Bool)
  | float64 (f : Float64)
  | string (s : String)
  | slice (xs : Option (List GoAny))
  | map (m : Option (List (String × GoAny)))
  | int (n : Int)

/-- A Go `map[string]interface{}`: `none` is the nil map; the entries of a
non-nil map are kept in a list (a Go map has no order). -/
abbrev GoMap := Option (List (String × GoAny))

/-! ## Constants (`main.go`, lines 12-29) -/

def host : String := "https://od-api.oxforddictionaries.com/api/v2"

def endpointThesaurus : String := "/thesaurus/en"
def endpointWords : String := "/words/en-gb"
def endpointEntries : String := "/entries/en-gb"
def endpointSentences : String := "/sentences/en"
def endpointTranslations : String := "/translations"

def paramsEntries : String := "?strictMatch=false"
def paramsSentences : String := "?strictMatch=false"
def paramsThesaurus : String := "?strictMatch=false"
def paramsWords : String := ""
def paramsTranslations : String := "?strictMatch=false"

/-- Go `time.Duration`: a count of nanoseconds. -/
abbrev Duration := Int

/-- Go `time.Second`. -/
def Second : Duration := 1000000000

def defaultTimeout : Duration := 10 * Second

/-! ## Data model (`main.go`, lines 32-163) -/

structure GrammaticalFeature where
  Id : String
  Text : String
  «Type» : String

structure Phrase where
  Id : String
  Text : String

structure Register where
  Id : String
  Text : String

structure SemanticClass where
  Id : String
  Text : String

structure Note where
  Text : String
  «Type» : String

structure DomainClass where
  Id : String
  Text : String

structure Region where
  Id : String
  Text : String

structure LexicalCategory where
  Id : String
  Text : String

structure Translation where
  Language : String
  Text : String

structure Construction where
  Text : String

structure Inflection where
  InflectedForm : String

structure Sentence where
  Regions : Slice Region
  Text : String

structure Example where
  Text : String
  Notes : Slice Note
  Registers : Slice Register
  Translations : Slice Translation

structure Antonym where
  Language : String
  Text : String

structure Synonym where
  Language : String
  Text : String

structure Pronunciation where
  AudioFileLink : String
  Dialects : Slice String
  PhoneticNotation : String
  PhoneticSpelling : String

/-- The Go struct `Sense`; it is recursive through `Subsenses`, so it is an
inductive type with one constructor, the fields in the order of the source. -/
inductive Sense where
  | mk (Antonyms : Slice Antonym) (Synonyms : Slice Synonym)
      (Definitions : Slice String) (ShortDefinitions : Slice String)
      (Examples : Slice Example) (Constructions : Slice Construction)
      (Inflections : Slice Inflection) (DomainClasses : Slice DomainClass)
      (Notes : Slice Note) (Translations : Slice Translation)
      (SemanticClasses : Slice SemanticClass) (Id : String)
      (Subsenses : Option (List Sense))

structure Entry where
  Senses : Slice Sense
  Pronunciations : Slice Pronunciation
  Etymologies : Slice String
  Inflections : Slice Inflection
  GrammaticalFeatures : Slice GrammaticalFeature

structure LexicalEntry where
  Entries : Slice Entry
  Language : String
  LexicalCategory : LexicalCategory
  Text : String
  Phrases : Slice Phrase
  Sentences : Slice Sentence

structure Result where
  Id : String
  Language : String
  LexicalEntries : Slice LexicalEntry
  «Type» : String
  Word : String

structure OxfordResponse where
  Meta : GoMap
  Query : String
  Results : Slice Result

/-- The zero value `OxfordResponse{}`. -/
def OxfordResponse.zero : OxfordResponse := ⟨none, "", none⟩

/-! ## JSON values and HTTP messages -/

/-- A JSON value as the decoder's scanner delivers it; a number is kept as
its literal. -/
inductive Json where
  | null
  | bool (b : Bool)
  | number (lit : String)
  | string (s : String)
  | array (xs : List Json)
  | object (ms : List (String × Json))

/-- The body of an HTTP reply as `json.NewDecoder(body).Decode` reads it:
the first JSON value of the stream, or the error of the reader or scanner
(a read failure, `io.EOF` on an empty body, a syntax error). -/
inductive Body where
  | json (j : Json)
  | invalid (err : GoError)

/-- The bytes `validHeaderFieldByte` of `net/textproto` and `IsTokenRune` of
`httpguts` accept: the token characters of RFC 7230. -/
def isTokenChar (c : Char) : Bool :=
  c.isAlphanum || [33, 35, 36, 37, 38, 39, 42, 43, 45, 46, 94, 95, 96, 124, 126].contains c.toNat

/-- The canonical form of a header key all of whose bytes are token
characters: upper case for the first letter and for a letter after a
hyphen, lower case for the other letters. -/
def canonicalize : Bool → List Char → List Char
  | _, [] => []
  | upper, c :: cs =>
    let d := if upper then c.toUpper else c.toLower
    d :: canonicalize (d == '-') cs

/-- Go `textproto.CanonicalMIMEHeaderKey`: a key with a byte that is not a
token character is returned unchanged. -/
def canonicalMIMEHeaderKey (s : String) : String :=
  if s.data.all isTokenChar then ⟨canonicalize true s.data⟩ else s

/-- Go `http.Header`, a `map[string][]string`, as a list of entries. -/
abbrev Header := List (String × List String)

/-- Assignment `h[key] = values` on the entry list. -/
def Header.assign : Header → String → List String → Header
  | [], key, values => [(key, values)]
  | (k, vs) :: rest, key, values =>
    if k = key then (k, values) :: rest else (k, vs) :: Header.assign rest key values

/-- Go `Header.Set`: the entry of the canonical key becomes the one value. -/
def Header.Set (h : Header) (key value : String) : Header :=
  Header.assign h (canonicalMIMEHeaderKey key) [value]

/-- Go `Header.Get`: the first value of the canonical key, or `""`. -/
def Header.Get (h : Header) (key : String) : String :=
  match h.lookup (canonicalMIMEHeaderKey key) with
  | some (v :: _) => v
  | _ => ""

/-- Go `http.Request`, the fields the client sets; `Body = none` is a nil
body. -/
structure Request where
  Method : String
  URL : String
  Header : Header
  Body : Option String

/-- Go `http.Response`, the fields the client reads. -/
structure HTTPResponse where
  StatusCode : Int
  Status : String
  Body : Body

/-- Go `http.Client`, the field the client sets. -/
structure HTTPClient where
  Timeout : Duration

def MethodGet : String := "GET"

def StatusOK : Int := 200

/-- Go `stringContainsCTLByte` of `net/url`: a byte below 0x20 or 0x7f. -/
def stringContainsCTLByte (s : String) : Bool :=
  s.data.any (fun c => c.toNat < 32 || c.toNat == 127)

/-- Go `validMethod` of `net/http`. -/
def validMethod (method : String) : Bool :=
  method.length > 0 && method.data.all isTokenChar

/-- The standard library and the network, as far as the client calls them. -/
structure Lib where
  /-- The checks of `url.Parse` after the control-byte check (among them
  the percent escapes of the path and of the fragment): whether the URL
  passes them. -/
  urlParse : String → Bool
  /-- The call `(*http.Client).Do`: an error or the reply. -/
  Do : HTTPClient → Request → Except GoError HTTPResponse
  /-- The call `json.NewDecoder(body).Decode(data)`: the content of `data`
  afterwards and the error returned. -/
  Decode : Body → OxfordResponse → OxfordResponse × Option GoError

/-- The part of a URL before its first `#`, which `url.Parse` cuts off as
the fragment before it parses the rest. -/
def beforeFragment (url : String) : String :=
  ⟨url.data.takeWhile (fun c => c != '#')⟩

/-- Go `http.NewRequest(method, url, nil)`: `none` when it returns an error
(and a nil request).  An empty method means GET; the method must be a token;
`url.Parse` rejects, before any other check, a URL with a control byte in
the part before the fragment. -/
def httpNewRequest (lib : Lib) (method url : String) : Option Request :=
  let method := if method = "" then "GET" else method
  if !validMethod method then none
  else if stringContainsCTLByte (beforeFragment url) then none
  else if !lib.urlParse url then none
  else some { Method := method, URL := url, Header := [], Body := none }

/-- The list form of Go `strings.ReplaceAll` for a non-empty `old`: the
occurrences of `old` are replaced left to right without overlap; the number
is how many characters of a matched occurrence are still to be dropped. -/
def replaceFrom (old new : List Char) : Nat → List Char → List Char
  | _, [] => []
  | skip + 1, _ :: cs => replaceFrom old new skip cs
  | 0, c :: cs =>
    if old.isPrefixOf (c :: cs) then new ++ replaceFrom old new (old.length - 1) cs
    else c :: replaceFrom old new 0 cs

/-- Go `strings.ReplaceAll`; an empty `old` matches before every character
and at the end. -/
def stringsReplaceAll (s old new : String) : String :=
  if old.data = [] then ⟨new.data ++ s.data.flatMap (fun c => c :: new.data)⟩
  else ⟨replaceFrom old.data new.data 0 s.data⟩

/-! ## The client (`main.go`, lines 165-252) -/

/-- The Go struct `Client`; `client` is a pointer, `none` when nil. -/
structure Client where
  client : Option HTTPClient
  appID : String
  appKEY : String

/-- `NewClient`: the returned pointer (`none` when nil) and error. -/
def NewClient (appID appKEY : String) : Option Client × Option GoError :=
  if appID = "" ∨ appKEY = "" then
    (none, some (errorsNew "credentials are empty"))
  else
    (some { client := some { Timeout := defaultTimeout }, appID := appID, appKEY := appKEY }, none)

/-- What one call of an operation did and returned. -/
structure Run where
  /-- The arguments (method, url) of each call of `http.NewRequest`. -/
  built : List (String × String)
  /-- The request of each call of `c.client.Do`. -/
  sent : List Request
  /-- The body of each call of the JSON decoder. -/
  decoded : List Body
  /-- The returned pair; `none` when the call panicked. -/
  result : Option (OxfordResponse × Option GoError)

/-- `generateRequest`: the request, or `none` when the function panics: the
error of `http.NewRequest` is discarded, and `req.Header.Set` on the nil
request it returns with an error dereferences a nil pointer. -/
def Client.generateRequest (lib : Lib) (c : Client) (endpoint HTTPMethod : String) :
    Option Request :=
  let url := host ++ endpoint
  match httpNewRequest lib HTTPMethod url with
  | none => none
  | some req =>
    let req := { req with Header := req.Header.Set "app_id" c.appID }
    let req := { req with Header := req.Header.Set "app_key" c.appKEY }
    let req := { req with Header := req.Header.Set "Accept" "application/json" }
    some req

/-- `fetchJSON`: the bodies handed to the decoder, and the content of
`data` with the returned error; `none` when `c.client` is nil (the call of
`Do` on it panics).  The deferred `resp.Body.Close()` has no effect on what
is returned and is left out. -/
def Client.fetchJSON (lib : Lib) (c : Client) (req : Request) (data : OxfordResponse) :
    List Body × Option (OxfordResponse × Option GoError) :=
  match c.client with
  | none => ([], none)
  | some h =>
    match lib.Do h req with
    | .error err => ([], some (data, some err))
    | .ok resp =>
      if resp.StatusCode ≠ StatusOK then
        ([], some (data, some (errorsNew ("API Error: " ++ resp.Status))))
      else
        ([resp.Body], some (lib.Decode resp.Body data))

/-- `doHTTP`.  `built` records the one call of `http.NewRequest` that
`generateRequest` makes, with the method and the url `host + endpoint` it
passes; `sent` records the call of `c.client.Do` that `fetchJSON` makes. -/
def Client.doHTTP (lib : Lib) (c : Client) (endpoint : String) : Run :=
  let built := [(MethodGet, host ++ endpoint)]
  match c.generateRequest lib endpoint MethodGet with
  | none => { built := built, sent := [], decoded := [], result := none }
  | some req =>
    let resp : OxfordResponse := OxfordResponse.zero
    match c.fetchJSON lib req resp with
    | (decoded, none) => { built := built, sent := [], decoded := decoded, result := none }
    | (decoded, some (_, some err)) =>
      { built := built, sent := [req], decoded := decoded,
        result := some (OxfordResponse.zero, some err) }
    | (decoded, some (resp, none)) =>
      { built := built, sent := [req], decoded := decoded, result := some (resp, none) }

def Client.Thesaurus (lib : Lib) (c : Client) (word : String) : Run :=
  let endpoint := endpointThesaurus ++ "/" ++ word ++ paramsThesaurus
  c.doHTTP lib endpoint

def Client.WordInfo (lib : Lib) (c : Client) (word : String) : Run :=
  let endpoint := endpointWords ++ "?q=" ++ stringsReplaceAll word " " "_" ++ paramsWords
  c.doHTTP lib endpoint

def Client.Entry (lib : Lib) (c : Client) (word : String) : Run :=
  let endpoint := endpointEntries ++ "/" ++ word ++ paramsEntries
  c.doHTTP lib endpoint

def Client.Sentences (lib : Lib) (c : Client) (word : String) : Run :=
  let endpoint := endpointSentences ++ "/" ++ word ++ paramsSentences
  c.doHTTP lib endpoint

def Client.Translation (lib : Lib) (c : Client) (word sourceLang targetLang : String) : Run :=
  let endpoint := endpointTranslations ++ "/" ++ sourceLang ++ "/" ++ targetLang ++ "/" ++ word
    ++ paramsTranslations
  c.doHTTP lib endpoint

/-- A call of one of the five operations with its arguments. -/
inductive Operation where
  | thesaurus (word : String)
  | wordInfo (word : String)
  | entry (word : String)
  | sentences (word : String)
  | translation (word sourceLang targetLang : String)

/-- The operation called on a client. -/
def Operation.run (lib : Lib) (c : Client) : Operation → Run
  | .thesaurus word => c.Thesaurus lib word
  | .wordInfo word => c.WordInfo lib word
  | .entry word => c.Entry lib word
  | .sentences word => c.Sentences lib word
  | .translation word sourceLang targetLang => c.Translation lib word sourceLang targetLang

/-- The endpoint string an operation hands to `doHTTP`. -/
def Operation.endpoint : Operation → String
  | .thesaurus word => endpointThesaurus ++ "/" ++ word ++ paramsThesaurus
  | .wordInfo word => endpointWords ++ "?q=" ++ stringsReplaceAll word " " "_" ++ paramsWords
  | .entry word => endpointEntries ++ "/" ++ word ++ paramsEntries
  | .sentences word => endpointSentences ++ "/" ++ word ++ paramsSentences
  | .translation word sourceLang targetLang =>
    endpointTranslations ++ "/" ++ sourceLang ++ "/" ++ targetLang ++ "/" ++ word
      ++ paramsTranslations

/-! ## The library's JSON decoder and encoder (`encoding/json`)

The model follows the package documentation of `Unmarshal` and `Marshal`:
an object key selects the struct field with that name, an exact match first
and a match under case folding otherwise; a key that selects no field is
skipped; `null` leaves a string or a struct unchanged and sets a slice or a
map to nil; a JSON array replaces the slice, each element being decoded into
a zero value; a value of the wrong kind is skipped, decoding goes on, and
the earliest such error is returned at the end. -/

/-- The kind of a JSON value as the decoder's type errors name it. -/
def Json.kind : Json → String
  | .null => "null"
  | .bool _ => "bool"
  | .number _ => "number"
  | .string _ => "string"
  | .array _ => "array"
  | .object _ => "object"

/-- The library's `UnmarshalTypeError` for a value of the wrong kind. -/
def typeError (j : Json) (goType : String) : GoError :=
  errorsNew ("json: cannot unmarshal " ++ j.kind ++ " into Go value of type " ++ goType)

/-- The earliest of two errors. -/
def firstError : Option GoError → Option GoError → Option GoError
  | some e, _ => some e
  | none, e => e

/-- The library's folding of one rune of a field name.  The declared names
are ASCII; the runes that fold to an ASCII letter are the letter in either
case, U+017F (long s) for S and U+212A (Kelvin sign) for K. -/
def foldRune (c : Char) : Char :=
  if 'a' ≤ c ∧ c ≤ 'z' then Char.ofNat (c.toNat - 32)
  else if c.toNat = 0x17F then 'S'
  else if c.toNat = 0x212A then 'K'
  else c

/-- The library's `foldName`: two names match when their foldings agree. -/
def foldName (s : String) : List Char := s.data.map foldRune

/-- The index of the field an object key selects among the declared names:
the field with exactly that name, otherwise the first field whose name
agrees with the key under folding. -/
def lookupName (names : List String) (key : String) : Option Nat :=
  match names.findIdx? (fun n => decide (n = key)) with
  | some i => some i
  | none => names.findIdx? (fun n => decide (foldName n = foldName key))

/-- Decoding into a Go `string`. -/
def decodeString (j : Json) (cur : String) : String × Option GoError :=
  match j with
  | .string s => (s, none)
  | .null => (cur, none)
  | _ => (cur, some (typeError j "string"))

/-- The elements of a JSON array, each decoded into a zero value. -/
def decodeElems {α : Type} (dec : Json → α → α × Option GoError) (zero : α) :
    List Json → List α × Option GoError
  | [] => ([], none)
  | x :: xs =>
    let a := dec x zero
    let b := decodeElems dec zero xs
    (a.1 :: b.1, firstError a.2 b.2)

/-- Decoding into a Go slice. -/
def decodeSlice {α : Type} (dec : Json → α → α × Option GoError) (zero : α)
    (goType : String) (j : Json) (cur : Slice α) : Slice α × Option GoError :=
  match j with
  | .array xs => let r := decodeElems dec zero xs; (some r.1, r.2)
  | .null => (none, none)
  | _ => (cur, some (typeError j goType))

/-- The members of a JSON object decoded in order into a struct whose fields
have the names `names`; `setField i v t` decodes `v` into field `i` of `t`. -/
def decodeObject {T : Type} (names : List String)
    (setField : Nat → Json → T → T × Option GoError) :
    List (String × Json) → T → T × Option GoError
  | [], t => (t, none)
  | (k, v) :: rest, t =>
    match lookupName names k with
    | none => decodeObject names setField rest t
    | some i =>
      let r := setField i v t
      let r2 := decodeObject names setField rest r.1
      (r2.1, firstError r.2 r2.2)

/-- Decoding into a Go struct. -/
def decodeStruct {T : Type} (names : List String)
    (setField : Nat → Json → T → T × Option GoError) (goType : String)
    (j : Json) (t : T) : T × Option GoError :=
  match j with
  | .object ms => decodeObject names setField ms t
  | .null => (t, none)
  | _ => (t, some (typeError j goType))

/-- The library's conversion between a `float64` and a number literal:
`strconv.ParseFloat` (`none` when the literal is out of range) and the
encoder's formatting (`none` for NaN and the infinities, which `Marshal`
rejects). -/
structure FloatCodec where
  parse : String → Option Float64
  format : Float64 → Option String

/-- The law of the number conversion: a literal the encoder writes for a
float64 parses back to that float64. -/
def FloatCodec.RoundTrips (fc : FloatCodec) : Prop :=
  ∀ (f : Float64) (s : String), fc.format f = some s → fc.parse s = some f

/-- Assignment `m[k] = v` on the entry list of a map. -/
def mapAssign : List (String × GoAny) → String → GoAny → List (String × GoAny)
  | [], k, v => [(k, v)]
  | (k0, v0) :: rest, k, v =>
    if k0 = k then (k0, v) :: rest else (k0, v0) :: mapAssign rest k v

mutual
/-- Decoding into an empty `interface{}`. -/
def decodeAny (fc : FloatCodec) : Json → GoAny × Option GoError
  | .null => (.nil, none)
  | .bool b => (.bool b, none)
  | .number lit =>
    match fc.parse lit with
    | some f => (.float64 f, none)
    | none => (.nil, some (typeError (.number lit) "float64"))
  | .string s => (.string s, none)
  | .array xs => let r := decodeAnyElems fc xs; (.slice (some r.1), r.2)
  | .object ms => let r := decodeAnyMembers fc ms []; (.map (some r.1), r.2)
/-- The elements of an array decoded into a `[]interface{}`. -/
def decodeAnyElems (fc : FloatCodec) : List Json → List GoAny × Option GoError
  | [] => ([], none)
  | x :: xs =>
    let a := decodeAny fc x
    let b := decodeAnyElems fc xs
    (a.1 :: b.1, firstError a.2 b.2)
/-- The members of an object assigned in order to the entries of a
`map[string]interface{}`. -/
def decodeAnyMembers (fc : FloatCodec) :
    List (String × Json) → List (String × GoAny) → List (String × GoAny) × Option GoError
  | [], m => (m, none)
  | (k, v) :: rest, m =>
    let a := decodeAny fc v
    let b := decodeAnyMembers fc rest (mapAssign m k a.1)
    (b.1, firstError a.2 b.2)
end

/-- Decoding into a Go `map[string]interface{}`: a nil map is allocated, an
existing map is kept and written to. -/
def decodeMap (fc : FloatCodec) (j : Json) (cur : GoMap) : GoMap × Option GoError :=
  match j with
  | .object ms => let r := decodeAnyMembers fc ms (cur.getD []); (some r.1, r.2)
  | .null => (none, none)
  | _ => (cur, some (typeError j "map[string]interface {}"))

/-- Encoding of a Go slice: `null` for the nil slice. -/
def encodeSlice {α : Type} (enc : α → Json) : Slice α → Json
  | none => .null
  | some xs => .array (xs.map enc)

mutual
/-- Encoding of the value in an `interface{}`; `none` when `Marshal` fails. -/
def encodeAny (fc : FloatCodec) : GoAny → Option Json
  | .nil => some .null
  | .bool b => some (.bool b)
  | .float64 f => (fc.format f).map Json.number
  | .string s => some (.string s)
  | .slice xs => encodeAnySlice fc xs
  | .map m => encodeAnyMap fc m
  | .int n => some (.number (toString n))
def encodeAnySlice (fc : FloatCodec) : Option (List GoAny) → Option Json
  | none => some .null
  | some xs => (encodeAnyElems fc xs).map Json.array
def encodeAnyMap (fc : FloatCodec) : Option (List (String × GoAny)) → Option Json
  | none => some .null
  | some m => (encodeAnyMembers fc m).map Json.object
def encodeAnyElems (fc : FloatCodec) : List GoAny → Option (List Json)
  | [] => some []
  | x :: xs =>
    match encodeAny fc x, encodeAnyElems fc xs with
    | some a, some b => some (a :: b)
    | _, _ => none
def encodeAnyMembers (fc : FloatCodec) : List (String × GoAny) → Option (List (String × Json))
  | [] => some []
  | (k, v) :: rest =>
    match encodeAny fc v, encodeAnyMembers fc rest with
    | some a, some b => some ((k, a) :: b)
    | _, _ => none
end

mutual
/-- The values in an `interface{}` that the decoder itself produces: nil, a
bool, a float64, a string, a non-nil `[]interface{}` of such values, and a
non-nil `map[string]interface{}` of such values (its keys distinct, as the
keys of a map are). -/
def GoAny.jsonNative : GoAny → Prop
  | .nil => True
  | .bool _ => True
  | .float64 _ => True
  | .string _ => True
  | .slice xs => GoAny.jsonNativeSlice xs
  | .map m => GoAny.jsonNativeMap m
  | .int _ => False
def GoAny.jsonNativeSlice : Option (List GoAny) → Prop
  | none => False
  | some xs => GoAny.jsonNativeElems xs
def GoAny.jsonNativeMap : Option (List (String × GoAny)) → Prop
  | none => False
  | some m => GoAny.jsonNativeMembers m
def GoAny.jsonNativeElems : List GoAny → Prop
  | [] => True
  | x :: xs => GoAny.jsonNative x ∧ GoAny.jsonNativeElems xs
def GoAny.jsonNativeMembers : List (String × GoAny) → Prop
  | [] => True
  | (k, v) :: rest =>
    GoAny.jsonNative v ∧ (∀ kv ∈ rest, kv.1 ≠ k) ∧ GoAny.jsonNativeMembers rest
end

/-- The metadata maps that the decoder itself produces: the nil map, or a
map with distinct keys whose values are such values. -/
def GoMap.jsonNative : GoMap → Prop
  | none => True
  | some m => GoAny.jsonNativeMembers m

/-! ## The decoders and encoders of the declared struct types

For each struct: its zero value, the names its `json` tags declare in the
order of the fields, the decoding of a value into the field with a given
index, the decoder, the encoder (every field is written, none has
`omitempty`), and what it is for the field with a given index to hold its
zero value. -/

/-- The zero value `GrammaticalFeature{}`. -/
def GrammaticalFeature.zero : GrammaticalFeature :=
  ⟨"", "", ""⟩

def GrammaticalFeature.names : List String :=
  ["id", "text", "type"]

/-- Decoding into the field of a `GrammaticalFeature` with the given index. -/
def GrammaticalFeature.setField : Nat → Json → GrammaticalFeature → GrammaticalFeature × Option GoError
  | 0, v, t =>
    let r := decodeString v t.Id
    ({ t with Id := r.1 }, r.2)
  | 1, v, t =>
    let r := decodeString v t.Text
    ({ t with Text := r.1 }, r.2)
  | 2, v, t =>
    let r := decodeString v t.«Type»
    ({ t with «Type» := r.1 }, r.2)
  | _, _, t => (t, none)

def decodeGrammaticalFeature : Json → GrammaticalFeature → GrammaticalFeature × Option GoError :=
  decodeStruct GrammaticalFeature.names (GrammaticalFeature.setField) "main.GrammaticalFeature"

def encodeGrammaticalFeature (t : GrammaticalFeature) : Json :=
  .object [("id", Json.string t.Id), ("text", Json.string t.Text), ("type", Json.string t.«Type»)]

def GrammaticalFeature.fieldZero : Nat → GrammaticalFeature → Prop
  | 0, t => t.Id = ""
  | 1, t => t.Text = ""
  | 2, t => t.«Type» = ""
  | _, _ => True

/-- The zero value `Phrase{}`. -/
def Phrase.zero : Phrase :=
  ⟨"", ""⟩

def Phrase.names : List String :=
  ["id", "text"]

/-- Decoding into the field of a `Phrase` with the given index. -/
def Phrase.setField : Nat → Json → Phrase → Phrase × Option GoError
  | 0, v, t =>
    let r := decodeString v t.Id
    ({ t with Id := r.1 }, r.2)
  | 1, v, t =>
    let r := decodeString v t.Text
    ({ t with Text := r.1 }, r.2)
  | _, _, t => (t, none)

def decodePhrase : Json → Phrase → Phrase × Option GoError :=
  decodeStruct Phrase.names (Phrase.setField) "main.Phrase"

def encodePhrase (t : Phrase) : Json :=
  .object [("id", Json.string t.Id), ("text", Json.string t.Text)]

def Phrase.fieldZero : Nat → Phrase → Prop
  | 0, t => t.Id = ""
  | 1, t => t.Text = ""
  | _, _ => True

/-- The zero value `Register{}`. -/
def Register.zero : Register :=
  ⟨"", ""⟩

def Register.names : List String :=
  ["id", "text"]

/-- Decoding into the field of a `Register` with the given index. -/
def Register.setField : Nat → Json → Register → Register × Option GoError
  | 0, v, t =>
    let r := decodeString v t.Id
    ({ t with Id := r.1 }, r.2)
  | 1, v, t =>
    let r := decodeString v t.Text
    ({ t with Text := r.1 }, r.2)
  | _, _, t => (t, none)

def decodeRegister : Json → Register → Register × Option GoError :=
  decodeStruct Register.names (Register.setField) "main.Register"

def encodeRegister (t : Register) : Json :=
  .object [("id", Json.string t.Id), ("text", Json.string t.Text)]

def Register.fieldZero : Nat → Register → Prop
  | 0, t => t.Id = ""
  | 1, t => t.Text = ""
  | _, _ => True

/-- The zero value `SemanticClass{}`. -/
def SemanticClass.zero : SemanticClass :=
  ⟨"", ""⟩

def SemanticClass.names : List String :=
  ["id", "text"]

/-- Decoding into the field of a `SemanticClass` with the given index. -/
def SemanticClass.setField : Nat → Json → SemanticClass → SemanticClass × Option GoError
  | 0, v, t =>
    let r := decodeString v t.Id
    ({ t with Id := r.1 }, r.2)
  | 1, v, t =>
    let r := decodeString v t.Text
    ({ t with Text := r.1 }, r.2)
  | _, _, t => (t, none)

def decodeSemanticClass : Json → SemanticClass → SemanticClass × Option GoError :=
  decodeStruct SemanticClass.names (SemanticClass.setField) "main.SemanticClass"

def encodeSemanticClass (t : SemanticClass) : Json :=
  .object [("id", Json.string t.Id), ("text", Json.string t.Text)]

def SemanticClass.fieldZero : Nat → SemanticClass → Prop
  | 0, t => t.Id = ""
  | 1, t => t.Text = ""
  | _, _ => True

/-- The zero value `Note{}`. -/
def Note.zero : Note :=
  ⟨"", ""⟩

def Note.names : List String :=
  ["text", "type"]

/-- Decoding into the field of a `Note` with the given index. -/
def Note.setField : Nat → Json → Note → Note × Option GoError
  | 0, v, t =>
    let r := decodeString v t.Text
    ({ t with Text := r.1 }, r.2)
  | 1, v, t =>
    let r := decodeString v t.«Type»
    ({ t with «Type» := r.1 }, r.2)
  | _, _, t => (t, none)

def decodeNote : Json → Note → Note × Option GoError :=
  decodeStruct Note.names (Note.setField) "main.Note"

def encodeNote (t : Note) : Json :=
  .object [("text", Json.string t.Text), ("type", Json.string t.«Type»)]

def Note.fieldZero : Nat → Note → Prop
  | 0, t => t.Text = ""
  | 1, t => t.«Type» = ""
  | _, _ => True

/-- The zero value `DomainClass{}`. -/
def DomainClass.zero : DomainClass :=
  ⟨"", ""⟩

def DomainClass.names : List String :=
  ["id", "text"]

/-- Decoding into the field of a `DomainClass` with the given index. -/
def DomainClass.setField : Nat → Json → DomainClass → DomainClass × Option GoError
  | 0, v, t =>
    let r := decodeString v t.Id
    ({ t with Id := r.1 }, r.2)
  | 1, v, t =>
    let r := decodeString v t.Text
    ({ t with Text := r.1 }, r.2)
  | _, _, t => (t, none)

def decodeDomainClass : Json → DomainClass → DomainClass × Option GoError :=
  decodeStruct DomainClass.names (DomainClass.setField) "main.DomainClass"

def encodeDomainClass (t : DomainClass) : Json :=
  .object [("id", Json.string t.Id), ("text", Json.string t.Text)]

def DomainClass.fieldZero : Nat → DomainClass → Prop
  | 0, t => t.Id = ""
  | 1, t => t.Text = ""
  | _, _ => True

/-- The zero value `Region{}`. -/
def Region.zero : Region :=
  ⟨"", ""⟩

def Region.names : List String :=
  ["id", "text"]

/-- Decoding into the field of a `Region` with the given index. -/
def Region.setField : Nat → Json → Region → Region × Option GoError
  | 0, v, t =>
    let r := decodeString v t.Id
    ({ t with Id := r.1 }, r.2)
  | 1, v, t =>
    let r := decodeString v t.Text
    ({ t with Text := r.1 }, r.2)
  | _, _, t => (t, none)

def decodeRegion : Json → Region → Region × Option GoError :=
  decodeStruct Region.names (Region.setField) "main.Region"

def encodeRegion (t : Region) : Json :=
  .object [("id", Json.string t.Id), ("text", Json.string t.Text)]

def Region.fieldZero : Nat → Region → Prop
  | 0, t => t.Id = ""
  | 1, t => t.Text = ""
  | _, _ => True

/-- The zero value `LexicalCategory{}`. -/
def LexicalCategory.zero : LexicalCategory :=
  ⟨"", ""⟩

def LexicalCategory.names : List String :=
  ["id", "text"]

/-- Decoding into the field of a `LexicalCategory` with the given index. -/
def LexicalCategory.setField : Nat → Json → LexicalCategory → LexicalCategory × Option GoError
  | 0, v, t =>
    let r := decodeString v t.Id
    ({ t with Id := r.1 }, r.2)
  | 1, v, t =>
    let r := decodeString v t.Text
    ({ t with Text := r.1 }, r.2)
  | _, _, t => (t, none)

def decodeLexicalCategory : Json → LexicalCategory → LexicalCategory × Option GoError :=
  decodeStruct LexicalCategory.names (LexicalCategory.setField) "main.LexicalCategory"

def encodeLexicalCategory (t : LexicalCategory) : Json :=
  .object [("id", Json.string t.Id), ("text", Json.string t.Text)]

def LexicalCategory.fieldZero : Nat → LexicalCategory → Prop
  | 0, t => t.Id = ""
  | 1, t => t.Text = ""
  | _, _ => True

/-- The zero value `Translation{}`. -/
def Translation.zero : Translation :=
  ⟨"", ""⟩

def Translation.names : List String :=
  ["language", "text"]

/-- Decoding into the field of a `Translation` with the given index. -/
def Translation.setField : Nat → Json → Translation → Translation × Option GoError
  | 0, v, t =>
    let r := decodeString v t.Language
    ({ t with Language := r.1 }, r.2)
  | 1, v, t =>
    let r := decodeString v t.Text
    ({ t with Text := r.1 }, r.2)
  | _, _, t => (t, none)

def decodeTranslation : Json → Translation → Translation × Option GoError :=
  decodeStruct Translation.names (Translation.setField) "main.Translation"

def encodeTranslation (t : Translation) : Json :=
  .object [("language", Json.string t.Language), ("text", Json.string t.Text)]

def Translation.fieldZero : Nat → Translation → Prop
  | 0, t => t.Language = ""
  | 1, t => t.Text = ""
  | _, _ => True

/-- The zero value `Construction{}`. -/
def Construction.zero : Construction :=
  ⟨""⟩

def Construction.names : List String :=
  ["text"]

/-- Decoding into the field of a `Construction` with the given index. -/
def Construction.setField : Nat → Json → Construction → Construction × Option GoError
  | 0, v, t =>
    let r := decodeString v t.Text
    ({ t with Text := r.1 }, r.2)
  | _, _, t => (t, none)

def decodeConstruction : Json → Construction → Construction × Option GoError :=
  decodeStruct Construction.names (Construction.setField) "main.Construction"

def encodeConstruction (t : Construction) : Json :=
  .object [("text", Json.string t.Text)]

def Construction.fieldZero : Nat → Construction → Prop
  | 0, t => t.Text = ""
  | _, _ => True

/-- The zero value `Inflection{}`. -/
def Inflection.zero : Inflection :=
  ⟨""⟩

def Inflection.names : List String :=
  ["inflectedForm"]

/-- Decoding into the field of a `Inflection` with the given index. -/
def Inflection.setField : Nat → Json → Inflection → Inflection × Option GoError
  | 0, v, t =>
    let r := decodeString v t.InflectedForm
    ({ t with InflectedForm := r.1 }, r.2)
  | _, _, t => (t, none)

def decodeInflection : Json → Inflection → Inflection × Option GoError :=
  decodeStruct Inflection.names (Inflection.setField) "main.Inflection"

def encodeInflection (t : Inflection) : Json :=
  .object [("inflectedForm", Json.string t.InflectedForm)]

def Inflection.fieldZero : Nat → Inflection → Prop
  | 0, t => t.InflectedForm = ""
  | _, _ => True

/-- The zero value `Sentence{}`. -/
def Sentence.zero : Sentence :=
  ⟨none, ""⟩

def Sentence.names : List String :=
  ["regions", "text"]

/-- Decoding into the field of a `Sentence` with the given index. -/
def Sentence.setField : Nat → Json → Sentence → Sentence × Option GoError
  | 0, v, t =>
    let r := decodeSlice decodeRegion Region.zero "[]main.Region" v t.Regions
    ({ t with Regions := r.1 }, r.2)
  | 1, v, t =>
    let r := decodeString v t.Text
    ({ t with Text := r.1 }, r.2)
  | _, _, t => (t, none)

def decodeSentence : Json → Sentence → Sentence × Option GoError :=
  decodeStruct Sentence.names (Sentence.setField) "main.Sentence"

def encodeSentence (t : Sentence) : Json :=
  .object [("regions", encodeSlice encodeRegion t.Regions), ("text", Json.string t.Text)]

def Sentence.fieldZero : Nat → Sentence → Prop
  | 0, t => t.Regions = none
  | 1, t => t.Text = ""
  | _, _ => True

/-- The zero value `Example{}`. -/
def Example.zero : Example :=
  ⟨"", none, none, none⟩

def Example.names : List String :=
  ["text", "notes", "registers", "translations"]

/-- Decoding into the field of a `Example` with the given index. -/
def Example.setField : Nat → Json → Example → Example × Option GoError
  | 0, v, t =>
    let r := decodeString v t.Text
    ({ t with Text := r.1 }, r.2)
  | 1, v, t =>
    let r := decodeSlice decodeNote Note.zero "[]main.Note" v t.Notes
    ({ t with Notes := r.1 }, r.2)
  | 2, v, t =>
    let r := decodeSlice decodeRegister Register.zero "[]main.Register" v t.Registers
    ({ t with Registers := r.1 }, r.2)
  | 3, v, t =>
    let r := decodeSlice decodeTranslation Translation.zero "[]main.Translation" v t.Translations
    ({ t with Translations := r.1 }, r.2)
  | _, _, t => (t, none)

def decodeExample : Json → Example → Example × Option GoError :=
  decodeStruct Example.names (Example.setField) "main.Example"

def encodeExample (t : Example) : Json :=
  .object [("text", Json.string t.Text), ("notes", encodeSlice encodeNote t.Notes), ("registers", encodeSlice encodeRegister t.Registers), ("translations", encodeSlice encodeTranslation t.Translations)]

def Example.fieldZero : Nat → Example → Prop
  | 0, t => t.Text = ""
  | 1, t => t.Notes = none
  | 2, t => t.Registers = none
  | 3, t => t.Translations = none
  | _, _ => True

/-- The zero value `Antonym{}`. -/
def Antonym.zero : Antonym :=
  ⟨"", ""⟩

def Antonym.names : List String :=
  ["language", "text"]

/-- Decoding into the field of a `Antonym` with the given index. -/
def Antonym.setField : Nat → Json → Antonym → Antonym × Option GoError
  | 0, v, t =>
    let r := decodeString v t.Language
    ({ t with Language := r.1 }, r.2)
  | 1, v, t =>
    let r := decodeString v t.Text
    ({ t with Text := r.1 }, r.2)
  | _, _, t => (t, none)

def decodeAntonym : Json → Antonym → Antonym × Option GoError :=
  decodeStruct Antonym.names (Antonym.setField) "main.Antonym"

def encodeAntonym (t : Antonym) : Json :=
  .object [("language", Json.string t.Language), ("text", Json.string t.Text)]

def Antonym.fieldZero : Nat → Antonym → Prop
  | 0, t => t.Language = ""
  | 1, t => t.Text = ""
  | _, _ => True

/-- The zero value `Synonym{}`. -/
def Synonym.zero : Synonym :=
  ⟨"", ""⟩

def Synonym.names : List String :=
  ["language", "text"]

/-- Decoding into the field of a `Synonym` with the given index. -/
def Synonym.setField : Nat → Json → Synonym → Synonym × Option GoError
  | 0, v, t =>
    let r := decodeString v t.Language
    ({ t with Language := r.1 }, r.2)
  | 1, v, t =>
    let r := decodeString v t.Text
    ({ t with Text := r.1 }, r.2)
  | _, _, t => (t, none)

def decodeSynonym : Json → Synonym → Synonym × Option GoError :=
  decodeStruct Synonym.names (Synonym.setField) "main.Synonym"

def encodeSynonym (t : Synonym) : Json :=
  .object [("language", Json.string t.Language), ("text", Json.string t.Text)]

def Synonym.fieldZero : Nat → Synonym → Prop
  | 0, t => t.Language = ""
  | 1, t => t.Text = ""
  | _, _ => True

/-- The zero value `Pronunciation{}`. -/
def Pronunciation.zero : Pronunciation :=
  ⟨"", none, "", ""⟩

def Pronunciation.names : List String :=
  ["audioFile", "dialects", "phoneticNotation", "phoneticSpelling"]

/-- Decoding into the field of a `Pronunciation` with the given index. -/
def Pronunciation.setField : Nat → Json → Pronunciation → Pronunciation × Option GoError
  | 0, v, t =>
    let r := decodeString v t.AudioFileLink
    ({ t with AudioFileLink := r.1 }, r.2)
  | 1, v, t =>
    let r := decodeSlice decodeString "" "[]string" v t.Dialects
    ({ t with Dialects := r.1 }, r.2)
  | 2, v, t =>
    let r := decodeString v t.PhoneticNotation
    ({ t with PhoneticNotation := r.1 }, r.2)
  | 3, v, t =>
    let r := decodeString v t.PhoneticSpelling
    ({ t with PhoneticSpelling := r.1 }, r.2)
  | _, _, t => (t, none)

def decodePronunciation : Json → Pronunciation → Pronunciation × Option GoError :=
  decodeStruct Pronunciation.names (Pronunciation.setField) "main.Pronunciation"

def encodePronunciation (t : Pronunciation) : Json :=
  .object [("audioFile", Json.string t.AudioFileLink), ("dialects", encodeSlice Json.string t.Dialects), ("phoneticNotation", Json.string t.PhoneticNotation), ("phoneticSpelling", Json.string t.PhoneticSpelling)]

def Pronunciation.fieldZero : Nat → Pronunciation → Prop
  | 0, t => t.AudioFileLink = ""
  | 1, t => t.Dialects = none
  | 2, t => t.PhoneticNotation = ""
  | 3, t => t.PhoneticSpelling = ""
  | _, _ => True

/-- The zero value `Sense{}`. -/
def Sense.zero : Sense :=
  .mk none none none none none none none none none none none "" none

def Sense.Antonyms : Sense → Slice Antonym
  | .mk a0 _ _ _ _ _ _ _ _ _ _ _ _ => a0

def Sense.Synonyms : Sense → Slice Synonym
  | .mk _ a1 _ _ _ _ _ _ _ _ _ _ _ => a1

def Sense.Definitions : Sense → Slice String
  | .mk _ _ a2 _ _ _ _ _ _ _ _ _ _ => a2

def Sense.ShortDefinitions : Sense → Slice String
  | .mk _ _ _ a3 _ _ _ _ _ _ _ _ _ => a3

def Sense.Examples : Sense → Slice Example
  | .mk _ _ _ _ a4 _ _ _ _ _ _ _ _ => a4

def Sense.Constructions : Sense → Slice Construction
  | .mk _ _ _ _ _ a5 _ _ _ _ _ _ _ => a5

def Sense.Inflections : Sense → Slice Inflection
  | .mk _ _ _ _ _ _ a6 _ _ _ _ _ _ => a6

def Sense.DomainClasses : Sense → Slice DomainClass
  | .mk _ _ _ _ _ _ _ a7 _ _ _ _ _ => a7

def Sense.Notes : Sense → Slice Note
  | .mk _ _ _ _ _ _ _ _ a8 _ _ _ _ => a8

def Sense.Translations : Sense → Slice Translation
  | .mk _ _ _ _ _ _ _ _ _ a9 _ _ _ => a9

def Sense.SemanticClasses : Sense → Slice SemanticClass
  | .mk _ _ _ _ _ _ _ _ _ _ a10 _ _ => a10

def Sense.Id : Sense → String
  | .mk _ _ _ _ _ _ _ _ _ _ _ a11 _ => a11

def Sense.Subsenses : Sense → Slice Sense
  | .mk _ _ _ _ _ _ _ _ _ _ _ _ a12 => a12

def Sense.names : List String :=
  ["antonyms", "synonyms", "definitions", "shortDefinitions", "examples", "constructions", "inflections", "domainClasses", "notes", "translations", "semanticClasses", "id", "subsenses"]

/-- Decoding into the field with the given index, for the fields other than
`Subsenses`. -/
def Sense.setLeaf : Nat → Json → Sense → Sense × Option GoError
  | 0, v, .mk a0 a1 a2 a3 a4 a5 a6 a7 a8 a9 a10 a11 a12 =>
    let r := decodeSlice decodeAntonym Antonym.zero "[]main.Antonym" v a0
    (.mk r.1 a1 a2 a3 a4 a5 a6 a7 a8 a9 a10 a11 a12, r.2)
  | 1, v, .mk a0 a1 a2 a3 a4 a5 a6 a7 a8 a9 a10 a11 a12 =>
    let r := decodeSlice decodeSynonym Synonym.zero "[]main.Synonym" v a1
    (.mk a0 r.1 a2 a3 a4 a5 a6 a7 a8 a9 a10 a11 a12, r.2)
  | 2, v, .mk a0 a1 a2 a3 a4 a5 a6 a7 a8 a9 a10 a11 a12 =>
    let r := decodeSlice decodeString "" "[]string" v a2
    (.mk a0 a1 r.1 a3 a4 a5 a6 a7 a8 a9 a10 a11 a12, r.2)
  | 3, v, .mk a0 a1 a2 a3 a4 a5 a6 a7 a8 a9 a10 a11 a12 =>
    let r := decodeSlice decodeString "" "[]string" v a3
    (.mk a0 a1 a2 r.1 a4 a5 a6 a7 a8 a9 a10 a11 a12, r.2)
  | 4, v, .mk a0 a1 a2 a3 a4 a5 a6 a7 a8 a9 a10 a11 a12 =>
    let r := decodeSlice decodeExample Example.zero "[]main.Example" v a4
    (.mk a0 a1 a2 a3 r.1 a5 a6 a7 a8 a9 a10 a11 a12, r.2)
  | 5, v, .mk a0 a1 a2 a3 a4 a5 a6 a7 a8 a9 a10 a11 a12 =>
    let r := decodeSlice decodeConstruction Construction.zero "[]main.Construction" v a5
    (.mk a0 a1 a2 a3 a4 r.1 a6 a7 a8 a9 a10 a11 a12, r.2)
  | 6, v, .mk a0 a1 a2 a3 a4 a5 a6 a7 a8 a9 a10 a11 a12 =>
    let r := decodeSlice decodeInflection Inflection.zero "[]main.Inflection" v a6
    (.mk a0 a1 a2 a3 a4 a5 r.1 a7 a8 a9 a10 a11 a12, r.2)
  | 7, v, .mk a0 a1 a2 a3 a4 a5 a6 a7 a8 a9 a10 a11 a12 =>
    let r := decodeSlice decodeDomainClass DomainClass.zero "[]main.DomainClass" v a7
    (.mk a0 a1 a2 a3 a4 a5 a6 r.1 a8 a9 a10 a11 a12, r.2)
  | 8, v, .mk a0 a1 a2 a3 a4 a5 a6 a7 a8 a9 a10 a11 a12 =>
    let r := decodeSlice decodeNote Note.zero "[]main.Note" v a8
    (.mk a0 a1 a2 a3 a4 a5 a6 a7 r.1 a9 a10 a11 a12, r.2)
  | 9, v, .mk a0 a1 a2 a3 a4 a5 a6 a7 a8 a9 a10 a11 a12 =>
    let r := decodeSlice decodeTranslation Translation.zero "[]main.Translation" v a9
    (.mk a0 a1 a2 a3 a4 a5 a6 a7 a8 r.1 a10 a11 a12, r.2)
  | 10, v, .mk a0 a1 a2 a3 a4 a5 a6 a7 a8 a9 a10 a11 a12 =>
    let r := decodeSlice decodeSemanticClass SemanticClass.zero "[]main.SemanticClass" v a10
    (.mk a0 a1 a2 a3 a4 a5 a6 a7 a8 a9 r.1 a11 a12, r.2)
  | 11, v, .mk a0 a1 a2 a3 a4 a5 a6 a7 a8 a9 a10 a11 a12 =>
    let r := decodeString v a11
    (.mk a0 a1 a2 a3 a4 a5 a6 a7 a8 a9 a10 r.1 a12, r.2)
  | _, _, t => (t, none)

def Sense.withSubsenses : Sense → Slice Sense → Sense
  | .mk a0 a1 a2 a3 a4 a5 a6 a7 a8 a9 a10 a11 _, s => .mk a0 a1 a2 a3 a4 a5 a6 a7 a8 a9 a10 a11 s

/-- Decoding into the field of a `Sense` that an object key selected, `sub`
being the decoding of the value into the slice `Subsenses`. -/
def Sense.setSelected (sub : Slice Sense → Slice Sense × Option GoError) :
    Option Nat → Json → Sense → Sense × Option GoError
  | none, _, s => (s, none)
  | some 12, _, s =>
    let r := sub s.Subsenses
    (s.withSubsenses r.1, r.2)
  | some i, v, s => Sense.setLeaf i v s

mutual
/-- The decoder of `Sense`, by recursion on the JSON value: `Subsenses` holds
values of the type itself. -/
def decodeSense : Json → Sense → Sense × Option GoError
  | .object ms, s => decodeSenseMembers ms s
  | .null, s => (s, none)
  | .bool b, s => (s, some (typeError (.bool b) "main.Sense"))
  | .number lit, s => (s, some (typeError (.number lit) "main.Sense"))
  | .string x, s => (s, some (typeError (.string x) "main.Sense"))
  | .array xs, s => (s, some (typeError (.array xs) "main.Sense"))
/-- The members of an object decoded in order into a `Sense`. -/
def decodeSenseMembers : List (String × Json) → Sense → Sense × Option GoError
  | [], s => (s, none)
  | (k, v) :: rest, s =>
    let r := Sense.setSelected (decodeSenseSlice v) (lookupName Sense.names k) v s
    let r2 := decodeSenseMembers rest r.1
    (r2.1, firstError r.2 r2.2)
/-- Decoding into a `[]Sense`. -/
def decodeSenseSlice : Json → Slice Sense → Slice Sense × Option GoError
  | .array xs, _ => let e := decodeSenseElems xs; (some e.1, e.2)
  | .null, _ => (none, none)
  | .bool b, cur => (cur, some (typeError (.bool b) "[]main.Sense"))
  | .number lit, cur => (cur, some (typeError (.number lit) "[]main.Sense"))
  | .string x, cur => (cur, some (typeError (.string x) "[]main.Sense"))
  | .object ms, cur => (cur, some (typeError (.object ms) "[]main.Sense"))
/-- The elements of an array decoded into a `[]Sense`. -/
def decodeSenseElems : List Json → List Sense × Option GoError
  | [] => ([], none)
  | x :: xs =>
    let a := decodeSense x Sense.zero
    let b := decodeSenseElems xs
    (a.1 :: b.1, firstError a.2 b.2)
end

/-- Decoding into the field of a `Sense` with the given index. -/
def Sense.setField : Nat → Json → Sense → Sense × Option GoError
  | 12, v, s =>
    let r := decodeSlice decodeSense Sense.zero "[]main.Sense" v s.Subsenses
    (s.withSubsenses r.1, r.2)
  | i, v, s => Sense.setLeaf i v s

mutual
def encodeSense : Sense → Json
  | .mk a0 a1 a2 a3 a4 a5 a6 a7 a8 a9 a10 a11 a12 =>
    .object [("antonyms", encodeSlice encodeAntonym a0), ("synonyms", encodeSlice encodeSynonym a1), ("definitions", encodeSlice Json.string a2), ("shortDefinitions", encodeSlice Json.string a3), ("examples", encodeSlice encodeExample a4), ("constructions", encodeSlice encodeConstruction a5), ("inflections", encodeSlice encodeInflection a6), ("domainClasses", encodeSlice encodeDomainClass a7), ("notes", encodeSlice encodeNote a8), ("translations", encodeSlice encodeTranslation a9), ("semanticClasses", encodeSlice encodeSemanticClass a10), ("id", Json.string a11), ("subsenses", encodeSenseSlice a12)]
def encodeSenseSlice : Option (List Sense) → Json
  | none => .null
  | some xs => .array (encodeSenseElems xs)
def encodeSenseElems : List Sense → List Json
  | [] => []
  | x :: xs => encodeSense x :: encodeSenseElems xs
end

def Sense.fieldZero : Nat → Sense → Prop
  | 0, t => t.Antonyms = none
  | 1, t => t.Synonyms = none
  | 2, t => t.Definitions = none
  | 3, t => t.ShortDefinitions = none
  | 4, t => t.Examples = none
  | 5, t => t.Constructions = none
  | 6, t => t.Inflections = none
  | 7, t => t.DomainClasses = none
  | 8, t => t.Notes = none
  | 9, t => t.Translations = none
  | 10, t => t.SemanticClasses = none
  | 11, t => t.Id = ""
  | 12, t => t.Subsenses = none
  | _, _ => True

/-- The zero value `Entry{}`. -/
def Entry.zero : Entry :=
  ⟨none, none, none, none, none⟩

def Entry.names : List String :=
  ["senses", "pronunciations", "etymologies", "inflections", "grammaticalFeatures"]

/-- Decoding into the field of a `Entry` with the given index. -/
def Entry.setField : Nat → Json → Entry → Entry × Option GoError
  | 0, v, t =>
    let r := decodeSlice decodeSense Sense.zero "[]main.Sense" v t.Senses
    ({ t with Senses := r.1 }, r.2)
  | 1, v, t =>
    let r := decodeSlice decodePronunciation Pronunciation.zero "[]main.Pronunciation" v t.Pronunciations
    ({ t with Pronunciations := r.1 }, r.2)
  | 2, v, t =>
    let r := decodeSlice decodeString "" "[]string" v t.Etymologies
    ({ t with Etymologies := r.1 }, r.2)
  | 3, v, t =>
    let r := decodeSlice decodeInflection Inflection.zero "[]main.Inflection" v t.Inflections
    ({ t with Inflections := r.1 }, r.2)
  | 4, v, t =>
    let r := decodeSlice decodeGrammaticalFeature GrammaticalFeature.zero "[]main.GrammaticalFeature" v t.GrammaticalFeatures
    ({ t with GrammaticalFeatures := r.1 }, r.2)
  | _, _, t => (t, none)

def decodeEntry : Json → Entry → Entry × Option GoError :=
  decodeStruct Entry.names (Entry.setField) "main.Entry"

def encodeEntry (t : Entry) : Json :=
  .object [("senses", encodeSlice encodeSense t.Senses), ("pronunciations", encodeSlice encodePronunciation t.Pronunciations), ("etymologies", encodeSlice Json.string t.Etymologies), ("inflections", encodeSlice encodeInflection t.Inflections), ("grammaticalFeatures", encodeSlice encodeGrammaticalFeature t.GrammaticalFeatures)]

def Entry.fieldZero : Nat → Entry → Prop
  | 0, t => t.Senses = none
  | 1, t => t.Pronunciations = none
  | 2, t => t.Etymologies = none
  | 3, t => t.Inflections = none
  | 4, t => t.GrammaticalFeatures = none
  | _, _ => True

/-- The zero value `LexicalEntry{}`. -/
def LexicalEntry.zero : LexicalEntry :=
  ⟨none, "", LexicalCategory.zero, "", none, none⟩

def LexicalEntry.names : List String :=
  ["entries", "language", "lexicalCategory", "text", "phrases", "sentences"]

/-- Decoding into the field of a `LexicalEntry` with the given index. -/
def LexicalEntry.setField : Nat → Json → LexicalEntry → LexicalEntry × Option GoError
  | 0, v, t =>
    let r := decodeSlice decodeEntry Entry.zero "[]main.Entry" v t.Entries
    ({ t with Entries := r.1 }, r.2)
  | 1, v, t =>
    let r := decodeString v t.Language
    ({ t with Language := r.1 }, r.2)
  | 2, v, t =>
    let r := decodeLexicalCategory v t.LexicalCategory
    ({ t with LexicalCategory := r.1 }, r.2)
  | 3, v, t =>
    let r := decodeString v t.Text
    ({ t with Text := r.1 }, r.2)
  | 4, v, t =>
    let r := decodeSlice decodePhrase Phrase.zero "[]main.Phrase" v t.Phrases
    ({ t with Phrases := r.1 }, r.2)
  | 5, v, t =>
    let r := decodeSlice decodeSentence Sentence.zero "[]main.Sentence" v t.Sentences
    ({ t with Sentences := r.1 }, r.2)
  | _, _, t => (t, none)

def decodeLexicalEntry : Json → LexicalEntry → LexicalEntry × Option GoError :=
  decodeStruct LexicalEntry.names (LexicalEntry.setField) "main.LexicalEntry"

def encodeLexicalEntry (t : LexicalEntry) : Json :=
  .object [("entries", encodeSlice encodeEntry t.Entries), ("language", Json.string t.Language), ("lexicalCategory", encodeLexicalCategory t.LexicalCategory), ("text", Json.string t.Text), ("phrases", encodeSlice encodePhrase t.Phrases), ("sentences", encodeSlice encodeSentence t.Sentences)]

def LexicalEntry.fieldZero : Nat → LexicalEntry → Prop
  | 0, t => t.Entries = none
  | 1, t => t.Language = ""
  | 2, t => t.LexicalCategory = LexicalCategory.zero
  | 3, t => t.Text = ""
  | 4, t => t.Phrases = none
  | 5, t => t.Sentences = none
  | _, _ => True

/-- The zero value `Result{}`. -/
def Result.zero : Result :=
  ⟨"", "", none, "", ""⟩

def Result.names : List String :=
  ["id", "language", "lexicalEntries", "type", "word"]

/-- Decoding into the field of a `Result` with the given index. -/
def Result.setField : Nat → Json → Result → Result × Option GoError
  | 0, v, t =>
    let r := decodeString v t.Id
    ({ t with Id := r.1 }, r.2)
  | 1, v, t =>
    let r := decodeString v t.Language
    ({ t with Language := r.1 }, r.2)
  | 2, v, t =>
    let r := decodeSlice decodeLexicalEntry LexicalEntry.zero "[]main.LexicalEntry" v t.LexicalEntries
    ({ t with LexicalEntries := r.1 }, r.2)
  | 3, v, t =>
    let r := decodeString v t.«Type»
    ({ t with «Type» := r.1 }, r.2)
  | 4, v, t =>
    let r := decodeString v t.Word
    ({ t with Word := r.1 }, r.2)
  | _, _, t => (t, none)

def decodeResult : Json → Result → Result × Option GoError :=
  decodeStruct Result.names (Result.setField) "main.Result"

def encodeResult (t : Result) : Json :=
  .object [("id", Json.string t.Id), ("language", Json.string t.Language), ("lexicalEntries", encodeSlice encodeLexicalEntry t.LexicalEntries), ("type", Json.string t.«Type»), ("word", Json.string t.Word)]

def Result.fieldZero : Nat → Result → Prop
  | 0, t => t.Id = ""
  | 1, t => t.Language = ""
  | 2, t => t.LexicalEntries = none
  | 3, t => t.«Type» = ""
  | 4, t => t.Word = ""
  | _, _ => True


def OxfordResponse.names : List String :=
  ["metadata", "query", "results"]

/-- Decoding into the field of a `OxfordResponse` with the given index. -/
def OxfordResponse.setField (fc : FloatCodec) : Nat → Json → OxfordResponse → OxfordResponse × Option GoError
  | 0, v, t =>
    let r := decodeMap fc v t.Meta
    ({ t with Meta := r.1 }, r.2)
  | 1, v, t =>
    let r := decodeString v t.Query
    ({ t with Query := r.1 }, r.2)
  | 2, v, t =>
    let r := decodeSlice decodeResult Result.zero "[]main.Result" v t.Results
    ({ t with Results := r.1 }, r.2)
  | _, _, t => (t, none)

def decodeOxfordResponse (fc : FloatCodec) : Json → OxfordResponse → OxfordResponse × Option GoError :=
  decodeStruct OxfordResponse.names (OxfordResponse.setField fc) "main.OxfordResponse"

/-- The encoder of `OxfordResponse`; `none` when `Marshal` fails on a value
of the metadata map. -/
def encodeOxfordResponse (fc : FloatCodec) (t : OxfordResponse) : Option Json :=
  match encodeAnyMap fc t.Meta with
  | none => none
  | some m =>
    some (.object [("metadata", m), ("query", Json.string t.Query),
      ("results", encodeSlice encodeResult t.Results)])

def OxfordResponse.fieldZero : Nat → OxfordResponse → Prop
  | 0, t => t.Meta = none
  | 1, t => t.Query = ""
  | 2, t => t.Results = none
  | _, _ => True

/-- The call `json.NewDecoder(body).Decode(data)` as the library performs it
for `data` of type `*OxfordResponse`: the error of the reader or scanner
leaves `data` untouched. -/
def jsonDecode (fc : FloatCodec) : Body → OxfordResponse → OxfordResponse × Option GoError
  | .json j, data => decodeOxfordResponse fc j data
  | .invalid err, data => (data, some err)

/-- The library with this decoder. -/
def stdLib (fc : FloatCodec) (urlParse : String → Bool)
    (Do : HTTPClient → Request → Except GoError HTTPResponse) : Lib :=
  { urlParse := urlParse, Do := Do, Decode := jsonDecode fc }

/-- Every name the `json` tags of the struct types declare. -/
def schemaNames : List String :=
  ["antonyms", "audioFile", "constructions", "definitions", "dialects", "domainClasses", "entries", "etymologies", "examples", "grammaticalFeatures", "id", "inflectedForm", "inflections", "language", "lexicalCategory", "lexicalEntries", "metadata", "notes", "phoneticNotation", "phoneticSpelling", "phrases", "pronunciations", "query", "regions", "registers", "results", "semanticClasses", "senses", "sentences", "shortDefinitions", "subsenses", "synonyms", "text", "translations", "type", "word"]

/-- A name outside the schema: no declared name matches it, not even under
the decoder's case folding. -/
def outsideSchema (k : String) : Prop :=
  ∀ n ∈ schemaNames, foldName n ≠ foldName k

/-- A struct type of the schema with its decoder: the zero value, the
declared names, the decoding into the field with a given index, what it is
for that field to hold its zero value, the name of the Go type and the
decoder. -/
structure StructDecoder where
  T : Type
  zero : T
  names : List String
  setField : Nat → Json → T → T × Option GoError
  fieldZero : Nat → T → Prop
  goType : String
  decode : Json → T → T × Option GoError

/-- The struct types of the schema, the 21 of the type block. -/
def schemaStructs (fc : FloatCodec) : List StructDecoder :=
  [⟨OxfordResponse, OxfordResponse.zero, OxfordResponse.names, OxfordResponse.setField fc, OxfordResponse.fieldZero,
     "main.OxfordResponse", decodeOxfordResponse fc⟩,
   ⟨Result, Result.zero, Result.names, Result.setField, Result.fieldZero,
     "main.Result", decodeResult⟩,
   ⟨LexicalEntry, LexicalEntry.zero, LexicalEntry.names, LexicalEntry.setField, LexicalEntry.fieldZero,
     "main.LexicalEntry", decodeLexicalEntry⟩,
   ⟨Entry, Entry.zero, Entry.names, Entry.setField, Entry.fieldZero,
     "main.Entry", decodeEntry⟩,
   ⟨Sense, Sense.zero, Sense.names, Sense.setField, Sense.fieldZero,
     "main.Sense", decodeSense⟩,
   ⟨Pronunciation, Pronunciation.zero, Pronunciation.names, Pronunciation.setField, Pronunciation.fieldZero,
     "main.Pronunciation", decodePronunciation⟩,
   ⟨Synonym, Synonym.zero, Synonym.names, Synonym.setField, Synonym.fieldZero,
     "main.Synonym", decodeSynonym⟩,
   ⟨Antonym, Antonym.zero, Antonym.names, Antonym.setField, Antonym.fieldZero,
     "main.Antonym", decodeAntonym⟩,
   ⟨Example, Example.zero, Example.names, Example.setField, Example.fieldZero,
     "main.Example", decodeExample⟩,
   ⟨Sentence, Sentence.zero, Sentence.names, Sentence.setField, Sentence.fieldZero,
     "main.Sentence", decodeSentence⟩,
   ⟨Inflection, Inflection.zero, Inflection.names, Inflection.setField, Inflection.fieldZero,
     "main.Inflection", decodeInflection⟩,
   ⟨Construction, Construction.zero, Construction.names, Construction.setField, Construction.fieldZero,
     "main.Construction", decodeConstruction⟩,
   ⟨Translation, Translation.zero, Translation.names, Translation.setField, Translation.fieldZero,
     "main.Translation", decodeTranslation⟩,
   ⟨LexicalCategory, LexicalCategory.zero, LexicalCategory.names, LexicalCategory.setField, LexicalCategory.fieldZero,
     "main.LexicalCategory", decodeLexicalCategory⟩,
   ⟨Region, Region.zero, Region.names, Region.setField, Region.fieldZero,
     "main.Region", decodeRegion⟩,
   ⟨DomainClass, DomainClass.zero, DomainClass.names, DomainClass.setField, DomainClass.fieldZero,
     "main.DomainClass", decodeDomainClass⟩,
   ⟨Note, Note.zero, Note.names, Note.setField, Note.fieldZero,
     "main.Note", decodeNote⟩,
   ⟨SemanticClass, SemanticClass.zero, SemanticClass.names, SemanticClass.setField, SemanticClass.fieldZero,
     "main.SemanticClass", decodeSemanticClass⟩,
   ⟨Register, Register.zero, Register.names, Register.setField, Register.fieldZero,
     "main.Register", decodeRegister⟩,
   ⟨Phrase, Phrase.zero, Phrase.names, Phrase.setField, Phrase.fieldZero,
     "main.Phrase", decodePhrase⟩,
   ⟨GrammaticalFeature, GrammaticalFeature.zero, GrammaticalFeature.names, GrammaticalFeature.setField, GrammaticalFeature.fieldZero,
     "main.GrammaticalFeature", decodeGrammaticalFeature⟩]

/-! ## Bodies that differ by members with names outside the schema -/

mutual
/-- The second JSON value is the first with members added to its objects,
at any depth: every added member has a name outside the schema, and nothing
is added inside the value of a member named `metadata`. -/
inductive Extends : Json → Json → Prop
  | refl (j : Json) : Extends j j
  | array {xs ys : List Json} : ExtendsList xs ys → Extends (.array xs) (.array ys)
  | object {ms ms2 : List (String × Json)} :
      ExtendsMembers ms ms2 → Extends (.object ms) (.object ms2)
/-- Element by element. -/
inductive ExtendsList : List Json → List Json → Prop
  | nil : ExtendsList [] []
  | cons {x y : Json} {xs ys : List Json} :
      Extends x y → ExtendsList xs ys → ExtendsList (x :: xs) (y :: ys)
/-- Member by member, with members added anywhere. -/
inductive ExtendsMembers : List (String × Json) → List (String × Json) → Prop
  | nil : ExtendsMembers [] []
  | keep {ms ms2 : List (String × Json)} (k : String) {v v2 : Json} :
      foldName k ≠ foldName "metadata" → Extends v v2 → ExtendsMembers ms ms2 →
      ExtendsMembers ((k, v) :: ms) ((k, v2) :: ms2)
  | same {ms ms2 : List (String × Json)} (k : String) (v : Json) :
      ExtendsMembers ms ms2 → ExtendsMembers ((k, v) :: ms) ((k, v) :: ms2)
  | add {ms ms2 : List (String × Json)} (k : String) (v : Json) :
      outsideSchema k → ExtendsMembers ms ms2 → ExtendsMembers ms ((k, v) :: ms2)
end

/-! ## Sample clients and libraries for the concrete checks -/

/-- A client as `NewClient "id" "key"` builds it. -/
def sampleClient : Client :=
  { client := some { Timeout := defaultTimeout }, appID := "id", appKEY := "key" }

/-- A library whose transport answers every request with 404 and a body. -/
def libNotFound : Lib where
  urlParse := fun _ => true
  Do := fun _ _ => .ok { StatusCode := 404, Status := "404 Not Found",
                         Body := .json (.object [("error", .string "No entry found")]) }
  Decode := fun _ _ => ({ Meta := none, Query := "decoded", Results := none }, none)

/-- A library whose transport fails. -/
def libTimeout : Lib where
  urlParse := fun _ => true
  Do := fun _ _ => .error (errorsNew "context deadline exceeded")
  Decode := fun _ data => (data, none)

/-- A library whose transport answers 200 and whose decoder fills the query
and then fails. -/
def libHalfDecoded : Lib where
  urlParse := fun _ => true
  Do := fun _ _ => .ok { StatusCode := 200, Status := "200 OK",
                         Body := .json (.object [("query", .string "cat"), ("results", .number "1")]) }
  Decode := fun _ data => ({ data with Query := "cat" },
    some (errorsNew "json: cannot unmarshal number into Go value of type []main.Result"))

/-- A library whose transport answers 200 and whose decoder succeeds. -/
def libDecoded : Lib where
  urlParse := fun _ => true
  Do := fun _ _ => .ok { StatusCode := 200, Status := "200 OK",
                         Body := .json (.object [("query", .string "cat")]) }
  Decode := fun _ data => ({ data with Query := "cat" }, none)

/-! ## Round trip: statement and samples -/

mutual
/-- How deep a JSON value nests arrays and objects: 0 for a literal. -/
def Json.depth : Json → Nat
  | .null => 0
  | .bool _ => 0
  | .number _ => 0
  | .string _ => 0
  | .array xs => Json.depthElems xs + 1
  | .object ms => Json.depthMembers ms + 1
/-- The deepest of the elements. -/
def Json.depthElems : List Json → Nat
  | [] => 0
  | x :: xs => max (Json.depth x) (Json.depthElems xs)
/-- The deepest of the member values. -/
def Json.depthMembers : List (String × Json) → Nat
  | [] => 0
  | (_, v) :: ms => max (Json.depth v) (Json.depthMembers ms)
end

/-- The library's `maxNestingDepth` (`encoding/json`, scanner). -/
def maxNestingDepth : Nat := 10000

/-- The body whose text is the JSON value `j`, as `Decode` reads it: the
scanner delivers the value, or fails with `exceeded max depth` when the
value nests arrays and objects more than `maxNestingDepth` deep. -/
def scanned (j : Json) : Body :=
  if j.depth ≤ maxNestingDepth then .json j
  else .invalid (errorsNew "exceeded max depth")

/-- Round trip of the response `r`: whenever the reply has status 200 and its
body is the text of the JSON encoding of `r`, the operation returns `r` and
a nil error.  Equality of the responses is equality field by field, the
sequences in the same order.  The strings of `r` are Lean strings, that is
valid UTF-8 text; a Go string with other bytes, which `Marshal` rewrites to
U+FFFD, is outside what is stated here. -/
def RoundTripAt (fc : FloatCodec) (r : OxfordResponse) : Prop :=
  ∀ (urlParse : String → Bool) (Do : HTTPClient → Request → Except GoError HTTPResponse)
    (c : Client) (op : Operation) (hc : HTTPClient) (req : Request) (status : String)
    (j : Json),
    c.client = some hc →
    c.generateRequest (stdLib fc urlParse Do) op.endpoint MethodGet = some req →
    Do hc req = .ok { StatusCode := 200, Status := status, Body := scanned j } →
    encodeOxfordResponse fc r = some j →
    (op.run (stdLib fc urlParse Do) c).result = some (r, none)

/-- A sense whose `Subsenses` nest `n` senses deep. -/
def nestedSense : Nat → Sense
  | 0 => Sense.zero
  | n + 1 =>
    .mk none none none none none none none none none none none "" (some [nestedSense n])

/-- An entry with one sense, whose `Subsenses` nest `n` senses deep. -/
def deepEntry (n : Nat) : Entry :=
  { Senses := some [nestedSense n], Pronunciations := none, Etymologies := none,
    Inflections := none, GrammaticalFeatures := none }

/-- A lexical entry with that entry. -/
def deepLexicalEntry (n : Nat) : LexicalEntry :=
  { Entries := some [deepEntry n], Language := "", LexicalCategory := ⟨"", ""⟩, Text := "",
    Phrases := none, Sentences := none }

/-- A result with that lexical entry. -/
def deepResult (n : Nat) : Result :=
  { Id := "", Language := "", LexicalEntries := some [deepLexicalEntry n], «Type» := "",
    Word := "" }

/-- A response with that result: one sense whose `Subsenses` nest `n` senses
deep; its metadata map is nil. -/
def deepResponse (n : Nat) : OxfordResponse :=
  { Meta := none, Query := "", Results := some [deepResult n] }

/-- A number conversion that knows the literals `1` and `1.5` and their
float64 bit patterns. -/
def sampleCodec : FloatCodec where
  parse := fun s =>
    if s = "1" then some ⟨0x3FF0000000000000⟩
    else if s = "1.5" then some ⟨0x3FF8000000000000⟩
    else none
  format := fun f =>
    if f.bits = 0x3FF0000000000000 then some "1"
    else if f.bits = 0x3FF8000000000000 then some "1.5"
    else none

/-- The library with the JSON decoder, a URL parser that accepts, and a
transport that answers every request with status 200 and the body `j`. -/
def libBody (j : Json) : Lib :=
  stdLib sampleCodec (fun _ => true)
    (fun _ _ => .ok { StatusCode := 200, Status := "200 OK", Body := .json j })

/-- A response whose metadata map holds an `int`. -/
def intMetaResponse : OxfordResponse :=
  { Meta := some [("total", .int 1)], Query := "cat", Results := none }

/-- A sense with a subsense that has a subsense. -/
def sampleSense : Sense :=
  .mk (some [⟨"en", "dog"⟩]) (some [⟨"en", "feline"⟩]) (some ["a small animal"]) none
    (some [⟨"the cat sat", some [⟨"n", "note"⟩], none, some []⟩]) none none
    (some [⟨"zoology", "Zoology"⟩]) none none none "s1"
    (some [.mk none none (some ["a kitten"]) none none none none none none none none "s1.1"
      (some [.mk none none none none none none none none none none none "s1.1.1" (some [])])])

/-- A response with metadata of every kind the decoder produces, and with
nested results. -/
def sampleResponse : OxfordResponse :=
  { Meta := some [("provider", .string "Oxford University Press"),
                  ("score", .float64 ⟨0x3FF8000000000000⟩),
                  ("flags", .slice (some [.bool true, .nil])),
                  ("schema", .map (some [("version", .float64 ⟨0x3FF0000000000000⟩)]))],
    Query := "cat",
    Results := some [
      { Id := "cat", Language := "en-gb",
        LexicalEntries := some [
          { Entries := some [
              { Senses := some [sampleSense],
                Pronunciations := some [⟨"cat.mp3", some ["British English"], "IPA", "kat"⟩],
                Etymologies := some ["Old English catt"],
                Inflections := none,
                GrammaticalFeatures := some [⟨"singular", "Singular", "Number"⟩] }],
            Language := "en-gb",
            LexicalCategory := ⟨"noun", "Noun"⟩,
            Text := "cat",
            Phrases := some [⟨"cat_and_mouse", "cat and mouse"⟩],
            Sentences := none }],
        «Type» := "headword", Word := "cat" },
      { Id := "cat2", Language := "en-gb", LexicalEntries := some [], «Type» := "headword",
        Word := "cat" }] }

/-- The body `{"query":"cat","results":[{"id":"cat"}]}`. -/
def plainBody : Json :=
  .object [("query", .string "cat"), ("results", .array [.object [("id", .string "cat")]])]

/-- The body `{"query":"cat","zzz":1,"results":[{"id":"cat","foo":{"bar":[]}}]}`. -/
def extendedBody : Json :=
  .object [("query", .string "cat"), ("zzz", .number "1"),
    ("results", .array [.object [("id", .string "cat"), ("foo", .object [("bar", .array [])])]])]

/-- The JSON encoding of `sampleResponse`. -/
def sampleBody : Json :=
  (encodeOxfordResponse sampleCodec sampleResponse).getD .null

/-! ## Request construction: lemmas -/

theorem Operation.run_eq_doHTTP (lib : Lib) (c : Client) (op : Operation) :
    op.run lib c = c.doHTTP lib op.endpoint := by
  cases op <;> rfl

theorem replaceFrom_space (cs : List Char) :
    replaceFrom [' '] ['_'] 0 cs = cs.map (fun ch => if ch = ' ' then '_' else ch) := by
  induction cs with
  | nil => rfl
  | cons c cs ih =>
    by_cases hc : c = ' '
    · subst hc
      simp [replaceFrom, ih]
    · have hc2 : ¬ (' ' = c) := fun h => hc h.symm
      simp [replaceFrom, ih, hc, hc2, List.isPrefixOf]

theorem stringsReplaceAll_space_data (word : String) :
    (stringsReplaceAll word " " "_").data
      = word.data.map (fun ch => if ch = ' ' then '_' else ch) := by
  have h : stringsReplaceAll word " " "_" = ⟨replaceFrom [' '] ['_'] 0 word.data⟩ := rfl
  rw [h, replaceFrom_space]

theorem doHTTP_built (lib : Lib) (c : Client) (endpoint : String) :
    (c.doHTTP lib endpoint).built = [(MethodGet, host ++ endpoint)] := by
  unfold Client.doHTTP
  cases c.generateRequest lib endpoint MethodGet with
  | none => rfl
  | some req =>
    simp only
    rcases c.fetchJSON lib req OxfordResponse.zero with ⟨d, _ | ⟨r, _ | e⟩⟩ <;> rfl

/-- The request `generateRequest` returns, when it returns. -/
theorem generateRequest_eq (lib : Lib) (c : Client) (endpoint : String) (req : Request)
    (h : c.generateRequest lib endpoint MethodGet = some req) :
    req = { Method := "GET", URL := host ++ endpoint,
            Header := [("App_id", [c.appID]), ("App_key", [c.appKEY]),
                       ("Accept", ["application/json"])],
            Body := none } := by
  unfold Client.generateRequest httpNewRequest at h
  have hv : validMethod "GET" = true := by decide
  have h1 : canonicalMIMEHeaderKey "app_id" = "App_id" := by decide
  have h2 : canonicalMIMEHeaderKey "app_key" = "App_key" := by decide
  have h3 : canonicalMIMEHeaderKey "Accept" = "Accept" := by decide
  simp only [MethodGet] at h
  cases hc1 : stringContainsCTLByte (beforeFragment (host ++ endpoint)) <;>
    cases hc2 : lib.urlParse (host ++ endpoint) <;>
    simp [hv, hc1, hc2, Header.Set, Header.assign, h1, h2, h3] at h
  rw [← h]

theorem generateRequest_isSome (lib : Lib) (c : Client) (endpoint : String) :
    (c.generateRequest lib endpoint MethodGet).isSome
      = (!stringContainsCTLByte (beforeFragment (host ++ endpoint))
          && lib.urlParse (host ++ endpoint)) := by
  unfold Client.generateRequest httpNewRequest
  have hv : validMethod "GET" = true := by decide
  simp only [MethodGet]
  cases h1 : stringContainsCTLByte (beforeFragment (host ++ endpoint)) <;>
    cases h2 : lib.urlParse (host ++ endpoint) <;> simp [hv, h1, h2]

theorem doHTTP_sent (lib : Lib) (c : Client) (endpoint : String) (req : Request)
    (h : req ∈ (c.doHTTP lib endpoint).sent) :
    c.generateRequest lib endpoint MethodGet = some req := by
  unfold Client.doHTTP at h
  cases hg : c.generateRequest lib endpoint MethodGet with
  | none => simp [hg] at h
  | some r =>
    simp only [hg] at h
    rcases hf : c.fetchJSON lib r OxfordResponse.zero with ⟨d, _ | ⟨x, _ | e⟩⟩ <;>
      simp [hf] at h
    all_goals rw [h]

/-- The run of `doHTTP` on a client with an HTTP client, once the request is
built: what the transport returned decides the rest. -/
theorem doHTTP_eq (lib : Lib) (c : Client) (endpoint : String) (req : Request)
    (hc : HTTPClient) (hcl : c.client = some hc)
    (hg : c.generateRequest lib endpoint MethodGet = some req) :
    c.doHTTP lib endpoint =
      match lib.Do hc req with
      | .error err =>
        { built := [(MethodGet, host ++ endpoint)], sent := [req], decoded := [],
          result := some (OxfordResponse.zero, some err) }
      | .ok resp =>
        if resp.StatusCode ≠ StatusOK then
          { built := [(MethodGet, host ++ endpoint)], sent := [req], decoded := [],
            result := some (OxfordResponse.zero,
              some (errorsNew ("API Error: " ++ resp.Status))) }
        else
          match lib.Decode resp.Body OxfordResponse.zero with
          | (_, some err) =>
            { built := [(MethodGet, host ++ endpoint)], sent := [req],
              decoded := [resp.Body], result := some (OxfordResponse.zero, some err) }
          | (data, none) =>
            { built := [(MethodGet, host ++ endpoint)], sent := [req],
              decoded := [resp.Body], result := some (data, none) } := by
  unfold Client.doHTTP Client.fetchJSON
  simp only [hg, hcl]
  cases hd : lib.Do hc req with
  | error err => rfl
  | ok resp =>
    simp only
    by_cases hs : resp.StatusCode = StatusOK
    · simp only [hs, ne_eq, not_true_eq_false, if_false]
      rcases hdec : lib.Decode resp.Body OxfordResponse.zero with ⟨data, _ | err⟩ <;> rfl
    · simp only [hs, ne_eq, not_false_eq_true, if_true]

/-- A run of `doHTTP` that returns an error returns the zero value. -/
theorem doHTTP_error_zero (lib : Lib) (c : Client) (endpoint : String)
    (r : OxfordResponse) (e : GoError)
    (h : (c.doHTTP lib endpoint).result = some (r, some e)) : r = OxfordResponse.zero := by
  unfold Client.doHTTP at h
  cases hg : c.generateRequest lib endpoint MethodGet with
  | none => simp [hg] at h
  | some req =>
    simp only [hg] at h
    rcases hf : c.fetchJSON lib req OxfordResponse.zero with ⟨d, _ | ⟨x, _ | e2⟩⟩ <;>
      simp [hf] at h
    exact h.1.symm

theorem generateRequest_none_of_ctl (lib : Lib) (c : Client) (endpoint : String)
    (h : stringContainsCTLByte (beforeFragment (host ++ endpoint)) = true) :
    c.generateRequest lib endpoint MethodGet = none := by
  have hs := generateRequest_isSome lib c endpoint
  rw [h] at hs
  cases hg : c.generateRequest lib endpoint MethodGet with
  | none => rfl
  | some r => simp [hg] at hs

theorem doHTTP_panic (lib : Lib) (c : Client) (endpoint : String)
    (h : c.generateRequest lib endpoint MethodGet = none) :
    c.doHTTP lib endpoint
      = { built := [(MethodGet, host ++ endpoint)], sent := [], decoded := [], result := none } := by
  unfold Client.doHTTP
  simp only [h]

/-! ## The decoder: lemmas -/

@[simp] theorem firstError_none_left (e : Option GoError) : firstError none e = e := rfl

@[simp] theorem firstError_none_right (e : Option GoError) : firstError e none = e := by
  cases e <;> rfl

theorem findIdx?_eq_none_of_forall {α : Type} (p : α → Bool) :
    ∀ (l : List α), (∀ a ∈ l, p a = false) → l.findIdx? p = none := by
  intro l h
  rw [List.findIdx?_eq_none_iff]
  exact h

/-- A key that matches no declared name under folding selects no field. -/
theorem lookupName_eq_none (names : List String) (k : String)
    (h : ∀ n ∈ names, foldName n ≠ foldName k) : lookupName names k = none := by
  unfold lookupName
  have h1 : names.findIdx? (fun n => decide (n = k)) = none := by
    apply findIdx?_eq_none_of_forall
    intro n hn
    have := h n hn
    simp only [decide_eq_false_iff_not]
    intro hnk
    exact this (by rw [hnk])
  have h2 : names.findIdx? (fun n => decide (foldName n = foldName k)) = none := by
    apply findIdx?_eq_none_of_forall
    intro n hn
    simpa using h n hn
  rw [h1, h2]

/-- The field a key selects has a name that agrees with the key under
folding. -/
theorem lookupName_fold (names : List String) (k : String) (i : Nat)
    (h : lookupName names k = some i) : ∃ n, names[i]? = some n ∧ foldName n = foldName k := by
  unfold lookupName at h
  have key : ∀ (p : String → Bool), names.findIdx? p = some i →
      ∃ n, names[i]? = some n ∧ p n = true := by
    intro p hp
    rw [List.findIdx?_eq_some_iff_getElem] at hp
    obtain ⟨hlt, hpi, _⟩ := hp
    exact ⟨names[i], by simp [hlt], hpi⟩
  cases h1 : names.findIdx? (fun n => decide (n = k)) with
  | some i1 =>
    rw [h1] at h
    cases h
    obtain ⟨n, hn, hp⟩ := key _ h1
    refine ⟨n, hn, ?_⟩
    have : n = k := by simpa using hp
    rw [this]
  | none =>
    rw [h1] at h
    obtain ⟨n, hn, hp⟩ := key _ h
    exact ⟨n, hn, by simpa using hp⟩

theorem lookupName_lt (names : List String) (k : String) (i : Nat)
    (h : lookupName names k = some i) : i < names.length := by
  obtain ⟨n, hn, _⟩ := lookupName_fold names k i h
  exact (List.getElem?_eq_some_iff.1 hn).1

theorem decodeObject_nil {T : Type} (names : List String)
    (setField : Nat → Json → T → T × Option GoError) (t : T) :
    decodeObject names setField [] t = (t, none) := rfl

theorem decodeObject_cons_some {T : Type} (names : List String)
    (setField : Nat → Json → T → T × Option GoError) (k : String) (v : Json)
    (rest : List (String × Json)) (t : T) (i : Nat) (h : lookupName names k = some i) :
    decodeObject names setField ((k, v) :: rest) t
      = ((decodeObject names setField rest (setField i v t).1).1,
         firstError (setField i v t).2 (decodeObject names setField rest (setField i v t).1).2) := by
  simp only [decodeObject, h]

theorem decodeObject_cons_none {T : Type} (names : List String)
    (setField : Nat → Json → T → T × Option GoError) (k : String) (v : Json)
    (rest : List (String × Json)) (t : T) (h : lookupName names k = none) :
    decodeObject names setField ((k, v) :: rest) t = decodeObject names setField rest t := by
  simp only [decodeObject, h]

/-! ### Round trip of the generic decoders -/

theorem decodeString_string (s cur : String) : decodeString (.string s) cur = (s, none) := rfl

theorem decodeElems_map {α : Type} (dec : Json → α → α × Option GoError) (enc : α → Json)
    (zero : α) (h : ∀ a t0, dec (enc a) t0 = (a, none)) :
    ∀ xs : List α, decodeElems dec zero (xs.map enc) = (xs, none) := by
  intro xs
  induction xs with
  | nil => rfl
  | cons x xs ih => simp only [List.map, decodeElems, h, ih, firstError]

theorem decodeSlice_encodeSlice {α : Type} (dec : Json → α → α × Option GoError)
    (enc : α → Json) (zero : α) (goType : String) (h : ∀ a t0, dec (enc a) t0 = (a, none))
    (s cur : Slice α) : decodeSlice dec zero goType (encodeSlice enc s) cur = (s, none) := by
  cases s with
  | none => rfl
  | some xs => simp only [encodeSlice, decodeSlice, decodeElems_map dec enc zero h]

theorem decodeSlice_string (goType : String) (s cur : Slice String) :
    decodeSlice decodeString "" goType (encodeSlice Json.string s) cur = (s, none) :=
  decodeSlice_encodeSlice decodeString Json.string "" goType decodeString_string s cur

/-! ### Fields whose name is missing from the object -/

/-- A property that decoding into any other field keeps is kept by the
decoding of an object none of whose keys selects field `i`. -/
theorem decodeObject_keeps {T : Type} (names : List String)
    (setField : Nat → Json → T → T × Option GoError) (P : T → Prop) (i : Nat)
    (hP : ∀ (j : Nat) (v : Json) (t : T), j ≠ i → P t → P (setField j v t).1) :
    ∀ (ms : List (String × Json)) (t : T),
      (∀ kv ∈ ms, lookupName names kv.1 ≠ some i) → P t →
      P (decodeObject names setField ms t).1 := by
  intro ms
  induction ms with
  | nil => intro t _ ht; exact ht
  | cons kv rest ih =>
    intro t hms ht
    obtain ⟨k, v⟩ := kv
    have hk : lookupName names k ≠ some i := hms (k, v) (List.mem_cons_self _ _)
    have hrest : ∀ kv ∈ rest, lookupName names kv.1 ≠ some i :=
      fun kv hkv => hms kv (List.mem_cons_of_mem _ hkv)
    have hcases : lookupName names k = none ∨ ∃ j, lookupName names k = some j := by
      cases lookupName names k with
      | none => exact Or.inl rfl
      | some j => exact Or.inr ⟨j, rfl⟩
    rcases hcases with hl | ⟨j, hl⟩
    · rw [decodeObject_cons_none names setField k v rest t hl]
      exact ih t hrest ht
    · rw [decodeObject_cons_some names setField k v rest t j hl]
      have hji : j ≠ i := by
        intro h
        rw [h] at hl
        exact hk hl
      exact ih _ hrest (hP j v t hji ht)

/-- An error of the decoding of an object is the error of the decoding of
one of its members into the field its key selects. -/
theorem decodeObject_error {T : Type} (names : List String)
    (setField : Nat → Json → T → T × Option GoError) :
    ∀ (ms : List (String × Json)) (t : T),
      (decodeObject names setField ms t).2 ≠ none →
      ∃ kv ∈ ms, ∃ (i : Nat) (t2 : T),
        lookupName names kv.1 = some i ∧ (setField i kv.2 t2).2 ≠ none := by
  intro ms
  induction ms with
  | nil => intro t h; exact absurd rfl h
  | cons kv rest ih =>
    intro t h
    obtain ⟨k, v⟩ := kv
    have hcases : lookupName names k = none ∨ ∃ j, lookupName names k = some j := by
      cases lookupName names k with
      | none => exact Or.inl rfl
      | some j => exact Or.inr ⟨j, rfl⟩
    rcases hcases with hl | ⟨j, hl⟩
    · rw [decodeObject_cons_none names setField k v rest t hl] at h
      obtain ⟨kv, hkv, r⟩ := ih t h
      exact ⟨kv, List.mem_cons_of_mem _ hkv, r⟩
    · rw [decodeObject_cons_some names setField k v rest t j hl] at h
      by_cases he : (setField j v t).2 = none
      · rw [he, firstError_none_left] at h
        obtain ⟨kv, hkv, r⟩ := ih _ h
        exact ⟨kv, List.mem_cons_of_mem _ hkv, r⟩
      · exact ⟨(k, v), List.mem_cons_self _ _, j, t, hl, he⟩

/-! ### Members with names outside the schema -/

theorem typeError_kind (j j2 : Json) (goType : String) (h : j.kind = j2.kind) :
    typeError j2 goType = typeError j goType := by
  unfold typeError
  rw [h]

theorem decodeString_extends (j j2 : Json) (cur : String) (h : Extends j j2) :
    decodeString j2 cur = decodeString j cur := by
  cases h with
  | refl => rfl
  | array _ => rfl
  | object _ => rfl

/-- The decoding of the elements of an array, when each element of the
longer array is decoded like the element it extends. -/
theorem decodeElems_extends {α : Type} (dec : Json → α → α × Option GoError) (zero : α) :
    ∀ (ys xs : List Json), ExtendsList xs ys →
      (∀ y ∈ ys, ∀ (x : Json) (t : α), Extends x y → dec y t = dec x t) →
      decodeElems dec zero ys = decodeElems dec zero xs := by
  intro ys
  induction ys with
  | nil =>
    intro xs h _
    cases h
    rfl
  | cons y ys ih =>
    intro xs h hdec
    cases h with
    | cons hxy hrest =>
      simp only [decodeElems]
      rw [hdec y (List.mem_cons_self _ _) _ zero hxy,
        ih _ hrest (fun y2 hy2 => hdec y2 (List.mem_cons_of_mem _ hy2))]

theorem decodeSlice_extends {α : Type} (dec : Json → α → α × Option GoError) (zero : α)
    (goType : String) (j j2 : Json) (cur : Slice α) (h : Extends j j2)
    (hdec : ∀ (x y : Json) (t : α), Extends x y → sizeOf y < sizeOf j2 → dec y t = dec x t) :
    decodeSlice dec zero goType j2 cur = decodeSlice dec zero goType j cur := by
  cases h with
  | refl => rfl
  | object _ => rfl
  | @array xs ys hl =>
    simp only [decodeSlice]
    rw [decodeElems_extends dec zero ys xs hl]
    intro y hy x t hxy
    apply hdec x y t hxy
    have := List.sizeOf_lt_of_mem hy
    simp only [Json.array.sizeOf_spec]
    omega

/-- The decoding of the members of an object, when the members with names
outside the schema select no field and each value of the longer object is
decoded into its field like the value it extends. -/
theorem decodeObject_extends {T : Type} (names : List String)
    (setField : Nat → Json → T → T × Option GoError)
    (hout : ∀ k, outsideSchema k → lookupName names k = none) :
    ∀ (ms2 ms : List (String × Json)) (t : T), ExtendsMembers ms ms2 →
      (∀ kv ∈ ms2, ∀ (i : Nat) (v : Json) (t : T), lookupName names kv.1 = some i →
        foldName kv.1 ≠ foldName "metadata" → Extends v kv.2 →
        setField i kv.2 t = setField i v t) →
      decodeObject names setField ms2 t = decodeObject names setField ms t := by
  intro ms2
  induction ms2 with
  | nil =>
    intro ms t h _
    cases h
    rfl
  | cons kv2 rest2 ih =>
    intro ms t h hf
    have hrest : ∀ kv ∈ rest2, ∀ (i : Nat) (v : Json) (t : T), lookupName names kv.1 = some i →
        foldName kv.1 ≠ foldName "metadata" → Extends v kv.2 →
        setField i kv.2 t = setField i v t :=
      fun kv hkv => hf kv (List.mem_cons_of_mem _ hkv)
    cases h with
    | @keep ms0 _ k v v2 hk hv hms =>
      have hcases : lookupName names k = none ∨ ∃ j, lookupName names k = some j := by
        cases lookupName names k with
        | none => exact Or.inl rfl
        | some j => exact Or.inr ⟨j, rfl⟩
      rcases hcases with hl | ⟨j, hl⟩
      · rw [decodeObject_cons_none names setField k v2 rest2 t hl,
          decodeObject_cons_none names setField k v ms0 t hl]
        exact ih ms0 t hms hrest
      · rw [decodeObject_cons_some names setField k v2 rest2 t j hl,
          decodeObject_cons_some names setField k v ms0 t j hl,
          hf (k, v2) (List.mem_cons_self _ _) j v t hl hk hv,
          ih ms0 _ hms hrest]
    | @same ms0 _ k v hms =>
      have hcases : lookupName names k = none ∨ ∃ j, lookupName names k = some j := by
        cases lookupName names k with
        | none => exact Or.inl rfl
        | some j => exact Or.inr ⟨j, rfl⟩
      rcases hcases with hl | ⟨j, hl⟩
      · rw [decodeObject_cons_none names setField k v rest2 t hl,
          decodeObject_cons_none names setField k v ms0 t hl]
        exact ih ms0 t hms hrest
      · rw [decodeObject_cons_some names setField k v rest2 t j hl,
          decodeObject_cons_some names setField k v ms0 t j hl,
          ih ms0 _ hms hrest]
    | @add _ _ k v hk hms =>
      rw [decodeObject_cons_none names setField k v rest2 t (hout k hk)]
      exact ih ms t hms hrest

theorem decodeStruct_extends {T : Type} (names : List String)
    (setField : Nat → Json → T → T × Option GoError) (goType : String)
    (hout : ∀ k, outsideSchema k → lookupName names k = none)
    (j j2 : Json) (t : T) (h : Extends j j2)
    (hf : ∀ (k : String) (i : Nat) (v v2 : Json) (t : T), lookupName names k = some i →
        foldName k ≠ foldName "metadata" → Extends v v2 → sizeOf v2 < sizeOf j2 →
        setField i v2 t = setField i v t) :
    decodeStruct names setField goType j2 t = decodeStruct names setField goType j t := by
  cases h with
  | refl => rfl
  | array _ => rfl
  | @object ms ms2 hm =>
    simp only [decodeStruct]
    apply decodeObject_extends names setField hout ms2 ms t hm
    intro kv hkv i v t hl hk hv
    apply hf kv.1 i v kv.2 t hl hk hv
    have h1 := List.sizeOf_lt_of_mem hkv
    have h2 : sizeOf kv.2 < sizeOf kv := by
      obtain ⟨a, b⟩ := kv
      simp only [Prod.mk.sizeOf_spec]
      omega
    simp only [Json.object.sizeOf_spec]
    omega

/-- One step of the decoding of an object: a member whose key selects field
`i` and whose value decodes into it without error. -/
theorem decodeObject_step {T : Type} (names : List String)
    (setField : Nat → Json → T → T × Option GoError) {k : String} {v : Json}
    {rest : List (String × Json)} {t t2 : T} {i : Nat} {r : T × Option GoError}
    (h : lookupName names k = some i) (hs : setField i v t = (t2, none))
    (hrest : decodeObject names setField rest t2 = r) :
    decodeObject names setField ((k, v) :: rest) t = r := by
  rw [decodeObject_cons_some names setField k v rest t i h, hs]
  simp only [firstError_none_left, hrest]

/-! ## The struct decoders: lemmas -/

/-! ### `GrammaticalFeature` -/

theorem GrammaticalFeature_lookup :
    lookupName GrammaticalFeature.names "id" = some 0 ∧
    lookupName GrammaticalFeature.names "text" = some 1 ∧
    lookupName GrammaticalFeature.names "type" = some 2 := by
  decide

theorem GrammaticalFeature_names_outside (k : String) (h : outsideSchema k) :
    lookupName GrammaticalFeature.names k = none :=
  lookupName_eq_none GrammaticalFeature.names k (fun n hn => h n (by revert n; decide))

theorem GrammaticalFeature_setField_fieldZero : ∀ (i j : Nat) (v : Json) (t : GrammaticalFeature), j ≠ i →
    GrammaticalFeature.fieldZero i t → GrammaticalFeature.fieldZero i (GrammaticalFeature.setField j v t).1
  | 0, j, v, t, hne, hz => by
    cases t
    rcases j with _ | _ | _ | j <;> first | exact absurd rfl hne | exact hz
  | 1, j, v, t, hne, hz => by
    cases t
    rcases j with _ | _ | _ | j <;> first | exact absurd rfl hne | exact hz
  | 2, j, v, t, hne, hz => by
    cases t
    rcases j with _ | _ | _ | j <;> first | exact absurd rfl hne | exact hz
  | _ + 3, _, _, _, _, _ => trivial

theorem GrammaticalFeature_zero_fieldZero : ∀ (i : Nat), GrammaticalFeature.fieldZero i GrammaticalFeature.zero
  | 0 => rfl
  | 1 => rfl
  | 2 => rfl
  | _ + 3 => trivial

theorem GrammaticalFeature_setField_enc_0 (a : String) (t : GrammaticalFeature) :
    GrammaticalFeature.setField 0 (Json.string a) t = ({ t with Id := a }, none) := by
  simp only [GrammaticalFeature.setField, decodeString_string]

theorem GrammaticalFeature_setField_enc_1 (a : String) (t : GrammaticalFeature) :
    GrammaticalFeature.setField 1 (Json.string a) t = ({ t with Text := a }, none) := by
  simp only [GrammaticalFeature.setField, decodeString_string]

theorem GrammaticalFeature_setField_enc_2 (a : String) (t : GrammaticalFeature) :
    GrammaticalFeature.setField 2 (Json.string a) t = ({ t with «Type» := a }, none) := by
  simp only [GrammaticalFeature.setField, decodeString_string]

theorem decodeGrammaticalFeature_encodeGrammaticalFeature (t t0 : GrammaticalFeature) :
    decodeGrammaticalFeature (encodeGrammaticalFeature t) t0 = (t, none) := by
  simp only [decodeGrammaticalFeature, encodeGrammaticalFeature, decodeStruct]
  exact
    decodeObject_step GrammaticalFeature.names GrammaticalFeature.setField GrammaticalFeature_lookup.1
      (GrammaticalFeature_setField_enc_0 t.Id _) (
    decodeObject_step GrammaticalFeature.names GrammaticalFeature.setField GrammaticalFeature_lookup.2.1
      (GrammaticalFeature_setField_enc_1 t.Text _) (
    decodeObject_step GrammaticalFeature.names GrammaticalFeature.setField GrammaticalFeature_lookup.2.2
      (GrammaticalFeature_setField_enc_2 t.«Type» _) (
    decodeObject_nil GrammaticalFeature.names GrammaticalFeature.setField t)))

theorem GrammaticalFeature_setField_extends : ∀ (i : Nat) (v v2 : Json) (t : GrammaticalFeature), Extends v v2 →
    GrammaticalFeature.setField i v2 t = GrammaticalFeature.setField i v t
  | 0, v, v2, t, h => by
    simp only [GrammaticalFeature.setField]
    rw [decodeString_extends v v2 _ h]
  | 1, v, v2, t, h => by
    simp only [GrammaticalFeature.setField]
    rw [decodeString_extends v v2 _ h]
  | 2, v, v2, t, h => by
    simp only [GrammaticalFeature.setField]
    rw [decodeString_extends v v2 _ h]
  | _ + 3, _, _, _, _ => by simp only [GrammaticalFeature.setField]

theorem decodeGrammaticalFeature_extends (j j2 : Json) (t : GrammaticalFeature) (h : Extends j j2) :
    decodeGrammaticalFeature j2 t = decodeGrammaticalFeature j t :=
  decodeStruct_extends GrammaticalFeature.names GrammaticalFeature.setField "main.GrammaticalFeature" GrammaticalFeature_names_outside j j2 t h
    (fun _ i v v2 t _ _ hv _ => GrammaticalFeature_setField_extends i v v2 t hv)

/-! ### `Phrase` -/

theorem Phrase_lookup :
    lookupName Phrase.names "id" = some 0 ∧ lookupName Phrase.names "text" = some 1 := by
  decide

theorem Phrase_names_outside (k : String) (h : outsideSchema k) :
    lookupName Phrase.names k = none :=
  lookupName_eq_none Phrase.names k (fun n hn => h n (by revert n; decide))

theorem Phrase_setField_fieldZero : ∀ (i j : Nat) (v : Json) (t : Phrase), j ≠ i →
    Phrase.fieldZero i t → Phrase.fieldZero i (Phrase.setField j v t).1
  | 0, j, v, t, hne, hz => by
    cases t
    rcases j with _ | _ | j <;> first | exact absurd rfl hne | exact hz
  | 1, j, v, t, hne, hz => by
    cases t
    rcases j with _ | _ | j <;> first | exact absurd rfl hne | exact hz
  | _ + 2, _, _, _, _, _ => trivial

theorem Phrase_zero_fieldZero : ∀ (i : Nat), Phrase.fieldZero i Phrase.zero
  | 0 => rfl
  | 1 => rfl
  | _ + 2 => trivial

theorem Phrase_setField_enc_0 (a : String) (t : Phrase) :
    Phrase.setField 0 (Json.string a) t = ({ t with Id := a }, none) := by
  simp only [Phrase.setField, decodeString_string]

theorem Phrase_setField_enc_1 (a : String) (t : Phrase) :
    Phrase.setField 1 (Json.string a) t = ({ t with Text := a }, none) := by
  simp only [Phrase.setField, decodeString_string]

theorem decodePhrase_encodePhrase (t t0 : Phrase) :
    decodePhrase (encodePhrase t) t0 = (t, none) := by
  simp only [decodePhrase, encodePhrase, decodeStruct]
  exact
    decodeObject_step Phrase.names Phrase.setField Phrase_lookup.1
      (Phrase_setField_enc_0 t.Id _) (
    decodeObject_step Phrase.names Phrase.setField Phrase_lookup.2
      (Phrase_setField_enc_1 t.Text _) (
    decodeObject_nil Phrase.names Phrase.setField t))

theorem Phrase_setField_extends : ∀ (i : Nat) (v v2 : Json) (t : Phrase), Extends v v2 →
    Phrase.setField i v2 t = Phrase.setField i v t
  | 0, v, v2, t, h => by
    simp only [Phrase.setField]
    rw [decodeString_extends v v2 _ h]
  | 1, v, v2, t, h => by
    simp only [Phrase.setField]
    rw [decodeString_extends v v2 _ h]
  | _ + 2, _, _, _, _ => by simp only [Phrase.setField]

theorem decodePhrase_extends (j j2 : Json) (t : Phrase) (h : Extends j j2) :
    decodePhrase j2 t = decodePhrase j t :=
  decodeStruct_extends Phrase.names Phrase.setField "main.Phrase" Phrase_names_outside j j2 t h
    (fun _ i v v2 t _ _ hv _ => Phrase_setField_extends i v v2 t hv)

/-! ### `Register` -/

theorem Register_lookup :
    lookupName Register.names "id" = some 0 ∧ lookupName Register.names "text" = some 1 := by
  decide

theorem Register_names_outside (k : String) (h : outsideSchema k) :
    lookupName Register.names k = none :=
  lookupName_eq_none Register.names k (fun n hn => h n (by revert n; decide))

theorem Register_setField_fieldZero : ∀ (i j : Nat) (v : Json) (t : Register), j ≠ i →
    Register.fieldZero i t → Register.fieldZero i (Register.setField j v t).1
  | 0, j, v, t, hne, hz => by
    cases t
    rcases j with _ | _ | j <;> first | exact absurd rfl hne | exact hz
  | 1, j, v, t, hne, hz => by
    cases t
    rcases j with _ | _ | j <;> first | exact absurd rfl hne | exact hz
  | _ + 2, _, _, _, _, _ => trivial

theorem Register_zero_fieldZero : ∀ (i : Nat), Register.fieldZero i Register.zero
  | 0 => rfl
  | 1 => rfl
  | _ + 2 => trivial

theorem Register_setField_enc_0 (a : String) (t : Register) :
    Register.setField 0 (Json.string a) t = ({ t with Id := a }, none) := by
  simp only [Register.setField, decodeString_string]

theorem Register_setField_enc_1 (a : String) (t : Register) :
    Register.setField 1 (Json.string a) t = ({ t with Text := a }, none) := by
  simp only [Register.setField, decodeString_string]

theorem decodeRegister_encodeRegister (t t0 : Register) :
    decodeRegister (encodeRegister t) t0 = (t, none) := by
  simp only [decodeRegister, encodeRegister, decodeStruct]
  exact
    decodeObject_step Register.names Register.setField Register_lookup.1
      (Register_setField_enc_0 t.Id _) (
    decodeObject_step Register.names Register.setField Register_lookup.2
      (Register_setField_enc_1 t.Text _) (
    decodeObject_nil Register.names Register.setField t))

theorem Register_setField_extends : ∀ (i : Nat) (v v2 : Json) (t : Register), Extends v v2 →
    Register.setField i v2 t = Register.setField i v t
  | 0, v, v2, t, h => by
    simp only [Register.setField]
    rw [decodeString_extends v v2 _ h]
  | 1, v, v2, t, h => by
    simp only [Register.setField]
    rw [decodeString_extends v v2 _ h]
  | _ + 2, _, _, _, _ => by simp only [Register.setField]

theorem decodeRegister_extends (j j2 : Json) (t : Register) (h : Extends j j2) :
    decodeRegister j2 t = decodeRegister j t :=
  decodeStruct_extends Register.names Register.setField "main.Register" Register_names_outside j j2 t h
    (fun _ i v v2 t _ _ hv _ => Register_setField_extends i v v2 t hv)

/-! ### `SemanticClass` -/

theorem SemanticClass_lookup :
    lookupName SemanticClass.names "id" = some 0 ∧
    lookupName SemanticClass.names "text" = some 1 := by
  decide

theorem SemanticClass_names_outside (k : String) (h : outsideSchema k) :
    lookupName SemanticClass.names k = none :=
  lookupName_eq_none SemanticClass.names k (fun n hn => h n (by revert n; decide))

theorem SemanticClass_setField_fieldZero : ∀ (i j : Nat) (v : Json) (t : SemanticClass), j ≠ i →
    SemanticClass.fieldZero i t → SemanticClass.fieldZero i (SemanticClass.setField j v t).1
  | 0, j, v, t, hne, hz => by
    cases t
    rcases j with _ | _ | j <;> first | exact absurd rfl hne | exact hz
  | 1, j, v, t, hne, hz => by
    cases t
    rcases j with _ | _ | j <;> first | exact absurd rfl hne | exact hz
  | _ + 2, _, _, _, _, _ => trivial

theorem SemanticClass_zero_fieldZero : ∀ (i : Nat), SemanticClass.fieldZero i SemanticClass.zero
  | 0 => rfl
  | 1 => rfl
  | _ + 2 => trivial

theorem SemanticClass_setField_enc_0 (a : String) (t : SemanticClass) :
    SemanticClass.setField 0 (Json.string a) t = ({ t with Id := a }, none) := by
  simp only [SemanticClass.setField, decodeString_string]

theorem SemanticClass_setField_enc_1 (a : String) (t : SemanticClass) :
    SemanticClass.setField 1 (Json.string a) t = ({ t with Text := a }, none) := by
  simp only [SemanticClass.setField, decodeString_string]

theorem decodeSemanticClass_encodeSemanticClass (t t0 : SemanticClass) :
    decodeSemanticClass (encodeSemanticClass t) t0 = (t, none) := by
  simp only [decodeSemanticClass, encodeSemanticClass, decodeStruct]
  exact
    decodeObject_step SemanticClass.names SemanticClass.setField SemanticClass_lookup.1
      (SemanticClass_setField_enc_0 t.Id _) (
    decodeObject_step SemanticClass.names SemanticClass.setField SemanticClass_lookup.2
      (SemanticClass_setField_enc_1 t.Text _) (
    decodeObject_nil SemanticClass.names SemanticClass.setField t))

theorem SemanticClass_setField_extends : ∀ (i : Nat) (v v2 : Json) (t : SemanticClass), Extends v v2 →
    SemanticClass.setField i v2 t = SemanticClass.setField i v t
  | 0, v, v2, t, h => by
    simp only [SemanticClass.setField]
    rw [decodeString_extends v v2 _ h]
  | 1, v, v2, t, h => by
    simp only [SemanticClass.setField]
    rw [decodeString_extends v v2 _ h]
  | _ + 2, _, _, _, _ => by simp only [SemanticClass.setField]

theorem decodeSemanticClass_extends (j j2 : Json) (t : SemanticClass) (h : Extends j j2) :
    decodeSemanticClass j2 t = decodeSemanticClass j t :=
  decodeStruct_extends SemanticClass.names SemanticClass.setField "main.SemanticClass" SemanticClass_names_outside j j2 t h
    (fun _ i v v2 t _ _ hv _ => SemanticClass_setField_extends i v v2 t hv)

/-! ### `Note` -/

theorem Note_lookup :
    lookupName Note.names "text" = some 0 ∧ lookupName Note.names "type" = some 1 := by
  decide

theorem Note_names_outside (k : String) (h : outsideSchema k) :
    lookupName Note.names k = none :=
  lookupName_eq_none Note.names k (fun n hn => h n (by revert n; decide))

theorem Note_setField_fieldZero : ∀ (i j : Nat) (v : Json) (t : Note), j ≠ i →
    Note.fieldZero i t → Note.fieldZero i (Note.setField j v t).1
  | 0, j, v, t, hne, hz => by
    cases t
    rcases j with _ | _ | j <;> first | exact absurd rfl hne | exact hz
  | 1, j, v, t, hne, hz => by
    cases t
    rcases j with _ | _ | j <;> first | exact absurd rfl hne | exact hz
  | _ + 2, _, _, _, _, _ => trivial

theorem Note_zero_fieldZero : ∀ (i : Nat), Note.fieldZero i Note.zero
  | 0 => rfl
  | 1 => rfl
  | _ + 2 => trivial

theorem Note_setField_enc_0 (a : String) (t : Note) :
    Note.setField 0 (Json.string a) t = ({ t with Text := a }, none) := by
  simp only [Note.setField, decodeString_string]

theorem Note_setField_enc_1 (a : String) (t : Note) :
    Note.setField 1 (Json.string a) t = ({ t with «Type» := a }, none) := by
  simp only [Note.setField, decodeString_string]

theorem decodeNote_encodeNote (t t0 : Note) :
    decodeNote (encodeNote t) t0 = (t, none) := by
  simp only [decodeNote, encodeNote, decodeStruct]
  exact
    decodeObject_step Note.names Note.setField Note_lookup.1
      (Note_setField_enc_0 t.Text _) (
    decodeObject_step Note.names Note.setField Note_lookup.2
      (Note_setField_enc_1 t.«Type» _) (
    decodeObject_nil Note.names Note.setField t))

theorem Note_setField_extends : ∀ (i : Nat) (v v2 : Json) (t : Note), Extends v v2 →
    Note.setField i v2 t = Note.setField i v t
  | 0, v, v2, t, h => by
    simp only [Note.setField]
    rw [decodeString_extends v v2 _ h]
  | 1, v, v2, t, h => by
    simp only [Note.setField]
    rw [decodeString_extends v v2 _ h]
  | _ + 2, _, _, _, _ => by simp only [Note.setField]

theorem decodeNote_extends (j j2 : Json) (t : Note) (h : Extends j j2) :
    decodeNote j2 t = decodeNote j t :=
  decodeStruct_extends Note.names Note.setField "main.Note" Note_names_outside j j2 t h
    (fun _ i v v2 t _ _ hv _ => Note_setField_extends i v v2 t hv)

/-! ### `DomainClass` -/

theorem DomainClass_lookup :
    lookupName DomainClass.names "id" = some 0 ∧ lookupName DomainClass.names "text" = some 1 := by
  decide

theorem DomainClass_names_outside (k : String) (h : outsideSchema k) :
    lookupName DomainClass.names k = none :=
  lookupName_eq_none DomainClass.names k (fun n hn => h n (by revert n; decide))

theorem DomainClass_setField_fieldZero : ∀ (i j : Nat) (v : Json) (t : DomainClass), j ≠ i →
    DomainClass.fieldZero i t → DomainClass.fieldZero i (DomainClass.setField j v t).1
  | 0, j, v, t, hne, hz => by
    cases t
    rcases j with _ | _ | j <;> first | exact absurd rfl hne | exact hz
  | 1, j, v, t, hne, hz => by
    cases t
    rcases j with _ | _ | j <;> first | exact absurd rfl hne | exact hz
  | _ + 2, _, _, _, _, _ => trivial

theorem DomainClass_zero_fieldZero : ∀ (i : Nat), DomainClass.fieldZero i DomainClass.zero
  | 0 => rfl
  | 1 => rfl
  | _ + 2 => trivial

theorem DomainClass_setField_enc_0 (a : String) (t : DomainClass) :
    DomainClass.setField 0 (Json.string a) t = ({ t with Id := a }, none) := by
  simp only [DomainClass.setField, decodeString_string]

theorem DomainClass_setField_enc_1 (a : String) (t : DomainClass) :
    DomainClass.setField 1 (Json.string a) t = ({ t with Text := a }, none) := by
  simp only [DomainClass.setField, decodeString_string]

theorem decodeDomainClass_encodeDomainClass (t t0 : DomainClass) :
    decodeDomainClass (encodeDomainClass t) t0 = (t, none) := by
  simp only [decodeDomainClass, encodeDomainClass, decodeStruct]
  exact
    decodeObject_step DomainClass.names DomainClass.setField DomainClass_lookup.1
      (DomainClass_setField_enc_0 t.Id _) (
    decodeObject_step DomainClass.names DomainClass.setField DomainClass_lookup.2
      (DomainClass_setField_enc_1 t.Text _) (
    decodeObject_nil DomainClass.names DomainClass.setField t))

theorem DomainClass_setField_extends : ∀ (i : Nat) (v v2 : Json) (t : DomainClass), Extends v v2 →
    DomainClass.setField i v2 t = DomainClass.setField i v t
  | 0, v, v2, t, h => by
    simp only [DomainClass.setField]
    rw [decodeString_extends v v2 _ h]
  | 1, v, v2, t, h => by
    simp only [DomainClass.setField]
    rw [decodeString_extends v v2 _ h]
  | _ + 2, _, _, _, _ => by simp only [DomainClass.setField]

theorem decodeDomainClass_extends (j j2 : Json) (t : DomainClass) (h : Extends j j2) :
    decodeDomainClass j2 t = decodeDomainClass j t :=
  decodeStruct_extends DomainClass.names DomainClass.setField "main.DomainClass" DomainClass_names_outside j j2 t h
    (fun _ i v v2 t _ _ hv _ => DomainClass_setField_extends i v v2 t hv)

/-! ### `Region` -/

theorem Region_lookup :
    lookupName Region.names "id" = some 0 ∧ lookupName Region.names "text" = some 1 := by
  decide

theorem Region_names_outside (k : String) (h : outsideSchema k) :
    lookupName Region.names k = none :=
  lookupName_eq_none Region.names k (fun n hn => h n (by revert n; decide))

theorem Region_setField_fieldZero : ∀ (i j : Nat) (v : Json) (t : Region), j ≠ i →
    Region.fieldZero i t → Region.fieldZero i (Region.setField j v t).1
  | 0, j, v, t, hne, hz => by
    cases t
    rcases j with _ | _ | j <;> first | exact absurd rfl hne | exact hz
  | 1, j, v, t, hne, hz => by
    cases t
    rcases j with _ | _ | j <;> first | exact absurd rfl hne | exact hz
  | _ + 2, _, _, _, _, _ => trivial

theorem Region_zero_fieldZero : ∀ (i : Nat), Region.fieldZero i Region.zero
  | 0 => rfl
  | 1 => rfl
  | _ + 2 => trivial

theorem Region_setField_enc_0 (a : String) (t : Region) :
    Region.setField 0 (Json.string a) t = ({ t with Id := a }, none) := by
  simp only [Region.setField, decodeString_string]

theorem Region_setField_enc_1 (a : String) (t : Region) :
    Region.setField 1 (Json.string a) t = ({ t with Text := a }, none) := by
  simp only [Region.setField, decodeString_string]

theorem decodeRegion_encodeRegion (t t0 : Region) :
    decodeRegion (encodeRegion t) t0 = (t, none) := by
  simp only [decodeRegion, encodeRegion, decodeStruct]
  exact
    decodeObject_step Region.names Region.setField Region_lookup.1
      (Region_setField_enc_0 t.Id _) (
    decodeObject_step Region.names Region.setField Region_lookup.2
      (Region_setField_enc_1 t.Text _) (
    decodeObject_nil Region.names Region.setField t))

theorem Region_setField_extends : ∀ (i : Nat) (v v2 : Json) (t : Region), Extends v v2 →
    Region.setField i v2 t = Region.setField i v t
  | 0, v, v2, t, h => by
    simp only [Region.setField]
    rw [decodeString_extends v v2 _ h]
  | 1, v, v2, t, h => by
    simp only [Region.setField]
    rw [decodeString_extends v v2 _ h]
  | _ + 2, _, _, _, _ => by simp only [Region.setField]

theorem decodeRegion_extends (j j2 : Json) (t : Region) (h : Extends j j2) :
    decodeRegion j2 t = decodeRegion j t :=
  decodeStruct_extends Region.names Region.setField "main.Region" Region_names_outside j j2 t h
    (fun _ i v v2 t _ _ hv _ => Region_setField_extends i v v2 t hv)

/-! ### `LexicalCategory` -/

theorem LexicalCategory_lookup :
    lookupName LexicalCategory.names "id" = some 0 ∧
    lookupName LexicalCategory.names "text" = some 1 := by
  decide

theorem LexicalCategory_names_outside (k : String) (h : outsideSchema k) :
    lookupName LexicalCategory.names k = none :=
  lookupName_eq_none LexicalCategory.names k (fun n hn => h n (by revert n; decide))

theorem LexicalCategory_setField_fieldZero : ∀ (i j : Nat) (v : Json) (t : LexicalCategory), j ≠ i →
    LexicalCategory.fieldZero i t → LexicalCategory.fieldZero i (LexicalCategory.setField j v t).1
  | 0, j, v, t, hne, hz => by
    cases t
    rcases j with _ | _ | j <;> first | exact absurd rfl hne | exact hz
  | 1, j, v, t, hne, hz => by
    cases t
    rcases j with _ | _ | j <;> first | exact absurd rfl hne | exact hz
  | _ + 2, _, _, _, _, _ => trivial

theorem LexicalCategory_zero_fieldZero : ∀ (i : Nat), LexicalCategory.fieldZero i LexicalCategory.zero
  | 0 => rfl
  | 1 => rfl
  | _ + 2 => trivial

theorem LexicalCategory_setField_enc_0 (a : String) (t : LexicalCategory) :
    LexicalCategory.setField 0 (Json.string a) t = ({ t with Id := a }, none) := by
  simp only [LexicalCategory.setField, decodeString_string]

theorem LexicalCategory_setField_enc_1 (a : String) (t : LexicalCategory) :
    LexicalCategory.setField 1 (Json.string a) t = ({ t with Text := a }, none) := by
  simp only [LexicalCategory.setField, decodeString_string]

theorem decodeLexicalCategory_encodeLexicalCategory (t t0 : LexicalCategory) :
    decodeLexicalCategory (encodeLexicalCategory t) t0 = (t, none) := by
  simp only [decodeLexicalCategory, encodeLexicalCategory, decodeStruct]
  exact
    decodeObject_step LexicalCategory.names LexicalCategory.setField LexicalCategory_lookup.1
      (LexicalCategory_setField_enc_0 t.Id _) (
    decodeObject_step LexicalCategory.names LexicalCategory.setField LexicalCategory_lookup.2
      (LexicalCategory_setField_enc_1 t.Text _) (
    decodeObject_nil LexicalCategory.names LexicalCategory.setField t))

theorem LexicalCategory_setField_extends : ∀ (i : Nat) (v v2 : Json) (t : LexicalCategory), Extends v v2 →
    LexicalCategory.setField i v2 t = LexicalCategory.setField i v t
  | 0, v, v2, t, h => by
    simp only [LexicalCategory.setField]
    rw [decodeString_extends v v2 _ h]
  | 1, v, v2, t, h => by
    simp only [LexicalCategory.setField]
    rw [decodeString_extends v v2 _ h]
  | _ + 2, _, _, _, _ => by simp only [LexicalCategory.setField]

theorem decodeLexicalCategory_extends (j j2 : Json) (t : LexicalCategory) (h : Extends j j2) :
    decodeLexicalCategory j2 t = decodeLexicalCategory j t :=
  decodeStruct_extends LexicalCategory.names LexicalCategory.setField "main.LexicalCategory" LexicalCategory_names_outside j j2 t h
    (fun _ i v v2 t _ _ hv _ => LexicalCategory_setField_extends i v v2 t hv)

/-! ### `Translation` -/

theorem Translation_lookup :
    lookupName Translation.names "language" = some 0 ∧
    lookupName Translation.names "text" = some 1 := by
  decide

theorem Translation_names_outside (k : String) (h : outsideSchema k) :
    lookupName Translation.names k = none :=
  lookupName_eq_none Translation.names k (fun n hn => h n (by revert n; decide))

theorem Translation_setField_fieldZero : ∀ (i j : Nat) (v : Json) (t : Translation), j ≠ i →
    Translation.fieldZero i t → Translation.fieldZero i (Translation.setField j v t).1
  | 0, j, v, t, hne, hz => by
    cases t
    rcases j with _ | _ | j <;> first | exact absurd rfl hne | exact hz
  | 1, j, v, t, hne, hz => by
    cases t
    rcases j with _ | _ | j <;> first | exact absurd rfl hne | exact hz
  | _ + 2, _, _, _, _, _ => trivial

theorem Translation_zero_fieldZero : ∀ (i : Nat), Translation.fieldZero i Translation.zero
  | 0 => rfl
  | 1 => rfl
  | _ + 2 => trivial

theorem Translation_setField_enc_0 (a : String) (t : Translation) :
    Translation.setField 0 (Json.string a) t = ({ t with Language := a }, none) := by
  simp only [Translation.setField, decodeString_string]

theorem Translation_setField_enc_1 (a : String) (t : Translation) :
    Translation.setField 1 (Json.string a) t = ({ t with Text := a }, none) := by
  simp only [Translation.setField, decodeString_string]

theorem decodeTranslation_encodeTranslation (t t0 : Translation) :
    decodeTranslation (encodeTranslation t) t0 = (t, none) := by
  simp only [decodeTranslation, encodeTranslation, decodeStruct]
  exact
    decodeObject_step Translation.names Translation.setField Translation_lookup.1
      (Translation_setField_enc_0 t.Language _) (
    decodeObject_step Translation.names Translation.setField Translation_lookup.2
      (Translation_setField_enc_1 t.Text _) (
    decodeObject_nil Translation.names Translation.setField t))

theorem Translation_setField_extends : ∀ (i : Nat) (v v2 : Json) (t : Translation), Extends v v2 →
    Translation.setField i v2 t = Translation.setField i v t
  | 0, v, v2, t, h => by
    simp only [Translation.setField]
    rw [decodeString_extends v v2 _ h]
  | 1, v, v2, t, h => by
    simp only [Translation.setField]
    rw [decodeString_extends v v2 _ h]
  | _ + 2, _, _, _, _ => by simp only [Translation.setField]

theorem decodeTranslation_extends (j j2 : Json) (t : Translation) (h : Extends j j2) :
    decodeTranslation j2 t = decodeTranslation j t :=
  decodeStruct_extends Translation.names Translation.setField "main.Translation" Translation_names_outside j j2 t h
    (fun _ i v v2 t _ _ hv _ => Translation_setField_extends i v v2 t hv)

/-! ### `Construction` -/

theorem Construction_lookup :
    lookupName Construction.names "text" = some 0 := by
  decide

theorem Construction_names_outside (k : String) (h : outsideSchema k) :
    lookupName Construction.names k = none :=
  lookupName_eq_none Construction.names k (fun n hn => h n (by revert n; decide))

theorem Construction_setField_fieldZero : ∀ (i j : Nat) (v : Json) (t : Construction), j ≠ i →
    Construction.fieldZero i t → Construction.fieldZero i (Construction.setField j v t).1
  | 0, j, v, t, hne, hz => by
    cases t
    rcases j with _ | j <;> first | exact absurd rfl hne | exact hz
  | _ + 1, _, _, _, _, _ => trivial

theorem Construction_zero_fieldZero : ∀ (i : Nat), Construction.fieldZero i Construction.zero
  | 0 => rfl
  | _ + 1 => trivial

theorem Construction_setField_enc_0 (a : String) (t : Construction) :
    Construction.setField 0 (Json.string a) t = ({ t with Text := a }, none) := by
  simp only [Construction.setField, decodeString_string]

theorem decodeConstruction_encodeConstruction (t t0 : Construction) :
    decodeConstruction (encodeConstruction t) t0 = (t, none) := by
  simp only [decodeConstruction, encodeConstruction, decodeStruct]
  exact
    decodeObject_step Construction.names Construction.setField Construction_lookup
      (Construction_setField_enc_0 t.Text _) (
    decodeObject_nil Construction.names Construction.setField t)

theorem Construction_setField_extends : ∀ (i : Nat) (v v2 : Json) (t : Construction), Extends v v2 →
    Construction.setField i v2 t = Construction.setField i v t
  | 0, v, v2, t, h => by
    simp only [Construction.setField]
    rw [decodeString_extends v v2 _ h]
  | _ + 1, _, _, _, _ => by simp only [Construction.setField]

theorem decodeConstruction_extends (j j2 : Json) (t : Construction) (h : Extends j j2) :
    decodeConstruction j2 t = decodeConstruction j t :=
  decodeStruct_extends Construction.names Construction.setField "main.Construction" Construction_names_outside j j2 t h
    (fun _ i v v2 t _ _ hv _ => Construction_setField_extends i v v2 t hv)

/-! ### `Inflection` -/

theorem Inflection_lookup :
    lookupName Inflection.names "inflectedForm" = some 0 := by
  decide

theorem Inflection_names_outside (k : String) (h : outsideSchema k) :
    lookupName Inflection.names k = none :=
  lookupName_eq_none Inflection.names k (fun n hn => h n (by revert n; decide))

theorem Inflection_setField_fieldZero : ∀ (i j : Nat) (v : Json) (t : Inflection), j ≠ i →
    Inflection.fieldZero i t → Inflection.fieldZero i (Inflection.setField j v t).1
  | 0, j, v, t, hne, hz => by
    cases t
    rcases j with _ | j <;> first | exact absurd rfl hne | exact hz
  | _ + 1, _, _, _, _, _ => trivial

theorem Inflection_zero_fieldZero : ∀ (i : Nat), Inflection.fieldZero i Inflection.zero
  | 0 => rfl
  | _ + 1 => trivial

theorem Inflection_setField_enc_0 (a : String) (t : Inflection) :
    Inflection.setField 0 (Json.string a) t = ({ t with InflectedForm := a }, none) := by
  simp only [Inflection.setField, decodeString_string]

theorem decodeInflection_encodeInflection (t t0 : Inflection) :
    decodeInflection (encodeInflection t) t0 = (t, none) := by
  simp only [decodeInflection, encodeInflection, decodeStruct]
  exact
    decodeObject_step Inflection.names Inflection.setField Inflection_lookup
      (Inflection_setField_enc_0 t.InflectedForm _) (
    decodeObject_nil Inflection.names Inflection.setField t)

theorem Inflection_setField_extends : ∀ (i : Nat) (v v2 : Json) (t : Inflection), Extends v v2 →
    Inflection.setField i v2 t = Inflection.setField i v t
  | 0, v, v2, t, h => by
    simp only [Inflection.setField]
    rw [decodeString_extends v v2 _ h]
  | _ + 1, _, _, _, _ => by simp only [Inflection.setField]

theorem decodeInflection_extends (j j2 : Json) (t : Inflection) (h : Extends j j2) :
    decodeInflection j2 t = decodeInflection j t :=
  decodeStruct_extends Inflection.names Inflection.setField "main.Inflection" Inflection_names_outside j j2 t h
    (fun _ i v v2 t _ _ hv _ => Inflection_setField_extends i v v2 t hv)

/-! ### `Sentence` -/

theorem Sentence_lookup :
    lookupName Sentence.names "regions" = some 0 ∧ lookupName Sentence.names "text" = some 1 := by
  decide

theorem Sentence_names_outside (k : String) (h : outsideSchema k) :
    lookupName Sentence.names k = none :=
  lookupName_eq_none Sentence.names k (fun n hn => h n (by revert n; decide))

theorem Sentence_setField_fieldZero : ∀ (i j : Nat) (v : Json) (t : Sentence), j ≠ i →
    Sentence.fieldZero i t → Sentence.fieldZero i (Sentence.setField j v t).1
  | 0, j, v, t, hne, hz => by
    cases t
    rcases j with _ | _ | j <;> first | exact absurd rfl hne | exact hz
  | 1, j, v, t, hne, hz => by
    cases t
    rcases j with _ | _ | j <;> first | exact absurd rfl hne | exact hz
  | _ + 2, _, _, _, _, _ => trivial

theorem Sentence_zero_fieldZero : ∀ (i : Nat), Sentence.fieldZero i Sentence.zero
  | 0 => rfl
  | 1 => rfl
  | _ + 2 => trivial

theorem Sentence_setField_enc_0 (a : Slice Oxford.Region) (t : Sentence) :
    Sentence.setField 0 (encodeSlice encodeRegion a) t = ({ t with Regions := a }, none) := by
  simp only [Sentence.setField, decodeSlice_encodeSlice decodeRegion encodeRegion Region.zero _ decodeRegion_encodeRegion]

theorem Sentence_setField_enc_1 (a : String) (t : Sentence) :
    Sentence.setField 1 (Json.string a) t = ({ t with Text := a }, none) := by
  simp only [Sentence.setField, decodeString_string]

theorem decodeSentence_encodeSentence (t t0 : Sentence) :
    decodeSentence (encodeSentence t) t0 = (t, none) := by
  simp only [decodeSentence, encodeSentence, decodeStruct]
  exact
    decodeObject_step Sentence.names Sentence.setField Sentence_lookup.1
      (Sentence_setField_enc_0 t.Regions _) (
    decodeObject_step Sentence.names Sentence.setField Sentence_lookup.2
      (Sentence_setField_enc_1 t.Text _) (
    decodeObject_nil Sentence.names Sentence.setField t))

theorem Sentence_setField_extends : ∀ (i : Nat) (v v2 : Json) (t : Sentence), Extends v v2 →
    Sentence.setField i v2 t = Sentence.setField i v t
  | 0, v, v2, t, h => by
    simp only [Sentence.setField]
    rw [decodeSlice_extends decodeRegion Region.zero "[]main.Region" v v2 _ h
        (fun x y t hxy _ => decodeRegion_extends x y t hxy)]
  | 1, v, v2, t, h => by
    simp only [Sentence.setField]
    rw [decodeString_extends v v2 _ h]
  | _ + 2, _, _, _, _ => by simp only [Sentence.setField]

theorem decodeSentence_extends (j j2 : Json) (t : Sentence) (h : Extends j j2) :
    decodeSentence j2 t = decodeSentence j t :=
  decodeStruct_extends Sentence.names Sentence.setField "main.Sentence" Sentence_names_outside j j2 t h
    (fun _ i v v2 t _ _ hv _ => Sentence_setField_extends i v v2 t hv)

/-! ### `Example` -/

theorem Example_lookup :
    lookupName Example.names "text" = some 0 ∧ lookupName Example.names "notes" = some 1 ∧
    lookupName Example.names "registers" = some 2 ∧
    lookupName Example.names "translations" = some 3 := by
  decide

theorem Example_names_outside (k : String) (h : outsideSchema k) :
    lookupName Example.names k = none :=
  lookupName_eq_none Example.names k (fun n hn => h n (by revert n; decide))

theorem Example_setField_fieldZero : ∀ (i j : Nat) (v : Json) (t : Example), j ≠ i →
    Example.fieldZero i t → Example.fieldZero i (Example.setField j v t).1
  | 0, j, v, t, hne, hz => by
    cases t
    rcases j with _ | _ | _ | _ | j <;> first | exact absurd rfl hne | exact hz
  | 1, j, v, t, hne, hz => by
    cases t
    rcases j with _ | _ | _ | _ | j <;> first | exact absurd rfl hne | exact hz
  | 2, j, v, t, hne, hz => by
    cases t
    rcases j with _ | _ | _ | _ | j <;> first | exact absurd rfl hne | exact hz
  | 3, j, v, t, hne, hz => by
    cases t
    rcases j with _ | _ | _ | _ | j <;> first | exact absurd rfl hne | exact hz
  | _ + 4, _, _, _, _, _ => trivial

theorem Example_zero_fieldZero : ∀ (i : Nat), Example.fieldZero i Example.zero
  | 0 => rfl
  | 1 => rfl
  | 2 => rfl
  | 3 => rfl
  | _ + 4 => trivial

theorem Example_setField_enc_0 (a : String) (t : Example) :
    Example.setField 0 (Json.string a) t = ({ t with Text := a }, none) := by
  simp only [Example.setField, decodeString_string]

theorem Example_setField_enc_1 (a : Slice Oxford.Note) (t : Example) :
    Example.setField 1 (encodeSlice encodeNote a) t = ({ t with Notes := a }, none) := by
  simp only [Example.setField, decodeSlice_encodeSlice decodeNote encodeNote Note.zero _ decodeNote_encodeNote]

theorem Example_setField_enc_2 (a : Slice Oxford.Register) (t : Example) :
    Example.setField 2 (encodeSlice encodeRegister a) t = ({ t with Registers := a }, none) := by
  simp only [Example.setField, decodeSlice_encodeSlice decodeRegister encodeRegister Register.zero _ decodeRegister_encodeRegister]

theorem Example_setField_enc_3 (a : Slice Oxford.Translation) (t : Example) :
    Example.setField 3 (encodeSlice encodeTranslation a) t = ({ t with Translations := a }, none) := by
  simp only [Example.setField, decodeSlice_encodeSlice decodeTranslation encodeTranslation Translation.zero _ decodeTranslation_encodeTranslation]

theorem decodeExample_encodeExample (t t0 : Example) :
    decodeExample (encodeExample t) t0 = (t, none) := by
  simp only [decodeExample, encodeExample, decodeStruct]
  exact
    decodeObject_step Example.names Example.setField Example_lookup.1
      (Example_setField_enc_0 t.Text _) (
    decodeObject_step Example.names Example.setField Example_lookup.2.1
      (Example_setField_enc_1 t.Notes _) (
    decodeObject_step Example.names Example.setField Example_lookup.2.2.1
      (Example_setField_enc_2 t.Registers _) (
    decodeObject_step Example.names Example.setField Example_lookup.2.2.2
      (Example_setField_enc_3 t.Translations _) (
    decodeObject_nil Example.names Example.setField t))))

theorem Example_setField_extends : ∀ (i : Nat) (v v2 : Json) (t : Example), Extends v v2 →
    Example.setField i v2 t = Example.setField i v t
  | 0, v, v2, t, h => by
    simp only [Example.setField]
    rw [decodeString_extends v v2 _ h]
  | 1, v, v2, t, h => by
    simp only [Example.setField]
    rw [decodeSlice_extends decodeNote Note.zero "[]main.Note" v v2 _ h
        (fun x y t hxy _ => decodeNote_extends x y t hxy)]
  | 2, v, v2, t, h => by
    simp only [Example.setField]
    rw [decodeSlice_extends decodeRegister Register.zero "[]main.Register" v v2 _ h
        (fun x y t hxy _ => decodeRegister_extends x y t hxy)]
  | 3, v, v2, t, h => by
    simp only [Example.setField]
    rw [decodeSlice_extends decodeTranslation Translation.zero "[]main.Translation" v v2 _ h
        (fun x y t hxy _ => decodeTranslation_extends x y t hxy)]
  | _ + 4, _, _, _, _ => by simp only [Example.setField]

theorem decodeExample_extends (j j2 : Json) (t : Example) (h : Extends j j2) :
    decodeExample j2 t = decodeExample j t :=
  decodeStruct_extends Example.names Example.setField "main.Example" Example_names_outside j j2 t h
    (fun _ i v v2 t _ _ hv _ => Example_setField_extends i v v2 t hv)

/-! ### `Antonym` -/

theorem Antonym_lookup :
    lookupName Antonym.names "language" = some 0 ∧ lookupName Antonym.names "text" = some 1 := by
  decide

theorem Antonym_names_outside (k : String) (h : outsideSchema k) :
    lookupName Antonym.names k = none :=
  lookupName_eq_none Antonym.names k (fun n hn => h n (by revert n; decide))

theorem Antonym_setField_fieldZero : ∀ (i j : Nat) (v : Json) (t : Antonym), j ≠ i →
    Antonym.fieldZero i t → Antonym.fieldZero i (Antonym.setField j v t).1
  | 0, j, v, t, hne, hz => by
    cases t
    rcases j with _ | _ | j <;> first | exact absurd rfl hne | exact hz
  | 1, j, v, t, hne, hz => by
    cases t
    rcases j with _ | _ | j <;> first | exact absurd rfl hne | exact hz
  | _ + 2, _, _, _, _, _ => trivial

theorem Antonym_zero_fieldZero : ∀ (i : Nat), Antonym.fieldZero i Antonym.zero
  | 0 => rfl
  | 1 => rfl
  | _ + 2 => trivial

theorem Antonym_setField_enc_0 (a : String) (t : Antonym) :
    Antonym.setField 0 (Json.string a) t = ({ t with Language := a }, none) := by
  simp only [Antonym.setField, decodeString_string]

theorem Antonym_setField_enc_1 (a : String) (t : Antonym) :
    Antonym.setField 1 (Json.string a) t = ({ t with Text := a }, none) := by
  simp only [Antonym.setField, decodeString_string]

theorem decodeAntonym_encodeAntonym (t t0 : Antonym) :
    decodeAntonym (encodeAntonym t) t0 = (t, none) := by
  simp only [decodeAntonym, encodeAntonym, decodeStruct]
  exact
    decodeObject_step Antonym.names Antonym.setField Antonym_lookup.1
      (Antonym_setField_enc_0 t.Language _) (
    decodeObject_step Antonym.names Antonym.setField Antonym_lookup.2
      (Antonym_setField_enc_1 t.Text _) (
    decodeObject_nil Antonym.names Antonym.setField t))

theorem Antonym_setField_extends : ∀ (i : Nat) (v v2 : Json) (t : Antonym), Extends v v2 →
    Antonym.setField i v2 t = Antonym.setField i v t
  | 0, v, v2, t, h => by
    simp only [Antonym.setField]
    rw [decodeString_extends v v2 _ h]
  | 1, v, v2, t, h => by
    simp only [Antonym.setField]
    rw [decodeString_extends v v2 _ h]
  | _ + 2, _, _, _, _ => by simp only [Antonym.setField]

theorem decodeAntonym_extends (j j2 : Json) (t : Antonym) (h : Extends j j2) :
    decodeAntonym j2 t = decodeAntonym j t :=
  decodeStruct_extends Antonym.names Antonym.setField "main.Antonym" Antonym_names_outside j j2 t h
    (fun _ i v v2 t _ _ hv _ => Antonym_setField_extends i v v2 t hv)

/-! ### `Synonym` -/

theorem Synonym_lookup :
    lookupName Synonym.names "language" = some 0 ∧ lookupName Synonym.names "text" = some 1 := by
  decide

theorem Synonym_names_outside (k : String) (h : outsideSchema k) :
    lookupName Synonym.names k = none :=
  lookupName_eq_none Synonym.names k (fun n hn => h n (by revert n; decide))

theorem Synonym_setField_fieldZero : ∀ (i j : Nat) (v : Json) (t : Synonym), j ≠ i →
    Synonym.fieldZero i t → Synonym.fieldZero i (Synonym.setField j v t).1
  | 0, j, v, t, hne, hz => by
    cases t
    rcases j with _ | _ | j <;> first | exact absurd rfl hne | exact hz
  | 1, j, v, t, hne, hz => by
    cases t
    rcases j with _ | _ | j <;> first | exact absurd rfl hne | exact hz
  | _ + 2, _, _, _, _, _ => trivial

theorem Synonym_zero_fieldZero : ∀ (i : Nat), Synonym.fieldZero i Synonym.zero
  | 0 => rfl
  | 1 => rfl
  | _ + 2 => trivial

theorem Synonym_setField_enc_0 (a : String) (t : Synonym) :
    Synonym.setField 0 (Json.string a) t = ({ t with Language := a }, none) := by
  simp only [Synonym.setField, decodeString_string]

theorem Synonym_setField_enc_1 (a : String) (t : Synonym) :
    Synonym.setField 1 (Json.string a) t = ({ t with Text := a }, none) := by
  simp only [Synonym.setField, decodeString_string]

theorem decodeSynonym_encodeSynonym (t t0 : Synonym) :
    decodeSynonym (encodeSynonym t) t0 = (t, none) := by
  simp only [decodeSynonym, encodeSynonym, decodeStruct]
  exact
    decodeObject_step Synonym.names Synonym.setField Synonym_lookup.1
      (Synonym_setField_enc_0 t.Language _) (
    decodeObject_step Synonym.names Synonym.setField Synonym_lookup.2
      (Synonym_setField_enc_1 t.Text _) (
    decodeObject_nil Synonym.names Synonym.setField t))

theorem Synonym_setField_extends : ∀ (i : Nat) (v v2 : Json) (t : Synonym), Extends v v2 →
    Synonym.setField i v2 t = Synonym.setField i v t
  | 0, v, v2, t, h => by
    simp only [Synonym.setField]
    rw [decodeString_extends v v2 _ h]
  | 1, v, v2, t, h => by
    simp only [Synonym.setField]
    rw [decodeString_extends v v2 _ h]
  | _ + 2, _, _, _, _ => by simp only [Synonym.setField]

theorem decodeSynonym_extends (j j2 : Json) (t : Synonym) (h : Extends j j2) :
    decodeSynonym j2 t = decodeSynonym j t :=
  decodeStruct_extends Synonym.names Synonym.setField "main.Synonym" Synonym_names_outside j j2 t h
    (fun _ i v v2 t _ _ hv _ => Synonym_setField_extends i v v2 t hv)

/-! ### `Pronunciation` -/

theorem Pronunciation_lookup :
    lookupName Pronunciation.names "audioFile" = some 0 ∧
    lookupName Pronunciation.names "dialects" = some 1 ∧
    lookupName Pronunciation.names "phoneticNotation" = some 2 ∧
    lookupName Pronunciation.names "phoneticSpelling" = some 3 := by
  decide

theorem Pronunciation_names_outside (k : String) (h : outsideSchema k) :
    lookupName Pronunciation.names k = none :=
  lookupName_eq_none Pronunciation.names k (fun n hn => h n (by revert n; decide))

theorem Pronunciation_setField_fieldZero : ∀ (i j : Nat) (v : Json) (t : Pronunciation), j ≠ i →
    Pronunciation.fieldZero i t → Pronunciation.fieldZero i (Pronunciation.setField j v t).1
  | 0, j, v, t, hne, hz => by
    cases t
    rcases j with _ | _ | _ | _ | j <;> first | exact absurd rfl hne | exact hz
  | 1, j, v, t, hne, hz => by
    cases t
    rcases j with _ | _ | _ | _ | j <;> first | exact absurd rfl hne | exact hz
  | 2, j, v, t, hne, hz => by
    cases t
    rcases j with _ | _ | _ | _ | j <;> first | exact absurd rfl hne | exact hz
  | 3, j, v, t, hne, hz => by
    cases t
    rcases j with _ | _ | _ | _ | j <;> first | exact absurd rfl hne | exact hz
  | _ + 4, _, _, _, _, _ => trivial

theorem Pronunciation_zero_fieldZero : ∀ (i : Nat), Pronunciation.fieldZero i Pronunciation.zero
  | 0 => rfl
  | 1 => rfl
  | 2 => rfl
  | 3 => rfl
  | _ + 4 => trivial

theorem Pronunciation_setField_enc_0 (a : String) (t : Pronunciation) :
    Pronunciation.setField 0 (Json.string a) t = ({ t with AudioFileLink := a }, none) := by
  simp only [Pronunciation.setField, decodeString_string]

theorem Pronunciation_setField_enc_1 (a : Slice String) (t : Pronunciation) :
    Pronunciation.setField 1 (encodeSlice Json.string a) t = ({ t with Dialects := a }, none) := by
  simp only [Pronunciation.setField, decodeSlice_string]

theorem Pronunciation_setField_enc_2 (a : String) (t : Pronunciation) :
    Pronunciation.setField 2 (Json.string a) t = ({ t with PhoneticNotation := a }, none) := by
  simp only [Pronunciation.setField, decodeString_string]

theorem Pronunciation_setField_enc_3 (a : String) (t : Pronunciation) :
    Pronunciation.setField 3 (Json.string a) t = ({ t with PhoneticSpelling := a }, none) := by
  simp only [Pronunciation.setField, decodeString_string]

theorem decodePronunciation_encodePronunciation (t t0 : Pronunciation) :
    decodePronunciation (encodePronunciation t) t0 = (t, none) := by
  simp only [decodePronunciation, encodePronunciation, decodeStruct]
  exact
    decodeObject_step Pronunciation.names Pronunciation.setField Pronunciation_lookup.1
      (Pronunciation_setField_enc_0 t.AudioFileLink _) (
    decodeObject_step Pronunciation.names Pronunciation.setField Pronunciation_lookup.2.1
      (Pronunciation_setField_enc_1 t.Dialects _) (
    decodeObject_step Pronunciation.names Pronunciation.setField Pronunciation_lookup.2.2.1
      (Pronunciation_setField_enc_2 t.PhoneticNotation _) (
    decodeObject_step Pronunciation.names Pronunciation.setField Pronunciation_lookup.2.2.2
      (Pronunciation_setField_enc_3 t.PhoneticSpelling _) (
    decodeObject_nil Pronunciation.names Pronunciation.setField t))))

theorem Pronunciation_setField_extends : ∀ (i : Nat) (v v2 : Json) (t : Pronunciation), Extends v v2 →
    Pronunciation.setField i v2 t = Pronunciation.setField i v t
  | 0, v, v2, t, h => by
    simp only [Pronunciation.setField]
    rw [decodeString_extends v v2 _ h]
  | 1, v, v2, t, h => by
    simp only [Pronunciation.setField]
    rw [decodeSlice_extends decodeString "" "[]string" v v2 _ h
        (fun x y t hxy _ => decodeString_extends x y t hxy)]
  | 2, v, v2, t, h => by
    simp only [Pronunciation.setField]
    rw [decodeString_extends v v2 _ h]
  | 3, v, v2, t, h => by
    simp only [Pronunciation.setField]
    rw [decodeString_extends v v2 _ h]
  | _ + 4, _, _, _, _ => by simp only [Pronunciation.setField]

theorem decodePronunciation_extends (j j2 : Json) (t : Pronunciation) (h : Extends j j2) :
    decodePronunciation j2 t = decodePronunciation j t :=
  decodeStruct_extends Pronunciation.names Pronunciation.setField "main.Pronunciation" Pronunciation_names_outside j j2 t h
    (fun _ i v v2 t _ _ hv _ => Pronunciation_setField_extends i v v2 t hv)

/-! ### `Sense`: the recursive decoder is the struct decoder -/

theorem decodeSenseElems_eq : ∀ xs : List Json,
    decodeSenseElems xs = decodeElems decodeSense Sense.zero xs := by
  intro xs
  induction xs with
  | nil => rw [decodeSenseElems]; rfl
  | cons x xs ih => rw [decodeSenseElems, ih]; rfl

theorem decodeSenseSlice_eq (v : Json) (cur : Slice Sense) :
    decodeSenseSlice v cur = decodeSlice decodeSense Sense.zero "[]main.Sense" v cur := by
  cases v <;> rw [decodeSenseSlice] <;> simp only [decodeSlice, decodeSenseElems_eq]

theorem Sense.setField_of_ne (i : Nat) (h : i ≠ 12) (v : Json) (s : Sense) :
    Sense.setField i v s = Sense.setLeaf i v s := by
  unfold Sense.setField
  split
  · exact absurd rfl h
  · rfl

theorem Sense.setSelected_eq (v : Json) (s : Sense) (i : Nat) :
    Sense.setSelected (decodeSenseSlice v) (some i) v s = Sense.setField i v s := by
  by_cases hi : i = 12
  · subst hi
    simp only [Sense.setSelected, Sense.setField, decodeSenseSlice_eq]
  · rw [Sense.setField_of_ne i hi]
    unfold Sense.setSelected
    split
    · rename_i h; cases h
    · rename_i h; exact absurd (Option.some.inj h) hi
    · rename_i h; cases h; rfl

theorem decodeSenseMembers_eq : ∀ (ms : List (String × Json)) (s : Sense),
    decodeSenseMembers ms s = decodeObject Sense.names Sense.setField ms s := by
  intro ms
  induction ms with
  | nil => intro s; rw [decodeSenseMembers, decodeObject_nil]
  | cons kv rest ih =>
    intro s
    obtain ⟨k, v⟩ := kv
    have hcases : lookupName Sense.names k = none ∨ ∃ i, lookupName Sense.names k = some i := by
      cases lookupName Sense.names k with
      | none => exact Or.inl rfl
      | some i => exact Or.inr ⟨i, rfl⟩
    rw [decodeSenseMembers]
    rcases hcases with hl | ⟨i, hl⟩
    · rw [decodeObject_cons_none _ _ k v rest s hl, hl]
      simp only [Sense.setSelected, firstError_none_left, ih]
    · rw [decodeObject_cons_some _ _ k v rest s i hl, hl, Sense.setSelected_eq]
      simp only [ih]

theorem decodeSense_eq (j : Json) (s : Sense) :
    decodeSense j s = decodeStruct Sense.names Sense.setField "main.Sense" j s := by
  cases j <;> rw [decodeSense] <;> simp only [decodeStruct, decodeSenseMembers_eq]

theorem Sense_lookup :
    lookupName Sense.names "antonyms" = some 0 ∧ lookupName Sense.names "synonyms" = some 1 ∧
    lookupName Sense.names "definitions" = some 2 ∧
    lookupName Sense.names "shortDefinitions" = some 3 ∧
    lookupName Sense.names "examples" = some 4 ∧
    lookupName Sense.names "constructions" = some 5 ∧
    lookupName Sense.names "inflections" = some 6 ∧
    lookupName Sense.names "domainClasses" = some 7 ∧
    lookupName Sense.names "notes" = some 8 ∧
    lookupName Sense.names "translations" = some 9 ∧
    lookupName Sense.names "semanticClasses" = some 10 ∧
    lookupName Sense.names "id" = some 11 ∧
    lookupName Sense.names "subsenses" = some 12 := by decide

theorem Sense_setField_enc_0 (a : Slice Oxford.Antonym)
    (b0 : Slice Oxford.Antonym) (b1 : Slice Oxford.Synonym) (b2 : Slice String) (b3 : Slice String) (b4 : Slice Oxford.Example) (b5 : Slice Oxford.Construction) (b6 : Slice Oxford.Inflection) (b7 : Slice Oxford.DomainClass) (b8 : Slice Oxford.Note) (b9 : Slice Oxford.Translation) (b10 : Slice Oxford.SemanticClass) (b11 : String) (b12 : Slice Oxford.Sense) :
    Sense.setField 0 (encodeSlice encodeAntonym a) (.mk b0 b1 b2 b3 b4 b5 b6 b7 b8 b9 b10 b11 b12)
      = (.mk a b1 b2 b3 b4 b5 b6 b7 b8 b9 b10 b11 b12, none) :=
  congrArg (fun r : Slice Oxford.Antonym × Option GoError => (Sense.mk r.1 b1 b2 b3 b4 b5 b6 b7 b8 b9 b10 b11 b12, r.2))
    (decodeSlice_encodeSlice decodeAntonym encodeAntonym Antonym.zero "[]main.Antonym" decodeAntonym_encodeAntonym a b0)

theorem Sense_setField_enc_1 (a : Slice Oxford.Synonym)
    (b0 : Slice Oxford.Antonym) (b1 : Slice Oxford.Synonym) (b2 : Slice String) (b3 : Slice String) (b4 : Slice Oxford.Example) (b5 : Slice Oxford.Construction) (b6 : Slice Oxford.Inflection) (b7 : Slice Oxford.DomainClass) (b8 : Slice Oxford.Note) (b9 : Slice Oxford.Translation) (b10 : Slice Oxford.SemanticClass) (b11 : String) (b12 : Slice Oxford.Sense) :
    Sense.setField 1 (encodeSlice encodeSynonym a) (.mk b0 b1 b2 b3 b4 b5 b6 b7 b8 b9 b10 b11 b12)
      = (.mk b0 a b2 b3 b4 b5 b6 b7 b8 b9 b10 b11 b12, none) :=
  congrArg (fun r : Slice Oxford.Synonym × Option GoError => (Sense.mk b0 r.1 b2 b3 b4 b5 b6 b7 b8 b9 b10 b11 b12, r.2))
    (decodeSlice_encodeSlice decodeSynonym encodeSynonym Synonym.zero "[]main.Synonym" decodeSynonym_encodeSynonym a b1)

theorem Sense_setField_enc_2 (a : Slice String)
    (b0 : Slice Oxford.Antonym) (b1 : Slice Oxford.Synonym) (b2 : Slice String) (b3 : Slice String) (b4 : Slice Oxford.Example) (b5 : Slice Oxford.Construction) (b6 : Slice Oxford.Inflection) (b7 : Slice Oxford.DomainClass) (b8 : Slice Oxford.Note) (b9 : Slice Oxford.Translation) (b10 : Slice Oxford.SemanticClass) (b11 : String) (b12 : Slice Oxford.Sense) :
    Sense.setField 2 (encodeSlice Json.string a) (.mk b0 b1 b2 b3 b4 b5 b6 b7 b8 b9 b10 b11 b12)
      = (.mk b0 b1 a b3 b4 b5 b6 b7 b8 b9 b10 b11 b12, none) :=
  congrArg (fun r : Slice String × Option GoError => (Sense.mk b0 b1 r.1 b3 b4 b5 b6 b7 b8 b9 b10 b11 b12, r.2))
    (decodeSlice_string "[]string" a b2)

theorem Sense_setField_enc_3 (a : Slice String)
    (b0 : Slice Oxford.Antonym) (b1 : Slice Oxford.Synonym) (b2 : Slice String) (b3 : Slice String) (b4 : Slice Oxford.Example) (b5 : Slice Oxford.Construction) (b6 : Slice Oxford.Inflection) (b7 : Slice Oxford.DomainClass) (b8 : Slice Oxford.Note) (b9 : Slice Oxford.Translation) (b10 : Slice Oxford.SemanticClass) (b11 : String) (b12 : Slice Oxford.Sense) :
    Sense.setField 3 (encodeSlice Json.string a) (.mk b0 b1 b2 b3 b4 b5 b6 b7 b8 b9 b10 b11 b12)
      = (.mk b0 b1 b2 a b4 b5 b6 b7 b8 b9 b10 b11 b12, none) :=
  congrArg (fun r : Slice String × Option GoError => (Sense.mk b0 b1 b2 r.1 b4 b5 b6 b7 b8 b9 b10 b11 b12, r.2))
    (decodeSlice_string "[]string" a b3)

theorem Sense_setField_enc_4 (a : Slice Oxford.Example)
    (b0 : Slice Oxford.Antonym) (b1 : Slice Oxford.Synonym) (b2 : Slice String) (b3 : Slice String) (b4 : Slice Oxford.Example) (b5 : Slice Oxford.Construction) (b6 : Slice Oxford.Inflection) (b7 : Slice Oxford.DomainClass) (b8 : Slice Oxford.Note) (b9 : Slice Oxford.Translation) (b10 : Slice Oxford.SemanticClass) (b11 : String) (b12 : Slice Oxford.Sense) :
    Sense.setField 4 (encodeSlice encodeExample a) (.mk b0 b1 b2 b3 b4 b5 b6 b7 b8 b9 b10 b11 b12)
      = (.mk b0 b1 b2 b3 a b5 b6 b7 b8 b9 b10 b11 b12, none) :=
  congrArg (fun r : Slice Oxford.Example × Option GoError => (Sense.mk b0 b1 b2 b3 r.1 b5 b6 b7 b8 b9 b10 b11 b12, r.2))
    (decodeSlice_encodeSlice decodeExample encodeExample Example.zero "[]main.Example" decodeExample_encodeExample a b4)

theorem Sense_setField_enc_5 (a : Slice Oxford.Construction)
    (b0 : Slice Oxford.Antonym) (b1 : Slice Oxford.Synonym) (b2 : Slice String) (b3 : Slice String) (b4 : Slice Oxford.Example) (b5 : Slice Oxford.Construction) (b6 : Slice Oxford.Inflection) (b7 : Slice Oxford.DomainClass) (b8 : Slice Oxford.Note) (b9 : Slice Oxford.Translation) (b10 : Slice Oxford.SemanticClass) (b11 : String) (b12 : Slice Oxford.Sense) :
    Sense.setField 5 (encodeSlice encodeConstruction a) (.mk b0 b1 b2 b3 b4 b5 b6 b7 b8 b9 b10 b11 b12)
      = (.mk b0 b1 b2 b3 b4 a b6 b7 b8 b9 b10 b11 b12, none) :=
  congrArg (fun r : Slice Oxford.Construction × Option GoError => (Sense.mk b0 b1 b2 b3 b4 r.1 b6 b7 b8 b9 b10 b11 b12, r.2))
    (decodeSlice_encodeSlice decodeConstruction encodeConstruction Construction.zero "[]main.Construction" decodeConstruction_encodeConstruction a b5)

theorem Sense_setField_enc_6 (a : Slice Oxford.Inflection)
    (b0 : Slice Oxford.Antonym) (b1 : Slice Oxford.Synonym) (b2 : Slice String) (b3 : Slice String) (b4 : Slice Oxford.Example) (b5 : Slice Oxford.Construction) (b6 : Slice Oxford.Inflection) (b7 : Slice Oxford.DomainClass) (b8 : Slice Oxford.Note) (b9 : Slice Oxford.Translation) (b10 : Slice Oxford.SemanticClass) (b11 : String) (b12 : Slice Oxford.Sense) :
    Sense.setField 6 (encodeSlice encodeInflection a) (.mk b0 b1 b2 b3 b4 b5 b6 b7 b8 b9 b10 b11 b12)
      = (.mk b0 b1 b2 b3 b4 b5 a b7 b8 b9 b10 b11 b12, none) :=
  congrArg (fun r : Slice Oxford.Inflection × Option GoError => (Sense.mk b0 b1 b2 b3 b4 b5 r.1 b7 b8 b9 b10 b11 b12, r.2))
    (decodeSlice_encodeSlice decodeInflection encodeInflection Inflection.zero "[]main.Inflection" decodeInflection_encodeInflection a b6)

theorem Sense_setField_enc_7 (a : Slice Oxford.DomainClass)
    (b0 : Slice Oxford.Antonym) (b1 : Slice Oxford.Synonym) (b2 : Slice String) (b3 : Slice String) (b4 : Slice Oxford.Example) (b5 : Slice Oxford.Construction) (b6 : Slice Oxford.Inflection) (b7 : Slice Oxford.DomainClass) (b8 : Slice Oxford.Note) (b9 : Slice Oxford.Translation) (b10 : Slice Oxford.SemanticClass) (b11 : String) (b12 : Slice Oxford.Sense) :
    Sense.setField 7 (encodeSlice encodeDomainClass a) (.mk b0 b1 b2 b3 b4 b5 b6 b7 b8 b9 b10 b11 b12)
      = (.mk b0 b1 b2 b3 b4 b5 b6 a b8 b9 b10 b11 b12, none) :=
  congrArg (fun r : Slice Oxford.DomainClass × Option GoError => (Sense.mk b0 b1 b2 b3 b4 b5 b6 r.1 b8 b9 b10 b11 b12, r.2))
    (decodeSlice_encodeSlice decodeDomainClass encodeDomainClass DomainClass.zero "[]main.DomainClass" decodeDomainClass_encodeDomainClass a b7)

theorem Sense_setField_enc_8 (a : Slice Oxford.Note)
    (b0 : Slice Oxford.Antonym) (b1 : Slice Oxford.Synonym) (b2 : Slice String) (b3 : Slice String) (b4 : Slice Oxford.Example) (b5 : Slice Oxford.Construction) (b6 : Slice Oxford.Inflection) (b7 : Slice Oxford.DomainClass) (b8 : Slice Oxford.Note) (b9 : Slice Oxford.Translation) (b10 : Slice Oxford.SemanticClass) (b11 : String) (b12 : Slice Oxford.Sense) :
    Sense.setField 8 (encodeSlice encodeNote a) (.mk b0 b1 b2 b3 b4 b5 b6 b7 b8 b9 b10 b11 b12)
      = (.mk b0 b1 b2 b3 b4 b5 b6 b7 a b9 b10 b11 b12, none) :=
  congrArg (fun r : Slice Oxford.Note × Option GoError => (Sense.mk b0 b1 b2 b3 b4 b5 b6 b7 r.1 b9 b10 b11 b12, r.2))
    (decodeSlice_encodeSlice decodeNote encodeNote Note.zero "[]main.Note" decodeNote_encodeNote a b8)

theorem Sense_setField_enc_9 (a : Slice Oxford.Translation)
    (b0 : Slice Oxford.Antonym) (b1 : Slice Oxford.Synonym) (b2 : Slice String) (b3 : Slice String) (b4 : Slice Oxford.Example) (b5 : Slice Oxford.Construction) (b6 : Slice Oxford.Inflection) (b7 : Slice Oxford.DomainClass) (b8 : Slice Oxford.Note) (b9 : Slice Oxford.Translation) (b10 : Slice Oxford.SemanticClass) (b11 : String) (b12 : Slice Oxford.Sense) :
    Sense.setField 9 (encodeSlice encodeTranslation a) (.mk b0 b1 b2 b3 b4 b5 b6 b7 b8 b9 b10 b11 b12)
      = (.mk b0 b1 b2 b3 b4 b5 b6 b7 b8 a b10 b11 b12, none) :=
  congrArg (fun r : Slice Oxford.Translation × Option GoError => (Sense.mk b0 b1 b2 b3 b4 b5 b6 b7 b8 r.1 b10 b11 b12, r.2))
    (decodeSlice_encodeSlice decodeTranslation encodeTranslation Translation.zero "[]main.Translation" decodeTranslation_encodeTranslation a b9)

theorem Sense_setField_enc_10 (a : Slice Oxford.SemanticClass)
    (b0 : Slice Oxford.Antonym) (b1 : Slice Oxford.Synonym) (b2 : Slice String) (b3 : Slice String) (b4 : Slice Oxford.Example) (b5 : Slice Oxford.Construction) (b6 : Slice Oxford.Inflection) (b7 : Slice Oxford.DomainClass) (b8 : Slice Oxford.Note) (b9 : Slice Oxford.Translation) (b10 : Slice Oxford.SemanticClass) (b11 : String) (b12 : Slice Oxford.Sense) :
    Sense.setField 10 (encodeSlice encodeSemanticClass a) (.mk b0 b1 b2 b3 b4 b5 b6 b7 b8 b9 b10 b11 b12)
      = (.mk b0 b1 b2 b3 b4 b5 b6 b7 b8 b9 a b11 b12, none) :=
  congrArg (fun r : Slice Oxford.SemanticClass × Option GoError => (Sense.mk b0 b1 b2 b3 b4 b5 b6 b7 b8 b9 r.1 b11 b12, r.2))
    (decodeSlice_encodeSlice decodeSemanticClass encodeSemanticClass SemanticClass.zero "[]main.SemanticClass" decodeSemanticClass_encodeSemanticClass a b10)

theorem Sense_setField_enc_11 (a : String)
    (b0 : Slice Oxford.Antonym) (b1 : Slice Oxford.Synonym) (b2 : Slice String) (b3 : Slice String) (b4 : Slice Oxford.Example) (b5 : Slice Oxford.Construction) (b6 : Slice Oxford.Inflection) (b7 : Slice Oxford.DomainClass) (b8 : Slice Oxford.Note) (b9 : Slice Oxford.Translation) (b10 : Slice Oxford.SemanticClass) (b11 : String) (b12 : Slice Oxford.Sense) :
    Sense.setField 11 (Json.string a) (.mk b0 b1 b2 b3 b4 b5 b6 b7 b8 b9 b10 b11 b12)
      = (.mk b0 b1 b2 b3 b4 b5 b6 b7 b8 b9 b10 a b12, none) :=
  congrArg (fun r : String × Option GoError => (Sense.mk b0 b1 b2 b3 b4 b5 b6 b7 b8 b9 b10 r.1 b12, r.2))
    (decodeString_string a b11)


mutual
theorem decodeSense_encodeSense : ∀ (t t0 : Sense), decodeSense (encodeSense t) t0 = (t, none)
  | .mk a0 a1 a2 a3 a4 a5 a6 a7 a8 a9 a10 a11 a12, t0 => by
    have h12 := decodeSenseSlice_encode a12
    have hsub : ∀ (b0 : Slice Antonym) (b1 : Slice Synonym) (b2 b3 : Slice String)
        (b4 : Slice Example) (b5 : Slice Construction) (b6 : Slice Inflection)
        (b7 : Slice DomainClass) (b8 : Slice Note) (b9 : Slice Translation)
        (b10 : Slice SemanticClass) (b11 : String) (b12 : Slice Sense),
        Sense.setField 12 (encodeSenseSlice a12) (.mk b0 b1 b2 b3 b4 b5 b6 b7 b8 b9 b10 b11 b12)
          = (.mk b0 b1 b2 b3 b4 b5 b6 b7 b8 b9 b10 b11 a12, none) := by
      intro b0 b1 b2 b3 b4 b5 b6 b7 b8 b9 b10 b11 b12
      simp only [Sense.setField, Sense.Subsenses, Sense.withSubsenses, h12]
    cases t0
    rw [decodeSense_eq, encodeSense]
    simp only [decodeStruct]
    exact
      decodeObject_step Sense.names Sense.setField Sense_lookup.1
        (Sense_setField_enc_0 a0 _ _ _ _ _ _ _ _ _ _ _ _ _) (
      decodeObject_step Sense.names Sense.setField Sense_lookup.2.1
        (Sense_setField_enc_1 a1 _ _ _ _ _ _ _ _ _ _ _ _ _) (
      decodeObject_step Sense.names Sense.setField Sense_lookup.2.2.1
        (Sense_setField_enc_2 a2 _ _ _ _ _ _ _ _ _ _ _ _ _) (
      decodeObject_step Sense.names Sense.setField Sense_lookup.2.2.2.1
        (Sense_setField_enc_3 a3 _ _ _ _ _ _ _ _ _ _ _ _ _) (
      decodeObject_step Sense.names Sense.setField Sense_lookup.2.2.2.2.1
        (Sense_setField_enc_4 a4 _ _ _ _ _ _ _ _ _ _ _ _ _) (
      decodeObject_step Sense.names Sense.setField Sense_lookup.2.2.2.2.2.1
        (Sense_setField_enc_5 a5 _ _ _ _ _ _ _ _ _ _ _ _ _) (
      decodeObject_step Sense.names Sense.setField Sense_lookup.2.2.2.2.2.2.1
        (Sense_setField_enc_6 a6 _ _ _ _ _ _ _ _ _ _ _ _ _) (
      decodeObject_step Sense.names Sense.setField Sense_lookup.2.2.2.2.2.2.2.1
        (Sense_setField_enc_7 a7 _ _ _ _ _ _ _ _ _ _ _ _ _) (
      decodeObject_step Sense.names Sense.setField Sense_lookup.2.2.2.2.2.2.2.2.1
        (Sense_setField_enc_8 a8 _ _ _ _ _ _ _ _ _ _ _ _ _) (
      decodeObject_step Sense.names Sense.setField Sense_lookup.2.2.2.2.2.2.2.2.2.1
        (Sense_setField_enc_9 a9 _ _ _ _ _ _ _ _ _ _ _ _ _) (
      decodeObject_step Sense.names Sense.setField Sense_lookup.2.2.2.2.2.2.2.2.2.2.1
        (Sense_setField_enc_10 a10 _ _ _ _ _ _ _ _ _ _ _ _ _) (
      decodeObject_step Sense.names Sense.setField Sense_lookup.2.2.2.2.2.2.2.2.2.2.2.1
        (Sense_setField_enc_11 a11 _ _ _ _ _ _ _ _ _ _ _ _ _) (
      decodeObject_step Sense.names Sense.setField Sense_lookup.2.2.2.2.2.2.2.2.2.2.2.2 (hsub _ _ _ _ _ _ _ _ _ _ _ _ _) (
      decodeObject_nil Sense.names Sense.setField _)))))))))))))
theorem decodeSenseSlice_encode : ∀ (s cur : Option (List Sense)),
    decodeSlice decodeSense Sense.zero "[]main.Sense" (encodeSenseSlice s) cur = (s, none)
  | none, cur => by rw [encodeSenseSlice]; rfl
  | some xs, cur => by
    have h := decodeSenseElems_encode xs
    rw [encodeSenseSlice]
    simp only [decodeSlice, h]
theorem decodeSenseElems_encode : ∀ (xs : List Sense),
    decodeElems decodeSense Sense.zero (encodeSenseElems xs) = (xs, none)
  | [] => by rw [encodeSenseElems]; rfl
  | x :: xs => by
    have h1 := decodeSense_encodeSense x Sense.zero
    have h2 := decodeSenseElems_encode xs
    rw [encodeSenseElems]
    simp only [decodeElems, h1, h2, firstError]
end

theorem encodeSenseSlice_eq (s : Slice Sense) : encodeSenseSlice s = encodeSlice encodeSense s := by
  cases s with
  | none => rw [encodeSenseSlice]; rfl
  | some xs =>
    rw [encodeSenseSlice]
    simp only [encodeSlice]
    congr 1
    induction xs with
    | nil => rw [encodeSenseElems]; rfl
    | cons x xs ih => rw [encodeSenseElems, ih]; rfl

/-! ### `Sense`: members with names outside the schema -/

theorem Sense_names_outside (k : String) (h : outsideSchema k) :
    lookupName Sense.names k = none :=
  lookupName_eq_none Sense.names k (fun n hn => h n (by revert n; decide))

theorem Sense.setLeaf_extends : ∀ (i : Nat) (v v2 : Json) (t : Sense), i < 12 → Extends v v2 →
    Sense.setLeaf i v2 t = Sense.setLeaf i v t
  | 0, v, v2, .mk a0 a1 a2 a3 a4 a5 a6 a7 a8 a9 a10 a11 a12, _, h =>
    congrArg (fun r : Slice Oxford.Antonym × Option GoError => (Sense.mk r.1 a1 a2 a3 a4 a5 a6 a7 a8 a9 a10 a11 a12, r.2))
      (decodeSlice_extends decodeAntonym Antonym.zero "[]main.Antonym" v v2 a0 h
        (fun x y t hxy _ => decodeAntonym_extends x y t hxy))
  | 1, v, v2, .mk a0 a1 a2 a3 a4 a5 a6 a7 a8 a9 a10 a11 a12, _, h =>
    congrArg (fun r : Slice Oxford.Synonym × Option GoError => (Sense.mk a0 r.1 a2 a3 a4 a5 a6 a7 a8 a9 a10 a11 a12, r.2))
      (decodeSlice_extends decodeSynonym Synonym.zero "[]main.Synonym" v v2 a1 h
        (fun x y t hxy _ => decodeSynonym_extends x y t hxy))
  | 2, v, v2, .mk a0 a1 a2 a3 a4 a5 a6 a7 a8 a9 a10 a11 a12, _, h =>
    congrArg (fun r : Slice String × Option GoError => (Sense.mk a0 a1 r.1 a3 a4 a5 a6 a7 a8 a9 a10 a11 a12, r.2))
      (decodeSlice_extends decodeString "" "[]string" v v2 a2 h
        (fun x y t hxy _ => decodeString_extends x y t hxy))
  | 3, v, v2, .mk a0 a1 a2 a3 a4 a5 a6 a7 a8 a9 a10 a11 a12, _, h =>
    congrArg (fun r : Slice String × Option GoError => (Sense.mk a0 a1 a2 r.1 a4 a5 a6 a7 a8 a9 a10 a11 a12, r.2))
      (decodeSlice_extends decodeString "" "[]string" v v2 a3 h
        (fun x y t hxy _ => decodeString_extends x y t hxy))
  | 4, v, v2, .mk a0 a1 a2 a3 a4 a5 a6 a7 a8 a9 a10 a11 a12, _, h =>
    congrArg (fun r : Slice Oxford.Example × Option GoError => (Sense.mk a0 a1 a2 a3 r.1 a5 a6 a7 a8 a9 a10 a11 a12, r.2))
      (decodeSlice_extends decodeExample Example.zero "[]main.Example" v v2 a4 h
        (fun x y t hxy _ => decodeExample_extends x y t hxy))
  | 5, v, v2, .mk a0 a1 a2 a3 a4 a5 a6 a7 a8 a9 a10 a11 a12, _, h =>
    congrArg (fun r : Slice Oxford.Construction × Option GoError => (Sense.mk a0 a1 a2 a3 a4 r.1 a6 a7 a8 a9 a10 a11 a12, r.2))
      (decodeSlice_extends decodeConstruction Construction.zero "[]main.Construction" v v2 a5 h
        (fun x y t hxy _ => decodeConstruction_extends x y t hxy))
  | 6, v, v2, .mk a0 a1 a2 a3 a4 a5 a6 a7 a8 a9 a10 a11 a12, _, h =>
    congrArg (fun r : Slice Oxford.Inflection × Option GoError => (Sense.mk a0 a1 a2 a3 a4 a5 r.1 a7 a8 a9 a10 a11 a12, r.2))
      (decodeSlice_extends decodeInflection Inflection.zero "[]main.Inflection" v v2 a6 h
        (fun x y t hxy _ => decodeInflection_extends x y t hxy))
  | 7, v, v2, .mk a0 a1 a2 a3 a4 a5 a6 a7 a8 a9 a10 a11 a12, _, h =>
    congrArg (fun r : Slice Oxford.DomainClass × Option GoError => (Sense.mk a0 a1 a2 a3 a4 a5 a6 r.1 a8 a9 a10 a11 a12, r.2))
      (decodeSlice_extends decodeDomainClass DomainClass.zero "[]main.DomainClass" v v2 a7 h
        (fun x y t hxy _ => decodeDomainClass_extends x y t hxy))
  | 8, v, v2, .mk a0 a1 a2 a3 a4 a5 a6 a7 a8 a9 a10 a11 a12, _, h =>
    congrArg (fun r : Slice Oxford.Note × Option GoError => (Sense.mk a0 a1 a2 a3 a4 a5 a6 a7 r.1 a9 a10 a11 a12, r.2))
      (decodeSlice_extends decodeNote Note.zero "[]main.Note" v v2 a8 h
        (fun x y t hxy _ => decodeNote_extends x y t hxy))
  | 9, v, v2, .mk a0 a1 a2 a3 a4 a5 a6 a7 a8 a9 a10 a11 a12, _, h =>
    congrArg (fun r : Slice Oxford.Translation × Option GoError => (Sense.mk a0 a1 a2 a3 a4 a5 a6 a7 a8 r.1 a10 a11 a12, r.2))
      (decodeSlice_extends decodeTranslation Translation.zero "[]main.Translation" v v2 a9 h
        (fun x y t hxy _ => decodeTranslation_extends x y t hxy))
  | 10, v, v2, .mk a0 a1 a2 a3 a4 a5 a6 a7 a8 a9 a10 a11 a12, _, h =>
    congrArg (fun r : Slice Oxford.SemanticClass × Option GoError => (Sense.mk a0 a1 a2 a3 a4 a5 a6 a7 a8 a9 r.1 a11 a12, r.2))
      (decodeSlice_extends decodeSemanticClass SemanticClass.zero "[]main.SemanticClass" v v2 a10 h
        (fun x y t hxy _ => decodeSemanticClass_extends x y t hxy))
  | 11, v, v2, .mk a0 a1 a2 a3 a4 a5 a6 a7 a8 a9 a10 a11 a12, _, h =>
    congrArg (fun r : String × Option GoError => (Sense.mk a0 a1 a2 a3 a4 a5 a6 a7 a8 a9 a10 r.1 a12, r.2))
      (decodeString_extends v v2 a11 h)
  | _ + 12, _, _, _, hi, _ => absurd hi (by omega)


theorem decodeSense_extends_aux : ∀ (n : Nat) (j2 : Json), sizeOf j2 < n →
    ∀ (j : Json) (t : Sense), Extends j j2 → decodeSense j2 t = decodeSense j t := by
  intro n
  induction n with
  | zero => intro j2 h; omega
  | succ n ih =>
    intro j2 hsz j t h
    rw [decodeSense_eq, decodeSense_eq]
    apply decodeStruct_extends Sense.names Sense.setField "main.Sense" Sense_names_outside j j2 t h
    intro k i v v2 t hl hk hv hlt
    have hi13 : i < 13 := lookupName_lt Sense.names k i hl
    by_cases hi : i = 12
    · subst hi
      simp only [Sense.setField]
      rw [decodeSlice_extends decodeSense Sense.zero "[]main.Sense" v v2 _ hv
        (fun x y t hxy hy => ih y (by omega) x t hxy)]
    · rw [Sense.setField_of_ne i hi, Sense.setField_of_ne i hi]
      exact Sense.setLeaf_extends i v v2 t (by omega) hv

theorem decodeSense_extends (j j2 : Json) (t : Sense) (h : Extends j j2) :
    decodeSense j2 t = decodeSense j t :=
  decodeSense_extends_aux (sizeOf j2 + 1) j2 (by omega) j t h

theorem Sense_setField_fieldZero : ∀ (i j : Nat) (v : Json) (t : Sense), j ≠ i →
    Sense.fieldZero i t → Sense.fieldZero i (Sense.setField j v t).1
  | 0, j, v, t, hne, hz => by
    cases t
    rcases j with _ | _ | _ | _ | _ | _ | _ | _ | _ | _ | _ | _ | _ | j <;> first | exact absurd rfl hne | exact hz
  | 1, j, v, t, hne, hz => by
    cases t
    rcases j with _ | _ | _ | _ | _ | _ | _ | _ | _ | _ | _ | _ | _ | j <;> first | exact absurd rfl hne | exact hz
  | 2, j, v, t, hne, hz => by
    cases t
    rcases j with _ | _ | _ | _ | _ | _ | _ | _ | _ | _ | _ | _ | _ | j <;> first | exact absurd rfl hne | exact hz
  | 3, j, v, t, hne, hz => by
    cases t
    rcases j with _ | _ | _ | _ | _ | _ | _ | _ | _ | _ | _ | _ | _ | j <;> first | exact absurd rfl hne | exact hz
  | 4, j, v, t, hne, hz => by
    cases t
    rcases j with _ | _ | _ | _ | _ | _ | _ | _ | _ | _ | _ | _ | _ | j <;> first | exact absurd rfl hne | exact hz
  | 5, j, v, t, hne, hz => by
    cases t
    rcases j with _ | _ | _ | _ | _ | _ | _ | _ | _ | _ | _ | _ | _ | j <;> first | exact absurd rfl hne | exact hz
  | 6, j, v, t, hne, hz => by
    cases t
    rcases j with _ | _ | _ | _ | _ | _ | _ | _ | _ | _ | _ | _ | _ | j <;> first | exact absurd rfl hne | exact hz
  | 7, j, v, t, hne, hz => by
    cases t
    rcases j with _ | _ | _ | _ | _ | _ | _ | _ | _ | _ | _ | _ | _ | j <;> first | exact absurd rfl hne | exact hz
  | 8, j, v, t, hne, hz => by
    cases t
    rcases j with _ | _ | _ | _ | _ | _ | _ | _ | _ | _ | _ | _ | _ | j <;> first | exact absurd rfl hne | exact hz
  | 9, j, v, t, hne, hz => by
    cases t
    rcases j with _ | _ | _ | _ | _ | _ | _ | _ | _ | _ | _ | _ | _ | j <;> first | exact absurd rfl hne | exact hz
  | 10, j, v, t, hne, hz => by
    cases t
    rcases j with _ | _ | _ | _ | _ | _ | _ | _ | _ | _ | _ | _ | _ | j <;> first | exact absurd rfl hne | exact hz
  | 11, j, v, t, hne, hz => by
    cases t
    rcases j with _ | _ | _ | _ | _ | _ | _ | _ | _ | _ | _ | _ | _ | j <;> first | exact absurd rfl hne | exact hz
  | 12, j, v, t, hne, hz => by
    cases t
    rcases j with _ | _ | _ | _ | _ | _ | _ | _ | _ | _ | _ | _ | _ | j <;> first | exact absurd rfl hne | exact hz
  | _ + 13, _, _, _, _, _ => trivial

theorem Sense_zero_fieldZero : ∀ (i : Nat), Sense.fieldZero i Sense.zero
  | 0 => rfl
  | 1 => rfl
  | 2 => rfl
  | 3 => rfl
  | 4 => rfl
  | 5 => rfl
  | 6 => rfl
  | 7 => rfl
  | 8 => rfl
  | 9 => rfl
  | 10 => rfl
  | 11 => rfl
  | 12 => rfl
  | _ + 13 => trivial


/-! ### `Entry` -/

theorem Entry_lookup :
    lookupName Entry.names "senses" = some 0 ∧
    lookupName Entry.names "pronunciations" = some 1 ∧
    lookupName Entry.names "etymologies" = some 2 ∧
    lookupName Entry.names "inflections" = some 3 ∧
    lookupName Entry.names "grammaticalFeatures" = some 4 := by
  decide

theorem Entry_names_outside (k : String) (h : outsideSchema k) :
    lookupName Entry.names k = none :=
  lookupName_eq_none Entry.names k (fun n hn => h n (by revert n; decide))

theorem Entry_setField_fieldZero : ∀ (i j : Nat) (v : Json) (t : Entry), j ≠ i →
    Entry.fieldZero i t → Entry.fieldZero i (Entry.setField j v t).1
  | 0, j, v, t, hne, hz => by
    cases t
    rcases j with _ | _ | _ | _ | _ | j <;> first | exact absurd rfl hne | exact hz
  | 1, j, v, t, hne, hz => by
    cases t
    rcases j with _ | _ | _ | _ | _ | j <;> first | exact absurd rfl hne | exact hz
  | 2, j, v, t, hne, hz => by
    cases t
    rcases j with _ | _ | _ | _ | _ | j <;> first | exact absurd rfl hne | exact hz
  | 3, j, v, t, hne, hz => by
    cases t
    rcases j with _ | _ | _ | _ | _ | j <;> first | exact absurd rfl hne | exact hz
  | 4, j, v, t, hne, hz => by
    cases t
    rcases j with _ | _ | _ | _ | _ | j <;> first | exact absurd rfl hne | exact hz
  | _ + 5, _, _, _, _, _ => trivial

theorem Entry_zero_fieldZero : ∀ (i : Nat), Entry.fieldZero i Entry.zero
  | 0 => rfl
  | 1 => rfl
  | 2 => rfl
  | 3 => rfl
  | 4 => rfl
  | _ + 5 => trivial

theorem Entry_setField_enc_0 (a : Slice Oxford.Sense) (t : Entry) :
    Entry.setField 0 (encodeSlice encodeSense a) t = ({ t with Senses := a }, none) := by
  simp only [Entry.setField, decodeSlice_encodeSlice decodeSense encodeSense Sense.zero _ decodeSense_encodeSense]

theorem Entry_setField_enc_1 (a : Slice Oxford.Pronunciation) (t : Entry) :
    Entry.setField 1 (encodeSlice encodePronunciation a) t = ({ t with Pronunciations := a }, none) := by
  simp only [Entry.setField, decodeSlice_encodeSlice decodePronunciation encodePronunciation Pronunciation.zero _ decodePronunciation_encodePronunciation]

theorem Entry_setField_enc_2 (a : Slice String) (t : Entry) :
    Entry.setField 2 (encodeSlice Json.string a) t = ({ t with Etymologies := a }, none) := by
  simp only [Entry.setField, decodeSlice_string]

theorem Entry_setField_enc_3 (a : Slice Oxford.Inflection) (t : Entry) :
    Entry.setField 3 (encodeSlice encodeInflection a) t = ({ t with Inflections := a }, none) := by
  simp only [Entry.setField, decodeSlice_encodeSlice decodeInflection encodeInflection Inflection.zero _ decodeInflection_encodeInflection]

theorem Entry_setField_enc_4 (a : Slice Oxford.GrammaticalFeature) (t : Entry) :
    Entry.setField 4 (encodeSlice encodeGrammaticalFeature a) t = ({ t with GrammaticalFeatures := a }, none) := by
  simp only [Entry.setField, decodeSlice_encodeSlice decodeGrammaticalFeature encodeGrammaticalFeature GrammaticalFeature.zero _ decodeGrammaticalFeature_encodeGrammaticalFeature]

theorem decodeEntry_encodeEntry (t t0 : Entry) :
    decodeEntry (encodeEntry t) t0 = (t, none) := by
  simp only [decodeEntry, encodeEntry, decodeStruct]
  exact
    decodeObject_step Entry.names Entry.setField Entry_lookup.1
      (Entry_setField_enc_0 t.Senses _) (
    decodeObject_step Entry.names Entry.setField Entry_lookup.2.1
      (Entry_setField_enc_1 t.Pronunciations _) (
    decodeObject_step Entry.names Entry.setField Entry_lookup.2.2.1
      (Entry_setField_enc_2 t.Etymologies _) (
    decodeObject_step Entry.names Entry.setField Entry_lookup.2.2.2.1
      (Entry_setField_enc_3 t.Inflections _) (
    decodeObject_step Entry.names Entry.setField Entry_lookup.2.2.2.2
      (Entry_setField_enc_4 t.GrammaticalFeatures _) (
    decodeObject_nil Entry.names Entry.setField t)))))

theorem Entry_setField_extends : ∀ (i : Nat) (v v2 : Json) (t : Entry), Extends v v2 →
    Entry.setField i v2 t = Entry.setField i v t
  | 0, v, v2, t, h => by
    simp only [Entry.setField]
    rw [decodeSlice_extends decodeSense Sense.zero "[]main.Sense" v v2 _ h
        (fun x y t hxy _ => decodeSense_extends x y t hxy)]
  | 1, v, v2, t, h => by
    simp only [Entry.setField]
    rw [decodeSlice_extends decodePronunciation Pronunciation.zero "[]main.Pronunciation" v v2 _ h
        (fun x y t hxy _ => decodePronunciation_extends x y t hxy)]
  | 2, v, v2, t, h => by
    simp only [Entry.setField]
    rw [decodeSlice_extends decodeString "" "[]string" v v2 _ h
        (fun x y t hxy _ => decodeString_extends x y t hxy)]
  | 3, v, v2, t, h => by
    simp only [Entry.setField]
    rw [decodeSlice_extends decodeInflection Inflection.zero "[]main.Inflection" v v2 _ h
        (fun x y t hxy _ => decodeInflection_extends x y t hxy)]
  | 4, v, v2, t, h => by
    simp only [Entry.setField]
    rw [decodeSlice_extends decodeGrammaticalFeature GrammaticalFeature.zero "[]main.GrammaticalFeature" v v2 _ h
        (fun x y t hxy _ => decodeGrammaticalFeature_extends x y t hxy)]
  | _ + 5, _, _, _, _ => by simp only [Entry.setField]

theorem decodeEntry_extends (j j2 : Json) (t : Entry) (h : Extends j j2) :
    decodeEntry j2 t = decodeEntry j t :=
  decodeStruct_extends Entry.names Entry.setField "main.Entry" Entry_names_outside j j2 t h
    (fun _ i v v2 t _ _ hv _ => Entry_setField_extends i v v2 t hv)

/-! ### `LexicalEntry` -/

theorem LexicalEntry_lookup :
    lookupName LexicalEntry.names "entries" = some 0 ∧
    lookupName LexicalEntry.names "language" = some 1 ∧
    lookupName LexicalEntry.names "lexicalCategory" = some 2 ∧
    lookupName LexicalEntry.names "text" = some 3 ∧
    lookupName LexicalEntry.names "phrases" = some 4 ∧
    lookupName LexicalEntry.names "sentences" = some 5 := by
  decide

theorem LexicalEntry_names_outside (k : String) (h : outsideSchema k) :
    lookupName LexicalEntry.names k = none :=
  lookupName_eq_none LexicalEntry.names k (fun n hn => h n (by revert n; decide))

theorem LexicalEntry_setField_fieldZero : ∀ (i j : Nat) (v : Json) (t : LexicalEntry), j ≠ i →
    LexicalEntry.fieldZero i t → LexicalEntry.fieldZero i (LexicalEntry.setField j v t).1
  | 0, j, v, t, hne, hz => by
    cases t
    rcases j with _ | _ | _ | _ | _ | _ | j <;> first | exact absurd rfl hne | exact hz
  | 1, j, v, t, hne, hz => by
    cases t
    rcases j with _ | _ | _ | _ | _ | _ | j <;> first | exact absurd rfl hne | exact hz
  | 2, j, v, t, hne, hz => by
    cases t
    rcases j with _ | _ | _ | _ | _ | _ | j <;> first | exact absurd rfl hne | exact hz
  | 3, j, v, t, hne, hz => by
    cases t
    rcases j with _ | _ | _ | _ | _ | _ | j <;> first | exact absurd rfl hne | exact hz
  | 4, j, v, t, hne, hz => by
    cases t
    rcases j with _ | _ | _ | _ | _ | _ | j <;> first | exact absurd rfl hne | exact hz
  | 5, j, v, t, hne, hz => by
    cases t
    rcases j with _ | _ | _ | _ | _ | _ | j <;> first | exact absurd rfl hne | exact hz
  | _ + 6, _, _, _, _, _ => trivial

theorem LexicalEntry_zero_fieldZero : ∀ (i : Nat), LexicalEntry.fieldZero i LexicalEntry.zero
  | 0 => rfl
  | 1 => rfl
  | 2 => rfl
  | 3 => rfl
  | 4 => rfl
  | 5 => rfl
  | _ + 6 => trivial

theorem LexicalEntry_setField_enc_0 (a : Slice Oxford.Entry) (t : LexicalEntry) :
    LexicalEntry.setField 0 (encodeSlice encodeEntry a) t = ({ t with Entries := a }, none) := by
  simp only [LexicalEntry.setField, decodeSlice_encodeSlice decodeEntry encodeEntry Entry.zero _ decodeEntry_encodeEntry]

theorem LexicalEntry_setField_enc_1 (a : String) (t : LexicalEntry) :
    LexicalEntry.setField 1 (Json.string a) t = ({ t with Language := a }, none) := by
  simp only [LexicalEntry.setField, decodeString_string]

theorem LexicalEntry_setField_enc_2 (a : Oxford.LexicalCategory) (t : LexicalEntry) :
    LexicalEntry.setField 2 (encodeLexicalCategory a) t = ({ t with LexicalCategory := a }, none) := by
  simp only [LexicalEntry.setField, decodeLexicalCategory_encodeLexicalCategory]

theorem LexicalEntry_setField_enc_3 (a : String) (t : LexicalEntry) :
    LexicalEntry.setField 3 (Json.string a) t = ({ t with Text := a }, none) := by
  simp only [LexicalEntry.setField, decodeString_string]

theorem LexicalEntry_setField_enc_4 (a : Slice Oxford.Phrase) (t : LexicalEntry) :
    LexicalEntry.setField 4 (encodeSlice encodePhrase a) t = ({ t with Phrases := a }, none) := by
  simp only [LexicalEntry.setField, decodeSlice_encodeSlice decodePhrase encodePhrase Phrase.zero _ decodePhrase_encodePhrase]

theorem LexicalEntry_setField_enc_5 (a : Slice Oxford.Sentence) (t : LexicalEntry) :
    LexicalEntry.setField 5 (encodeSlice encodeSentence a) t = ({ t with Sentences := a }, none) := by
  simp only [LexicalEntry.setField, decodeSlice_encodeSlice decodeSentence encodeSentence Sentence.zero _ decodeSentence_encodeSentence]

theorem decodeLexicalEntry_encodeLexicalEntry (t t0 : LexicalEntry) :
    decodeLexicalEntry (encodeLexicalEntry t) t0 = (t, none) := by
  simp only [decodeLexicalEntry, encodeLexicalEntry, decodeStruct]
  exact
    decodeObject_step LexicalEntry.names LexicalEntry.setField LexicalEntry_lookup.1
      (LexicalEntry_setField_enc_0 t.Entries _) (
    decodeObject_step LexicalEntry.names LexicalEntry.setField LexicalEntry_lookup.2.1
      (LexicalEntry_setField_enc_1 t.Language _) (
    decodeObject_step LexicalEntry.names LexicalEntry.setField LexicalEntry_lookup.2.2.1
      (LexicalEntry_setField_enc_2 t.LexicalCategory _) (
    decodeObject_step LexicalEntry.names LexicalEntry.setField LexicalEntry_lookup.2.2.2.1
      (LexicalEntry_setField_enc_3 t.Text _) (
    decodeObject_step LexicalEntry.names LexicalEntry.setField LexicalEntry_lookup.2.2.2.2.1
      (LexicalEntry_setField_enc_4 t.Phrases _) (
    decodeObject_step LexicalEntry.names LexicalEntry.setField LexicalEntry_lookup.2.2.2.2.2
      (LexicalEntry_setField_enc_5 t.Sentences _) (
    decodeObject_nil LexicalEntry.names LexicalEntry.setField t))))))

theorem LexicalEntry_setField_extends : ∀ (i : Nat) (v v2 : Json) (t : LexicalEntry), Extends v v2 →
    LexicalEntry.setField i v2 t = LexicalEntry.setField i v t
  | 0, v, v2, t, h => by
    simp only [LexicalEntry.setField]
    rw [decodeSlice_extends decodeEntry Entry.zero "[]main.Entry" v v2 _ h
        (fun x y t hxy _ => decodeEntry_extends x y t hxy)]
  | 1, v, v2, t, h => by
    simp only [LexicalEntry.setField]
    rw [decodeString_extends v v2 _ h]
  | 2, v, v2, t, h => by
    simp only [LexicalEntry.setField]
    rw [decodeLexicalCategory_extends v v2 _ h]
  | 3, v, v2, t, h => by
    simp only [LexicalEntry.setField]
    rw [decodeString_extends v v2 _ h]
  | 4, v, v2, t, h => by
    simp only [LexicalEntry.setField]
    rw [decodeSlice_extends decodePhrase Phrase.zero "[]main.Phrase" v v2 _ h
        (fun x y t hxy _ => decodePhrase_extends x y t hxy)]
  | 5, v, v2, t, h => by
    simp only [LexicalEntry.setField]
    rw [decodeSlice_extends decodeSentence Sentence.zero "[]main.Sentence" v v2 _ h
        (fun x y t hxy _ => decodeSentence_extends x y t hxy)]
  | _ + 6, _, _, _, _ => by simp only [LexicalEntry.setField]

theorem decodeLexicalEntry_extends (j j2 : Json) (t : LexicalEntry) (h : Extends j j2) :
    decodeLexicalEntry j2 t = decodeLexicalEntry j t :=
  decodeStruct_extends LexicalEntry.names LexicalEntry.setField "main.LexicalEntry" LexicalEntry_names_outside j j2 t h
    (fun _ i v v2 t _ _ hv _ => LexicalEntry_setField_extends i v v2 t hv)

/-! ### `Result` -/

theorem Result_lookup :
    lookupName Result.names "id" = some 0 ∧ lookupName Result.names "language" = some 1 ∧
    lookupName Result.names "lexicalEntries" = some 2 ∧
    lookupName Result.names "type" = some 3 ∧ lookupName Result.names "word" = some 4 := by
  decide

theorem Result_names_outside (k : String) (h : outsideSchema k) :
    lookupName Result.names k = none :=
  lookupName_eq_none Result.names k (fun n hn => h n (by revert n; decide))

theorem Result_setField_fieldZero : ∀ (i j : Nat) (v : Json) (t : Result), j ≠ i →
    Result.fieldZero i t → Result.fieldZero i (Result.setField j v t).1
  | 0, j, v, t, hne, hz => by
    cases t
    rcases j with _ | _ | _ | _ | _ | j <;> first | exact absurd rfl hne | exact hz
  | 1, j, v, t, hne, hz => by
    cases t
    rcases j with _ | _ | _ | _ | _ | j <;> first | exact absurd rfl hne | exact hz
  | 2, j, v, t, hne, hz => by
    cases t
    rcases j with _ | _ | _ | _ | _ | j <;> first | exact absurd rfl hne | exact hz
  | 3, j, v, t, hne, hz => by
    cases t
    rcases j with _ | _ | _ | _ | _ | j <;> first | exact absurd rfl hne | exact hz
  | 4, j, v, t, hne, hz => by
    cases t
    rcases j with _ | _ | _ | _ | _ | j <;> first | exact absurd rfl hne | exact hz
  | _ + 5, _, _, _, _, _ => trivial

theorem Result_zero_fieldZero : ∀ (i : Nat), Result.fieldZero i Result.zero
  | 0 => rfl
  | 1 => rfl
  | 2 => rfl
  | 3 => rfl
  | 4 => rfl
  | _ + 5 => trivial

theorem Result_setField_enc_0 (a : String) (t : Result) :
    Result.setField 0 (Json.string a) t = ({ t with Id := a }, none) := by
  simp only [Result.setField, decodeString_string]

theorem Result_setField_enc_1 (a : String) (t : Result) :
    Result.setField 1 (Json.string a) t = ({ t with Language := a }, none) := by
  simp only [Result.setField, decodeString_string]

theorem Result_setField_enc_2 (a : Slice Oxford.LexicalEntry) (t : Result) :
    Result.setField 2 (encodeSlice encodeLexicalEntry a) t = ({ t with LexicalEntries := a }, none) := by
  simp only [Result.setField, decodeSlice_encodeSlice decodeLexicalEntry encodeLexicalEntry LexicalEntry.zero _ decodeLexicalEntry_encodeLexicalEntry]

theorem Result_setField_enc_3 (a : String) (t : Result) :
    Result.setField 3 (Json.string a) t = ({ t with «Type» := a }, none) := by
  simp only [Result.setField, decodeString_string]

theorem Result_setField_enc_4 (a : String) (t : Result) :
    Result.setField 4 (Json.string a) t = ({ t with Word := a }, none) := by
  simp only [Result.setField, decodeString_string]

theorem decodeResult_encodeResult (t t0 : Result) :
    decodeResult (encodeResult t) t0 = (t, none) := by
  simp only [decodeResult, encodeResult, decodeStruct]
  exact
    decodeObject_step Result.names Result.setField Result_lookup.1
      (Result_setField_enc_0 t.Id _) (
    decodeObject_step Result.names Result.setField Result_lookup.2.1
      (Result_setField_enc_1 t.Language _) (
    decodeObject_step Result.names Result.setField Result_lookup.2.2.1
      (Result_setField_enc_2 t.LexicalEntries _) (
    decodeObject_step Result.names Result.setField Result_lookup.2.2.2.1
      (Result_setField_enc_3 t.«Type» _) (
    decodeObject_step Result.names Result.setField Result_lookup.2.2.2.2
      (Result_setField_enc_4 t.Word _) (
    decodeObject_nil Result.names Result.setField t)))))

theorem Result_setField_extends : ∀ (i : Nat) (v v2 : Json) (t : Result), Extends v v2 →
    Result.setField i v2 t = Result.setField i v t
  | 0, v, v2, t, h => by
    simp only [Result.setField]
    rw [decodeString_extends v v2 _ h]
  | 1, v, v2, t, h => by
    simp only [Result.setField]
    rw [decodeString_extends v v2 _ h]
  | 2, v, v2, t, h => by
    simp only [Result.setField]
    rw [decodeSlice_extends decodeLexicalEntry LexicalEntry.zero "[]main.LexicalEntry" v v2 _ h
        (fun x y t hxy _ => decodeLexicalEntry_extends x y t hxy)]
  | 3, v, v2, t, h => by
    simp only [Result.setField]
    rw [decodeString_extends v v2 _ h]
  | 4, v, v2, t, h => by
    simp only [Result.setField]
    rw [decodeString_extends v v2 _ h]
  | _ + 5, _, _, _, _ => by simp only [Result.setField]

theorem decodeResult_extends (j j2 : Json) (t : Result) (h : Extends j j2) :
    decodeResult j2 t = decodeResult j t :=
  decodeStruct_extends Result.names Result.setField "main.Result" Result_names_outside j j2 t h
    (fun _ i v v2 t _ _ hv _ => Result_setField_extends i v v2 t hv)

/-! ### `OxfordResponse` -/

theorem OxfordResponse_lookup :
    lookupName OxfordResponse.names "metadata" = some 0 ∧
    lookupName OxfordResponse.names "query" = some 1 ∧
    lookupName OxfordResponse.names "results" = some 2 := by
  decide

theorem OxfordResponse_names_outside (k : String) (h : outsideSchema k) :
    lookupName OxfordResponse.names k = none :=
  lookupName_eq_none OxfordResponse.names k (fun n hn => h n (by revert n; decide))

theorem OxfordResponse_setField_fieldZero (fc : FloatCodec) : ∀ (i j : Nat) (v : Json) (t : OxfordResponse), j ≠ i →
    OxfordResponse.fieldZero i t → OxfordResponse.fieldZero i (OxfordResponse.setField fc j v t).1
  | 0, j, v, t, hne, hz => by
    cases t
    rcases j with _ | _ | _ | j <;> first | exact absurd rfl hne | exact hz
  | 1, j, v, t, hne, hz => by
    cases t
    rcases j with _ | _ | _ | j <;> first | exact absurd rfl hne | exact hz
  | 2, j, v, t, hne, hz => by
    cases t
    rcases j with _ | _ | _ | j <;> first | exact absurd rfl hne | exact hz
  | _ + 3, _, _, _, _, _ => trivial

theorem OxfordResponse_zero_fieldZero : ∀ (i : Nat), OxfordResponse.fieldZero i OxfordResponse.zero
  | 0 => rfl
  | 1 => rfl
  | 2 => rfl
  | _ + 3 => trivial

/-! ## The metadata map and the response: lemmas -/

theorem mapAssign_new : ∀ (m : List (String × GoAny)) (k : String) (v : GoAny),
    (∀ kv ∈ m, kv.1 ≠ k) → mapAssign m k v = m ++ [(k, v)] := by
  intro m
  induction m with
  | nil => intro k v _; rfl
  | cons kv rest ih =>
    intro k v h
    obtain ⟨k0, v0⟩ := kv
    have h0 : k0 ≠ k := h (k0, v0) (List.mem_cons_self _ _)
    simp only [mapAssign, if_neg h0, List.cons_append,
      ih k v (fun kv hkv => h kv (List.mem_cons_of_mem _ hkv))]

mutual
theorem decodeAny_encodeAny (fc : FloatCodec) (hc : fc.RoundTrips) :
    ∀ (v : GoAny) (j : Json), v.jsonNative → encodeAny fc v = some j →
      decodeAny fc j = (v, none)
  | .nil, j, _, h => by
    rw [encodeAny] at h
    cases h
    rw [decodeAny]
  | .bool b, j, _, h => by
    rw [encodeAny] at h
    cases h
    rw [decodeAny]
  | .float64 f, j, _, h => by
    rw [encodeAny] at h
    cases hf : fc.format f with
    | none => rw [hf] at h; cases h
    | some s =>
      rw [hf] at h
      cases h
      rw [decodeAny, hc f s hf]
  | .string s, j, _, h => by
    rw [encodeAny] at h
    cases h
    rw [decodeAny]
  | .slice xs, j, hn, h => by
    have ih := decodeAny_encodeAnySlice fc hc xs j
    rw [encodeAny] at h
    rw [GoAny.jsonNative] at hn
    exact ih hn h
  | .map m, j, hn, h => by
    have ih := decodeAny_encodeAnyMap fc hc m j
    rw [encodeAny] at h
    rw [GoAny.jsonNative] at hn
    exact ih hn h
  | .int n, j, hn, _ => by
    rw [GoAny.jsonNative] at hn
    exact absurd hn id
theorem decodeAny_encodeAnySlice (fc : FloatCodec) (hc : fc.RoundTrips) :
    ∀ (xs : Option (List GoAny)) (j : Json), GoAny.jsonNativeSlice xs →
      encodeAnySlice fc xs = some j → decodeAny fc j = (.slice xs, none)
  | none, j, hn, _ => by
    rw [GoAny.jsonNativeSlice] at hn
    exact absurd hn id
  | some xs, j, hn, h => by
    have ih := decodeAnyElems_encode fc hc xs
    rw [GoAny.jsonNativeSlice] at hn
    rw [encodeAnySlice] at h
    cases he : encodeAnyElems fc xs with
    | none => rw [he] at h; cases h
    | some js =>
      rw [he] at h
      cases h
      rw [decodeAny, ih js hn he]
theorem decodeAny_encodeAnyMap (fc : FloatCodec) (hc : fc.RoundTrips) :
    ∀ (m : Option (List (String × GoAny))) (j : Json), GoAny.jsonNativeMap m →
      encodeAnyMap fc m = some j → decodeAny fc j = (.map m, none)
  | none, j, hn, _ => by
    rw [GoAny.jsonNativeMap] at hn
    exact absurd hn id
  | some m, j, hn, h => by
    have ih := decodeAnyMembers_encode fc hc m
    rw [GoAny.jsonNativeMap] at hn
    rw [encodeAnyMap] at h
    cases he : encodeAnyMembers fc m with
    | none => rw [he] at h; cases h
    | some js =>
      rw [he] at h
      cases h
      rw [decodeAny, ih js [] hn (fun kv hkv => absurd hkv (List.not_mem_nil _)) he]
      rfl
theorem decodeAnyElems_encode (fc : FloatCodec) (hc : fc.RoundTrips) :
    ∀ (xs : List GoAny) (js : List Json), GoAny.jsonNativeElems xs →
      encodeAnyElems fc xs = some js → decodeAnyElems fc js = (xs, none)
  | [], js, _, h => by
    rw [encodeAnyElems] at h
    cases h
    rw [decodeAnyElems]
  | x :: xs, js, hn, h => by
    have ih1 := decodeAny_encodeAny fc hc x
    have ih2 := decodeAnyElems_encode fc hc xs
    rw [GoAny.jsonNativeElems] at hn
    rw [encodeAnyElems] at h
    cases h1 : encodeAny fc x with
    | none => rw [h1] at h; cases h
    | some a =>
      cases h2 : encodeAnyElems fc xs with
      | none => rw [h1, h2] at h; cases h
      | some b =>
        rw [h1, h2] at h
        cases h
        rw [decodeAnyElems, ih1 a hn.1 h1, ih2 b hn.2 h2]
        rfl
theorem decodeAnyMembers_encode (fc : FloatCodec) (hc : fc.RoundTrips) :
    ∀ (m : List (String × GoAny)) (js : List (String × Json)) (acc : List (String × GoAny)),
      GoAny.jsonNativeMembers m → (∀ kv ∈ acc, ∀ kv2 ∈ m, kv.1 ≠ kv2.1) →
      encodeAnyMembers fc m = some js → decodeAnyMembers fc js acc = (acc ++ m, none)
  | [], js, acc, _, _, h => by
    rw [encodeAnyMembers] at h
    cases h
    rw [decodeAnyMembers, List.append_nil]
  | (k, v) :: rest, js, acc, hn, hacc, h => by
    have ih1 := decodeAny_encodeAny fc hc v
    have ih2 := decodeAnyMembers_encode fc hc rest
    rw [GoAny.jsonNativeMembers] at hn
    rw [encodeAnyMembers] at h
    cases h1 : encodeAny fc v with
    | none => rw [h1] at h; cases h
    | some a =>
      cases h2 : encodeAnyMembers fc rest with
      | none => rw [h1, h2] at h; cases h
      | some b =>
        rw [h1, h2] at h
        cases h
        have hk : ∀ kv ∈ acc, kv.1 ≠ k :=
          fun kv hkv => hacc kv hkv (k, v) (List.mem_cons_self _ _)
        have hacc2 : ∀ kv ∈ acc ++ [(k, v)], ∀ kv2 ∈ rest, kv.1 ≠ kv2.1 := by
          intro kv hkv kv2 hkv2
          rcases List.mem_append.1 hkv with h3 | h3
          · exact hacc kv h3 kv2 (List.mem_cons_of_mem _ hkv2)
          · rw [List.mem_singleton] at h3
            rw [h3]
            exact fun heq => hn.2.1 kv2 hkv2 heq.symm
        rw [decodeAnyMembers, ih1 a hn.1 h1]
        simp only [firstError_none_left]
        rw [mapAssign_new acc k v hk, ih2 b (acc ++ [(k, v)]) hn.2.2 hacc2 h2,
          List.append_assoc]
        rfl
end

/-- The metadata map decodes back from its encoding, into a nil map. -/
theorem decodeMap_encodeAnyMap (fc : FloatCodec) (hc : fc.RoundTrips) (m : GoMap) (j : Json)
    (hn : GoMap.jsonNative m) (h : encodeAnyMap fc m = some j) :
    decodeMap fc j none = (m, none) := by
  cases m with
  | none =>
    rw [encodeAnyMap] at h
    cases h
    rfl
  | some ms =>
    rw [encodeAnyMap] at h
    cases he : encodeAnyMembers fc ms with
    | none => rw [he] at h; cases h
    | some js =>
      rw [he] at h
      cases h
      have hd := decodeAnyMembers_encode fc hc ms js [] hn
        (fun kv hkv => absurd hkv (List.not_mem_nil _)) he
      simp only [decodeMap, Option.getD, hd, List.nil_append]

/-- Round trip of the decoder: the encoding of a response whose metadata
the decoder can produce decodes, into a zero value, to that response. -/
theorem decodeOxfordResponse_encode (fc : FloatCodec) (hc : fc.RoundTrips)
    (r : OxfordResponse) (j : Json) (hn : GoMap.jsonNative r.Meta)
    (h : encodeOxfordResponse fc r = some j) :
    decodeOxfordResponse fc j OxfordResponse.zero = (r, none) := by
  unfold encodeOxfordResponse at h
  cases hm : encodeAnyMap fc r.Meta with
  | none => rw [hm] at h; cases h
  | some m =>
    rw [hm] at h
    cases h
    have h0 : OxfordResponse.setField fc 0 m OxfordResponse.zero
        = ({ OxfordResponse.zero with Meta := r.Meta }, none) := by
      simp only [OxfordResponse.setField, OxfordResponse.zero,
        decodeMap_encodeAnyMap fc hc r.Meta m hn hm]
    have h1 : ∀ t : OxfordResponse, OxfordResponse.setField fc 1 (Json.string r.Query) t
        = ({ t with Query := r.Query }, none) := by
      intro t
      simp only [OxfordResponse.setField, decodeString_string]
    have h2 : ∀ t : OxfordResponse,
        OxfordResponse.setField fc 2 (encodeSlice encodeResult r.Results) t
        = ({ t with Results := r.Results }, none) := by
      intro t
      simp only [OxfordResponse.setField,
        decodeSlice_encodeSlice decodeResult encodeResult Result.zero _ decodeResult_encodeResult]
    simp only [decodeOxfordResponse, decodeStruct]
    exact
      decodeObject_step OxfordResponse.names (OxfordResponse.setField fc)
        OxfordResponse_lookup.1 h0 (
      decodeObject_step OxfordResponse.names (OxfordResponse.setField fc)
        OxfordResponse_lookup.2.1 (h1 _) (
      decodeObject_step OxfordResponse.names (OxfordResponse.setField fc)
        OxfordResponse_lookup.2.2 (h2 _) (
      decodeObject_nil OxfordResponse.names (OxfordResponse.setField fc) r)))

theorem OxfordResponse_setField_extends (fc : FloatCodec) :
    ∀ (i : Nat) (k : String) (v v2 : Json) (t : OxfordResponse),
      lookupName OxfordResponse.names k = some i → foldName k ≠ foldName "metadata" →
      Extends v v2 →
      OxfordResponse.setField fc i v2 t = OxfordResponse.setField fc i v t
  | 0, k, v, v2, t, hl, hk, _ => by
    obtain ⟨n, hn, hf⟩ := lookupName_fold OxfordResponse.names k 0 hl
    have hn2 : n = "metadata" := by
      have : OxfordResponse.names[0]? = some "metadata" := rfl
      rw [this] at hn
      exact (Option.some.inj hn).symm
    rw [hn2] at hf
    exact absurd hf.symm hk
  | 1, _, v, v2, t, _, _, h => by
    simp only [OxfordResponse.setField]
    rw [decodeString_extends v v2 _ h]
  | 2, _, v, v2, t, _, _, h => by
    simp only [OxfordResponse.setField]
    rw [decodeSlice_extends decodeResult Result.zero "[]main.Result" v v2 _ h
      (fun x y t hxy _ => decodeResult_extends x y t hxy)]
  | _ + 3, _, _, _, _, _, _, _ => by simp only [OxfordResponse.setField]

theorem decodeOxfordResponse_extends (fc : FloatCodec) (j j2 : Json) (t : OxfordResponse)
    (h : Extends j j2) : decodeOxfordResponse fc j2 t = decodeOxfordResponse fc j t :=
  decodeStruct_extends OxfordResponse.names (OxfordResponse.setField fc) "main.OxfordResponse"
    OxfordResponse_names_outside j j2 t h
    (fun k i v v2 t hl hk hv _ => OxfordResponse_setField_extends fc i k v v2 t hl hk hv)

/-- The decoding of `{"metadata":{"total":1},"query":"cat","results":null}`. -/
theorem decodeOxfordResponse_total (fc : FloatCodec) :
    decodeOxfordResponse fc
        (.object [("metadata", .object [("total", .number "1")]), ("query", .string "cat"),
                  ("results", .null)]) OxfordResponse.zero
      = ({ Meta := some [("total", (decodeAny fc (.number "1")).1)], Query := "cat",
           Results := none }, (decodeAny fc (.number "1")).2) := by
  have h0 : OxfordResponse.setField fc 0 (.object [("total", .number "1")]) OxfordResponse.zero
      = ({ Meta := some [("total", (decodeAny fc (.number "1")).1)], Query := "",
           Results := none }, (decodeAny fc (.number "1")).2) := by
    simp only [OxfordResponse.setField, OxfordResponse.zero, decodeMap, decodeAnyMembers,
      Option.getD, mapAssign, firstError_none_right]
  simp only [decodeOxfordResponse, decodeStruct]
  rw [decodeObject_cons_some _ _ _ _ _ _ 0 OxfordResponse_lookup.1, h0,
    decodeObject_cons_some _ _ _ _ _ _ 1 OxfordResponse_lookup.2.1,
    decodeObject_cons_some _ _ _ _ _ _ 2 OxfordResponse_lookup.2.2, decodeObject_nil]
  simp only [OxfordResponse.setField, decodeString, decodeSlice, firstError_none_left,
    firstError_none_right]

/-! ## Every struct of the schema: missing members -/

/-- What holds of the decoder of each struct type about the members an
object lacks. -/
theorem StructDecoder.missing_members (d : StructDecoder)
    (hdec : ∀ j t, d.decode j t = decodeStruct d.names d.setField d.goType j t)
    (hzero : ∀ i, d.fieldZero i d.zero)
    (hkeep : ∀ (i j : Nat) (v : Json) (t : d.T), j ≠ i → d.fieldZero i t →
      d.fieldZero i (d.setField j v t).1) :
    (∀ j t, d.decode j t = decodeStruct d.names d.setField d.goType j t) ∧
    (∀ (ms : List (String × Json)) (t : d.T), (d.decode (.object ms) t).2 ≠ none →
      ∃ kv ∈ ms, ∃ (i : Nat) (t2 : d.T),
        lookupName d.names kv.1 = some i ∧ (d.setField i kv.2 t2).2 ≠ none) ∧
    (∀ (ms : List (String × Json)) (i : Nat),
      (∀ kv ∈ ms, lookupName d.names kv.1 ≠ some i) →
      d.fieldZero i (d.decode (.object ms) d.zero).1) ∧
    d.decode (.object []) d.zero = (d.zero, none) := by
  refine ⟨hdec, ?_, ?_, ?_⟩
  · intro ms t h
    rw [hdec] at h
    exact decodeObject_error d.names d.setField ms t h
  · intro ms i h
    rw [hdec]
    exact decodeObject_keeps d.names d.setField (d.fieldZero i) i (hkeep i) ms d.zero h (hzero i)
  · rw [hdec]
    rfl

theorem schemaStructs_missing_members (fc : FloatCodec) :
    ∀ d ∈ schemaStructs fc,
      (∀ j t, d.decode j t = decodeStruct d.names d.setField d.goType j t) ∧
      (∀ (ms : List (String × Json)) (t : d.T), (d.decode (.object ms) t).2 ≠ none →
        ∃ kv ∈ ms, ∃ (i : Nat) (t2 : d.T),
          lookupName d.names kv.1 = some i ∧ (d.setField i kv.2 t2).2 ≠ none) ∧
      (∀ (ms : List (String × Json)) (i : Nat),
        (∀ kv ∈ ms, lookupName d.names kv.1 ≠ some i) →
        d.fieldZero i (d.decode (.object ms) d.zero).1) ∧
      d.decode (.object []) d.zero = (d.zero, none) := by
  intro d hd
  simp only [schemaStructs, List.mem_cons, List.mem_singleton, List.not_mem_nil, or_false] at hd
  rcases hd with rfl | rfl | rfl | rfl | rfl | rfl | rfl | rfl | rfl | rfl | rfl | rfl | rfl | rfl | rfl | rfl | rfl | rfl | rfl | rfl | rfl
  · exact StructDecoder.missing_members _ (fun _ _ => rfl) OxfordResponse_zero_fieldZero
      (OxfordResponse_setField_fieldZero fc)
  · exact StructDecoder.missing_members _ (fun _ _ => rfl) Result_zero_fieldZero
      (Result_setField_fieldZero)
  · exact StructDecoder.missing_members _ (fun _ _ => rfl) LexicalEntry_zero_fieldZero
      (LexicalEntry_setField_fieldZero)
  · exact StructDecoder.missing_members _ (fun _ _ => rfl) Entry_zero_fieldZero
      (Entry_setField_fieldZero)
  · exact StructDecoder.missing_members _ (fun j t => decodeSense_eq j t) Sense_zero_fieldZero
      (Sense_setField_fieldZero)
  · exact StructDecoder.missing_members _ (fun _ _ => rfl) Pronunciation_zero_fieldZero
      (Pronunciation_setField_fieldZero)
  · exact StructDecoder.missing_members _ (fun _ _ => rfl) Synonym_zero_fieldZero
      (Synonym_setField_fieldZero)
  · exact StructDecoder.missing_members _ (fun _ _ => rfl) Antonym_zero_fieldZero
      (Antonym_setField_fieldZero)
  · exact StructDecoder.missing_members _ (fun _ _ => rfl) Example_zero_fieldZero
      (Example_setField_fieldZero)
  · exact StructDecoder.missing_members _ (fun _ _ => rfl) Sentence_zero_fieldZero
      (Sentence_setField_fieldZero)
  · exact StructDecoder.missing_members _ (fun _ _ => rfl) Inflection_zero_fieldZero
      (Inflection_setField_fieldZero)
  · exact StructDecoder.missing_members _ (fun _ _ => rfl) Construction_zero_fieldZero
      (Construction_setField_fieldZero)
  · exact StructDecoder.missing_members _ (fun _ _ => rfl) Translation_zero_fieldZero
      (Translation_setField_fieldZero)
  · exact StructDecoder.missing_members _ (fun _ _ => rfl) LexicalCategory_zero_fieldZero
      (LexicalCategory_setField_fieldZero)
  · exact StructDecoder.missing_members _ (fun _ _ => rfl) Region_zero_fieldZero
      (Region_setField_fieldZero)
  · exact StructDecoder.missing_members _ (fun _ _ => rfl) DomainClass_zero_fieldZero
      (DomainClass_setField_fieldZero)
  · exact StructDecoder.missing_members _ (fun _ _ => rfl) Note_zero_fieldZero
      (Note_setField_fieldZero)
  · exact StructDecoder.missing_members _ (fun _ _ => rfl) SemanticClass_zero_fieldZero
      (SemanticClass_setField_fieldZero)
  · exact StructDecoder.missing_members _ (fun _ _ => rfl) Register_zero_fieldZero
      (Register_setField_fieldZero)
  · exact StructDecoder.missing_members _ (fun _ _ => rfl) Phrase_zero_fieldZero
      (Phrase_setField_fieldZero)
  · exact StructDecoder.missing_members _ (fun _ _ => rfl) GrammaticalFeature_zero_fieldZero
      (GrammaticalFeature_setField_fieldZero)

/-! ## Nesting depth of an encoding -/

theorem Json.depth_le_array (x : Json) : ∀ (xs : List Json), x ∈ xs →
    x.depth + 1 ≤ (Json.array xs).depth := by
  intro xs
  have key : ∀ (ys : List Json), x ∈ ys → x.depth ≤ Json.depthElems ys := by
    intro ys
    induction ys with
    | nil => intro h; exact absurd h (List.not_mem_nil _)
    | cons y ys ih =>
      intro h
      rw [Json.depthElems]
      rcases List.mem_cons.1 h with h1 | h1
      · rw [h1]; exact le_max_left _ _
      · exact le_trans (ih h1) (le_max_right _ _)
  intro h
  rw [Json.depth]
  exact Nat.succ_le_succ (key xs h)

theorem Json.depth_le_object (k : String) (v : Json) : ∀ (ms : List (String × Json)),
    (k, v) ∈ ms → v.depth + 1 ≤ (Json.object ms).depth := by
  intro ms
  have key : ∀ (ns : List (String × Json)), (k, v) ∈ ns → v.depth ≤ Json.depthMembers ns := by
    intro ns
    induction ns with
    | nil => intro h; exact absurd h (List.not_mem_nil _)
    | cons kv ns ih =>
      intro h
      obtain ⟨k0, v0⟩ := kv
      rw [Json.depthMembers]
      rcases List.mem_cons.1 h with h1 | h1
      · cases h1; exact le_max_left _ _
      · exact le_trans (ih h1) (le_max_right _ _)
  intro h
  rw [Json.depth]
  exact Nat.succ_le_succ (key ms h)

/-- The encoding of a sense whose subsenses nest `n` deep nests at least
`2 * n + 1` deep. -/
theorem depth_encodeSense_nestedSense : ∀ (n : Nat),
    2 * n + 1 ≤ (encodeSense (nestedSense n)).depth := by
  intro n
  induction n with
  | zero =>
    rw [nestedSense, Sense.zero, encodeSense, Json.depth]
    omega
  | succ n ih =>
    rw [nestedSense, encodeSense]
    have h1 := Json.depth_le_object "subsenses" (encodeSenseSlice (some [nestedSense n]))
      _ (show ("subsenses", encodeSenseSlice (some [nestedSense n])) ∈
          [("antonyms", encodeSlice encodeAntonym none),
           ("synonyms", encodeSlice encodeSynonym none),
           ("definitions", encodeSlice Json.string none),
           ("shortDefinitions", encodeSlice Json.string none),
           ("examples", encodeSlice encodeExample none),
           ("constructions", encodeSlice encodeConstruction none),
           ("inflections", encodeSlice encodeInflection none),
           ("domainClasses", encodeSlice encodeDomainClass none),
           ("notes", encodeSlice encodeNote none),
           ("translations", encodeSlice encodeTranslation none),
           ("semanticClasses", encodeSlice encodeSemanticClass none),
           ("id", Json.string ""),
           ("subsenses", encodeSenseSlice (some [nestedSense n]))] from by simp)
    have h2 : (encodeSense (nestedSense n)).depth + 1
        ≤ (encodeSenseSlice (some [nestedSense n])).depth := by
      rw [encodeSenseSlice, encodeSenseElems, encodeSenseElems]
      exact Json.depth_le_array _ _ (List.mem_cons_self _ _)
    omega

theorem depth_encodeSlice {α : Type} (enc : α → Json) (x : α) (xs : List α) (h : x ∈ xs) :
    (enc x).depth + 1 ≤ (encodeSlice enc (some xs)).depth :=
  Json.depth_le_array (enc x) (xs.map enc) (List.mem_map_of_mem enc h)

theorem depth_encodeEntry (t : Entry) :
    (encodeSlice encodeSense t.Senses).depth + 1 ≤ (encodeEntry t).depth :=
  Json.depth_le_object "senses" (encodeSlice encodeSense t.Senses) _ (List.mem_cons_self _ _)

theorem depth_encodeLexicalEntry (t : LexicalEntry) :
    (encodeSlice encodeEntry t.Entries).depth + 1 ≤ (encodeLexicalEntry t).depth :=
  Json.depth_le_object "entries" (encodeSlice encodeEntry t.Entries) _ (List.mem_cons_self _ _)

theorem depth_encodeResult (t : Result) :
    (encodeSlice encodeLexicalEntry t.LexicalEntries).depth + 1 ≤ (encodeResult t).depth :=
  Json.depth_le_object "lexicalEntries" (encodeSlice encodeLexicalEntry t.LexicalEntries) _
    (List.mem_cons_of_mem _ (List.mem_cons_of_mem _ (List.mem_cons_self _ _)))

/-- The encoding of `deepResponse n`. -/
theorem encodeOxfordResponse_deepResponse (fc : FloatCodec) (n : Nat) :
    encodeOxfordResponse fc (deepResponse n)
      = some (.object [("metadata", .null), ("query", .string ""),
          ("results", encodeSlice encodeResult (some [deepResult n]))]) := by
  rw [encodeOxfordResponse]
  have h : encodeAnyMap fc (deepResponse n).Meta = some .null := by
    rw [show (deepResponse n).Meta = none from rfl, encodeAnyMap]
  rw [h]
  rfl

theorem depth_deepResponse (n : Nat) :
    2 * n + 1 ≤ (Json.object [("metadata", .null), ("query", .string ""),
        ("results", encodeSlice encodeResult (some [deepResult n]))]).depth := by
  have h0 := depth_encodeSense_nestedSense n
  have h1 := depth_encodeSlice encodeSense (nestedSense n) [nestedSense n]
    (List.mem_cons_self _ _)
  have h2 : (encodeSlice encodeSense (some [nestedSense n])).depth + 1
      ≤ (encodeEntry (deepEntry n)).depth := depth_encodeEntry (deepEntry n)
  have h3 := depth_encodeSlice encodeEntry (deepEntry n) [deepEntry n] (List.mem_cons_self _ _)
  have h4 : (encodeSlice encodeEntry (some [deepEntry n])).depth + 1
      ≤ (encodeLexicalEntry (deepLexicalEntry n)).depth :=
    depth_encodeLexicalEntry (deepLexicalEntry n)
  have h5 := depth_encodeSlice encodeLexicalEntry (deepLexicalEntry n) [deepLexicalEntry n]
    (List.mem_cons_self _ _)
  have h6 : (encodeSlice encodeLexicalEntry (some [deepLexicalEntry n])).depth + 1
      ≤ (encodeResult (deepResult n)).depth := depth_encodeResult (deepResult n)
  have h7 := depth_encodeSlice encodeResult (deepResult n) [deepResult n] (List.mem_cons_self _ _)
  have h8 := Json.depth_le_object "results" (encodeSlice encodeResult (some [deepResult n]))
    [("metadata", .null), ("query", .string ""),
     ("results", encodeSlice encodeResult (some [deepResult n]))]
    (List.mem_cons_of_mem _ (List.mem_cons_of_mem _ (List.mem_cons_self _ _)))
  omega

/-- A reply whose body is the encoding of `deepResponse n`, nested more than
`maxNestingDepth` deep, is not decoded back: the scanner refuses it. -/
theorem deepResponse_not_roundtrip (fc : FloatCodec) (n : Nat)
    (hn : maxNestingDepth < 2 * n + 1) : ¬ RoundTripAt fc (deepResponse n) := by
  intro h
  have hj := encodeOxfordResponse_deepResponse fc n
  have hd := depth_deepResponse n
  have h1 := h (fun _ => true)
    (fun _ _ => .ok { StatusCode := 200, Status := "200 OK",
                      Body := scanned (.object [("metadata", .null), ("query", .string ""),
                        ("results", encodeSlice encodeResult (some [deepResult n]))]) })
    sampleClient (.entry "cat") { Timeout := defaultTimeout }
    { Method := "GET",
      URL := "https://od-api.oxforddictionaries.com/api/v2/entries/en-gb/cat?strictMatch=false",
      Header := [("App_id", ["id"]), ("App_key", ["key"]), ("Accept", ["application/json"])],
      Body := none }
    "200 OK" _ rfl rfl rfl hj
  rw [Operation.run_eq_doHTTP,
    doHTTP_eq _ sampleClient _ _ { Timeout := defaultTimeout } rfl (by rfl)] at h1
  have hs : scanned (.object [("metadata", .null), ("query", .string ""),
        ("results", encodeSlice encodeResult (some [deepResult n]))])
      = .invalid (errorsNew "exceeded max depth") := by
    unfold scanned
    rw [if_neg (by omega)]
  simp only [stdLib, StatusOK, ne_eq, not_true_eq_false, if_false, hs, jsonDecode] at h1
  simp at h1

/-! ## Client construction and request construction -/

/-- C1: `NewClient appID appKEY` returns a nil client and a non-nil error
exactly when `appID` or `appKEY` is empty; otherwise it returns a nil error
and a client that stores `appID` and `appKEY` and whose HTTP client has a
timeout of 10 seconds (ten times 1000000000 nanoseconds). -/
theorem NewClient_contract (appID appKEY : String) :
    (((NewClient appID appKEY).1 = none ∧ (NewClient appID appKEY).2 ≠ none)
        ↔ (appID = "" ∨ appKEY = "")) ∧
    (¬ (appID = "" ∨ appKEY = "") →
      NewClient appID appKEY
        = (some { client := some { Timeout := 10 * Second }, appID := appID, appKEY := appKEY },
           none)) ∧
    ((appID = "" ∨ appKEY = "") →
      NewClient appID appKEY = (none, some (errorsNew "credentials are empty"))) ∧
    (10 * Second : Duration) = 10000000000 := by
  refine ⟨?_, ?_, ?_, by decide⟩
  · by_cases h : appID = "" ∨ appKEY = "" <;> simp [NewClient, h]
  · intro h
    simp [NewClient, h, defaultTimeout]
  · intro h
    simp [NewClient, h]

theorem NewClient_contract_witness :
    ¬ ("id" = "" ∨ "key" = "") ∧
    NewClient "id" "key"
      = (some { client := some { Timeout := 10 * Second }, appID := "id", appKEY := "key" },
         none) ∧
    NewClient "" "key" = (none, some (errorsNew "credentials are empty")) :=
  ⟨by decide, (NewClient_contract "id" "key").2.1 (by decide),
    (NewClient_contract "" "key").2.2.1 (Or.inl rfl)⟩

/-- C2: the URL `WordInfo word` hands to `http.NewRequest`, and the URL of
every request it sends, is
`"https://od-api.oxforddictionaries.com/api/v2/words/en-gb?q="` followed by
a string `w` of the length of `word`, without a space, with `_` at the
positions where `word` has a space and the character of `word` at the other
positions; for `"hello world"` the query value is `"hello_world"`. -/
theorem WordInfo_url (lib : Lib) (c : Client) (word : String) :
    (stringsReplaceAll word " " "_").length = word.length ∧
    ' ' ∉ (stringsReplaceAll word " " "_").data ∧
    (∀ (i : Nat) (ch : Char), word.data[i]? = some ch →
      (ch = ' ' → (stringsReplaceAll word " " "_").data[i]? = some '_') ∧
      (ch ≠ ' ' → (stringsReplaceAll word " " "_").data[i]? = some ch)) ∧
    (c.WordInfo lib word).built
      = [("GET", "https://od-api.oxforddictionaries.com/api/v2/words/en-gb?q="
                  ++ stringsReplaceAll word " " "_")] ∧
    (∀ req ∈ (c.WordInfo lib word).sent,
      req.URL = "https://od-api.oxforddictionaries.com/api/v2/words/en-gb?q="
                  ++ stringsReplaceAll word " " "_") ∧
    stringsReplaceAll "hello world" " " "_" = "hello_world" := by
  have hurl : host ++ (endpointWords ++ "?q=" ++ stringsReplaceAll word " " "_" ++ paramsWords)
      = "https://od-api.oxforddictionaries.com/api/v2/words/en-gb?q="
          ++ stringsReplaceAll word " " "_" := by
    apply String.ext
    simp only [String.data_append, List.append_assoc, paramsWords,
      show ("" : String).data = [] from rfl, List.append_nil]
    rfl
  refine ⟨?_, ?_, ?_, ?_, ?_, ?_⟩
  · show (stringsReplaceAll word " " "_").data.length = word.data.length
    rw [stringsReplaceAll_space_data, List.length_map]
  · rw [stringsReplaceAll_space_data]
    intro hmem
    rcases List.mem_map.1 hmem with ⟨ch, _, hch⟩
    by_cases h : ch = ' '
    · rw [if_pos h] at hch
      exact absurd hch (by decide)
    · rw [if_neg h] at hch
      exact h hch
  · intro i ch hi
    rw [stringsReplaceAll_space_data]
    constructor
    · intro h
      simp [List.getElem?_map, hi, h]
    · intro h
      simp [List.getElem?_map, hi, h]
  · show (c.doHTTP lib _).built = _
    rw [doHTTP_built, hurl]
    rfl
  · intro req hreq
    have hg := doHTTP_sent lib c _ req hreq
    rw [generateRequest_eq lib c _ req hg]
    exact hurl
  · decide

theorem WordInfo_url_witness :
    ("hello world".data[5]? = some ' ') ∧
    (stringsReplaceAll "hello world" " " "_").data[5]? = some '_' ∧
    (stringsReplaceAll "hello world" " " "_").data[4]? = some 'o' ∧
    (sampleClient.WordInfo libNotFound "hello world").sent.map (fun r => r.URL)
      = ["https://od-api.oxforddictionaries.com/api/v2/words/en-gb?q=hello_world"] :=
  ⟨by decide,
   ((WordInfo_url libNotFound sampleClient "hello world").2.2.1 5 ' ' (by decide)).1 rfl,
   ((WordInfo_url libNotFound sampleClient "hello world").2.2.1 4 'o' (by decide)).2 (by decide),
   by decide⟩

/-- C3: the URL `Translation word sourceLang targetLang` hands to
`http.NewRequest`, and the URL of every request it sends, is
`host ++ "/translations/" ++ sourceLang ++ "/" ++ targetLang ++ "/" ++ word
++ "?strictMatch=false"`: the source language stands before the target
language and the three strings are inserted unchanged; for `"cat"`, `"en"`,
`"fr"` the path is `/translations/en/fr/cat`. -/
theorem Translation_url (lib : Lib) (c : Client) (word sourceLang targetLang : String) :
    (c.Translation lib word sourceLang targetLang).built
      = [("GET", host ++ "/translations/" ++ sourceLang ++ "/" ++ targetLang ++ "/" ++ word
                  ++ "?strictMatch=false")] ∧
    (∀ req ∈ (c.Translation lib word sourceLang targetLang).sent,
      req.URL = host ++ "/translations/" ++ sourceLang ++ "/" ++ targetLang ++ "/" ++ word
                  ++ "?strictMatch=false") ∧
    host = "https://od-api.oxforddictionaries.com/api/v2" ∧
    (c.Translation lib "cat" "en" "fr").built
      = [("GET", "https://od-api.oxforddictionaries.com/api/v2/translations/en/fr/cat"
                  ++ "?strictMatch=false")] := by
  have hurl : host ++ (endpointTranslations ++ "/" ++ sourceLang ++ "/" ++ targetLang ++ "/"
        ++ word ++ paramsTranslations)
      = host ++ "/translations/" ++ sourceLang ++ "/" ++ targetLang ++ "/" ++ word
          ++ "?strictMatch=false" := by
    apply String.ext
    simp only [String.data_append, List.append_assoc]
    rfl
  refine ⟨?_, ?_, rfl, ?_⟩
  · show (c.doHTTP lib _).built = _
    rw [doHTTP_built, hurl]
    rfl
  · intro req hreq
    have hg := doHTTP_sent lib c _ req hreq
    rw [generateRequest_eq lib c _ req hg]
    exact hurl
  · show (c.doHTTP lib _).built = _
    rw [doHTTP_built]
    rfl

theorem Translation_url_witness :
    (sampleClient.Translation libNotFound "cat" "en" "fr").sent.map (fun r => r.URL)
      = ["https://od-api.oxforddictionaries.com/api/v2/translations/en/fr/cat?strictMatch=false"] ∧
    ∀ req ∈ (sampleClient.Translation libNotFound "cat" "en" "fr").sent,
      req.URL = host ++ "/translations/" ++ "en" ++ "/" ++ "fr" ++ "/" ++ "cat"
                  ++ "?strictMatch=false" :=
  ⟨by decide, (Translation_url libNotFound sampleClient "cat" "en" "fr").2.1⟩

/-- C4: the URLs `Thesaurus word`, `Entry word` and `Sentences word` hand
to `http.NewRequest`, and the URL of every request they send, are
`host ++ "/thesaurus/en/" ++ word ++ "?strictMatch=false"`,
`host ++ "/entries/en-gb/" ++ word ++ "?strictMatch=false"` and
`host ++ "/sentences/en/" ++ word ++ "?strictMatch=false"`, where `host` is
`"https://od-api.oxforddictionaries.com/api/v2"`; the word is inserted
unchanged, a space stays a space and the empty word is inserted as it is. -/
theorem Thesaurus_Entry_Sentences_url (lib : Lib) (c : Client) (word : String) :
    ((c.Thesaurus lib word).built
        = [("GET", host ++ "/thesaurus/en/" ++ word ++ "?strictMatch=false")] ∧
      ∀ req ∈ (c.Thesaurus lib word).sent,
        req.URL = host ++ "/thesaurus/en/" ++ word ++ "?strictMatch=false") ∧
    ((c.Entry lib word).built
        = [("GET", host ++ "/entries/en-gb/" ++ word ++ "?strictMatch=false")] ∧
      ∀ req ∈ (c.Entry lib word).sent,
        req.URL = host ++ "/entries/en-gb/" ++ word ++ "?strictMatch=false") ∧
    ((c.Sentences lib word).built
        = [("GET", host ++ "/sentences/en/" ++ word ++ "?strictMatch=false")] ∧
      ∀ req ∈ (c.Sentences lib word).sent,
        req.URL = host ++ "/sentences/en/" ++ word ++ "?strictMatch=false") ∧
    host = "https://od-api.oxforddictionaries.com/api/v2" := by
  have h1 : host ++ (endpointThesaurus ++ "/" ++ word ++ paramsThesaurus)
      = host ++ "/thesaurus/en/" ++ word ++ "?strictMatch=false" := by
    apply String.ext
    simp only [String.data_append, List.append_assoc]
    rfl
  have h2 : host ++ (endpointEntries ++ "/" ++ word ++ paramsEntries)
      = host ++ "/entries/en-gb/" ++ word ++ "?strictMatch=false" := by
    apply String.ext
    simp only [String.data_append, List.append_assoc]
    rfl
  have h3 : host ++ (endpointSentences ++ "/" ++ word ++ paramsSentences)
      = host ++ "/sentences/en/" ++ word ++ "?strictMatch=false" := by
    apply String.ext
    simp only [String.data_append, List.append_assoc]
    rfl
  refine ⟨⟨?_, ?_⟩, ⟨?_, ?_⟩, ⟨?_, ?_⟩, rfl⟩
  · show (c.doHTTP lib _).built = _
    rw [doHTTP_built, h1]
    rfl
  · intro req hreq
    have hg := doHTTP_sent lib c _ req hreq
    rw [generateRequest_eq lib c _ req hg]
    exact h1
  · show (c.doHTTP lib _).built = _
    rw [doHTTP_built, h2]
    rfl
  · intro req hreq
    have hg := doHTTP_sent lib c _ req hreq
    rw [generateRequest_eq lib c _ req hg]
    exact h2
  · show (c.doHTTP lib _).built = _
    rw [doHTTP_built, h3]
    rfl
  · intro req hreq
    have hg := doHTTP_sent lib c _ req hreq
    rw [generateRequest_eq lib c _ req hg]
    exact h3

theorem Thesaurus_Entry_Sentences_url_witness :
    (sampleClient.Thesaurus libNotFound "hello world").sent.map (fun r => r.URL)
      = ["https://od-api.oxforddictionaries.com/api/v2/thesaurus/en/hello world?strictMatch=false"] ∧
    (sampleClient.Entry libNotFound "").sent.map (fun r => r.URL)
      = ["https://od-api.oxforddictionaries.com/api/v2/entries/en-gb/?strictMatch=false"] ∧
    ∀ req ∈ (sampleClient.Sentences libNotFound "cat").sent,
      req.URL = host ++ "/sentences/en/" ++ "cat" ++ "?strictMatch=false" :=
  ⟨by decide, by decide,
   (Thesaurus_Entry_Sentences_url libNotFound sampleClient "cat").2.2.1.2⟩

/-- C5: for a client returned by `NewClient appID appKEY`, every request
that one of the five operations sends has the method GET, no body, the
header `app_id` with the value `appID`, the header `app_key` with the value
`appKEY` and the header `Accept` with the value `application/json`; its
header map holds these three entries, under the canonical form of the keys. -/
theorem sent_request_shape (lib : Lib) (appID appKEY : String) (c : Client) (op : Operation)
    (hc : (NewClient appID appKEY).1 = some c) :
    ∀ req ∈ (op.run lib c).sent,
      req.Method = "GET" ∧ req.Body = none ∧
      req.Header.Get "app_id" = appID ∧
      req.Header.Get "app_key" = appKEY ∧
      req.Header.Get "Accept" = "application/json" ∧
      req.Header = [("App_id", [appID]), ("App_key", [appKEY]),
                    ("Accept", ["application/json"])] := by
  intro req hreq
  rw [Operation.run_eq_doHTTP] at hreq
  have hg := doHTTP_sent lib c _ req hreq
  have hreq2 := generateRequest_eq lib c _ req hg
  have hcred : c.appID = appID ∧ c.appKEY = appKEY := by
    unfold NewClient at hc
    by_cases h : appID = "" ∨ appKEY = ""
    · simp [h] at hc
    · simp only [h, if_false] at hc
      cases hc
      exact ⟨rfl, rfl⟩
  have h1 : canonicalMIMEHeaderKey "app_id" = "App_id" := by decide
  have h2 : canonicalMIMEHeaderKey "app_key" = "App_key" := by decide
  have h3 : canonicalMIMEHeaderKey "Accept" = "Accept" := by decide
  have n1 : ("App_key" == "App_id") = false := by decide
  have n2 : ("Accept" == "App_id") = false := by decide
  have n3 : ("Accept" == "App_key") = false := by decide
  rw [hreq2, hcred.1, hcred.2]
  refine ⟨rfl, rfl, ?_, ?_, ?_, rfl⟩
  · simp [Header.Get, h1, List.lookup]
  · simp [Header.Get, h2, List.lookup, n1]
  · simp [Header.Get, h3, List.lookup, n2, n3]

theorem sent_request_shape_witness :
    (NewClient "id" "key").1 = some sampleClient ∧
    (Operation.run libNotFound sampleClient (.entry "cat")).sent.length = 1 ∧
    ∀ req ∈ (Operation.run libNotFound sampleClient (.entry "cat")).sent,
      req.Method = "GET" ∧ req.Body = none ∧
      req.Header.Get "app_id" = "id" ∧
      req.Header.Get "app_key" = "key" ∧
      req.Header.Get "Accept" = "application/json" ∧
      req.Header = [("App_id", ["id"]), ("App_key", ["key"]),
                    ("Accept", ["application/json"])] :=
  ⟨rfl, by decide, sent_request_shape libNotFound "id" "key" sampleClient (.entry "cat") rfl⟩

/-! ## Replies and errors -/

/-- C6: for every operation, when the transport returns a reply whose
status code is not 200, whatever its body, the operation returns the zero
value of `OxfordResponse` and the error with the message `"API Error: "`
followed by the status text of the reply, and no body is handed to the JSON
decoder. -/
theorem non200_reply (lib : Lib) (c : Client) (op : Operation) (hc : HTTPClient)
    (req : Request) (resp : HTTPResponse)
    (hcl : c.client = some hc)
    (hg : c.generateRequest lib op.endpoint MethodGet = some req)
    (hdo : lib.Do hc req = .ok resp)
    (hs : resp.StatusCode ≠ 200) :
    (op.run lib c).result
      = some (OxfordResponse.zero, some (errorsNew ("API Error: " ++ resp.Status))) ∧
    (errorsNew ("API Error: " ++ resp.Status)).msg = "API Error: " ++ resp.Status ∧
    (op.run lib c).decoded = [] ∧
    (op.run lib c).sent = [req] := by
  rw [Operation.run_eq_doHTTP, doHTTP_eq lib c _ req hc hcl hg, hdo]
  have hs2 : resp.StatusCode ≠ StatusOK := hs
  simp only [if_pos hs2]
  refine ⟨?_, ?_, ?_, ?_⟩ <;> trivial

theorem non200_reply_witness :
    (Operation.run libNotFound sampleClient (.thesaurus "cat")).result
      = some (OxfordResponse.zero, some (errorsNew "API Error: 404 Not Found")) ∧
    (Operation.run libNotFound sampleClient (.thesaurus "cat")).decoded = [] :=
  have h := non200_reply libNotFound sampleClient (.thesaurus "cat") { Timeout := defaultTimeout }
    { Method := "GET",
      URL := "https://od-api.oxforddictionaries.com/api/v2/thesaurus/en/cat?strictMatch=false",
      Header := [("App_id", ["id"]), ("App_key", ["key"]), ("Accept", ["application/json"])],
      Body := none }
    { StatusCode := 404, Status := "404 Not Found",
      Body := .json (.object [("error", .string "No entry found")]) }
    rfl rfl rfl (by decide)
  ⟨h.1, h.2.2.1⟩

/-- C7: no operation returns a non-nil error together with a non-zero
`OxfordResponse`.  A transport error is returned as it is with the zero
value; a decoder error is returned as it is with the zero value, whatever
the decoder had written before failing; and on a reply with status 200
whose body decodes without error the error is nil and the returned value is
the decoded one. -/
theorem error_or_value (lib : Lib) (c : Client) (op : Operation) :
    (∀ (r : OxfordResponse) (e : GoError),
      (op.run lib c).result = some (r, some e) → r = OxfordResponse.zero) ∧
    (∀ (hc : HTTPClient) (req : Request) (err : GoError),
      c.client = some hc → c.generateRequest lib op.endpoint MethodGet = some req →
      lib.Do hc req = .error err →
      (op.run lib c).result = some (OxfordResponse.zero, some err)) ∧
    (∀ (hc : HTTPClient) (req : Request) (resp : HTTPResponse) (data : OxfordResponse)
      (err : GoError),
      c.client = some hc → c.generateRequest lib op.endpoint MethodGet = some req →
      lib.Do hc req = .ok resp → resp.StatusCode = 200 →
      lib.Decode resp.Body OxfordResponse.zero = (data, some err) →
      (op.run lib c).result = some (OxfordResponse.zero, some err)) ∧
    (∀ (hc : HTTPClient) (req : Request) (resp : HTTPResponse) (data : OxfordResponse),
      c.client = some hc → c.generateRequest lib op.endpoint MethodGet = some req →
      lib.Do hc req = .ok resp → resp.StatusCode = 200 →
      lib.Decode resp.Body OxfordResponse.zero = (data, none) →
      (op.run lib c).result = some (data, none)) := by
  refine ⟨?_, ?_, ?_, ?_⟩
  · intro r e h
    rw [Operation.run_eq_doHTTP] at h
    exact doHTTP_error_zero lib c _ r e h
  · intro hc req err hcl hg hdo
    rw [Operation.run_eq_doHTTP, doHTTP_eq lib c _ req hc hcl hg, hdo]
  · intro hc req resp data err hcl hg hdo hs hdec
    have hs2 : resp.StatusCode = StatusOK := hs
    rw [Operation.run_eq_doHTTP, doHTTP_eq lib c _ req hc hcl hg, hdo]
    simp only [hs2, ne_eq, not_true_eq_false, if_false, hdec]
  · intro hc req resp data hcl hg hdo hs hdec
    have hs2 : resp.StatusCode = StatusOK := hs
    rw [Operation.run_eq_doHTTP, doHTTP_eq lib c _ req hc hcl hg, hdo]
    simp only [hs2, ne_eq, not_true_eq_false, if_false, hdec]

theorem error_or_value_witness :
    (Operation.run libTimeout sampleClient (.sentences "cat")).result
      = some (OxfordResponse.zero, some (errorsNew "context deadline exceeded")) ∧
    (libHalfDecoded.Decode (.json (.object [("query", .string "cat"), ("results", .number "1")]))
        OxfordResponse.zero).1.Query = "cat" ∧
    (Operation.run libHalfDecoded sampleClient (.sentences "cat")).result
      = some (OxfordResponse.zero,
          some (errorsNew "json: cannot unmarshal number into Go value of type []main.Result")) ∧
    (Operation.run libDecoded sampleClient (.sentences "cat")).result
      = some ({ Meta := none, Query := "cat", Results := none }, none) :=
  ⟨(error_or_value libTimeout sampleClient (.sentences "cat")).2.1 { Timeout := defaultTimeout }
      { Method := "GET",
        URL := "https://od-api.oxforddictionaries.com/api/v2/sentences/en/cat?strictMatch=false",
        Header := [("App_id", ["id"]), ("App_key", ["key"]), ("Accept", ["application/json"])],
        Body := none }
      (errorsNew "context deadline exceeded") rfl rfl rfl,
   rfl,
   (error_or_value libHalfDecoded sampleClient (.sentences "cat")).2.2.1
      { Timeout := defaultTimeout }
      { Method := "GET",
        URL := "https://od-api.oxforddictionaries.com/api/v2/sentences/en/cat?strictMatch=false",
        Header := [("App_id", ["id"]), ("App_key", ["key"]), ("Accept", ["application/json"])],
        Body := none }
      { StatusCode := 200, Status := "200 OK",
        Body := .json (.object [("query", .string "cat"), ("results", .number "1")]) }
      { Meta := none, Query := "cat", Results := none }
      (errorsNew "json: cannot unmarshal number into Go value of type []main.Result")
      rfl rfl rfl rfl rfl,
   (error_or_value libDecoded sampleClient (.sentences "cat")).2.2.2
      { Timeout := defaultTimeout }
      { Method := "GET",
        URL := "https://od-api.oxforddictionaries.com/api/v2/sentences/en/cat?strictMatch=false",
        Header := [("App_id", ["id"]), ("App_key", ["key"]), ("Accept", ["application/json"])],
        Body := none }
      { StatusCode := 200, Status := "200 OK", Body := .json (.object [("query", .string "cat")]) }
      { Meta := none, Query := "cat", Results := none }
      rfl rfl rfl rfl rfl⟩

/-- C10, at the failing input: for the client `NewClient "id" "key"`
returns and a word that holds the control byte 0x7f, `http.NewRequest`
returns an error whatever the rest of the library does, and each of the five
operations panics in `generateRequest`: it returns nothing and calls the
transport zero times. -/
theorem control_byte_panics (lib : Lib) :
    ∃ c : Client, NewClient "id" "key" = (some c, none) ∧
      ((c.Thesaurus lib "a\x7fb").result = none ∧ (c.Thesaurus lib "a\x7fb").sent = []) ∧
      ((c.WordInfo lib "a\x7fb").result = none ∧ (c.WordInfo lib "a\x7fb").sent = []) ∧
      ((c.Entry lib "a\x7fb").result = none ∧ (c.Entry lib "a\x7fb").sent = []) ∧
      ((c.Sentences lib "a\x7fb").result = none ∧ (c.Sentences lib "a\x7fb").sent = []) ∧
      ((c.Translation lib "a\x7fb" "en" "fr").result = none ∧
        (c.Translation lib "a\x7fb" "en" "fr").sent = []) := by
  refine ⟨sampleClient, rfl, ?_, ?_, ?_, ?_, ?_⟩
  · have h := doHTTP_panic lib sampleClient (Operation.endpoint (.thesaurus "a\x7fb"))
      (generateRequest_none_of_ctl lib sampleClient _ (by decide))
    exact ⟨congrArg Run.result h, congrArg Run.sent h⟩
  · have h := doHTTP_panic lib sampleClient (Operation.endpoint (.wordInfo "a\x7fb"))
      (generateRequest_none_of_ctl lib sampleClient _ (by decide))
    exact ⟨congrArg Run.result h, congrArg Run.sent h⟩
  · have h := doHTTP_panic lib sampleClient (Operation.endpoint (.entry "a\x7fb"))
      (generateRequest_none_of_ctl lib sampleClient _ (by decide))
    exact ⟨congrArg Run.result h, congrArg Run.sent h⟩
  · have h := doHTTP_panic lib sampleClient (Operation.endpoint (.sentences "a\x7fb"))
      (generateRequest_none_of_ctl lib sampleClient _ (by decide))
    exact ⟨congrArg Run.result h, congrArg Run.sent h⟩
  · have h := doHTTP_panic lib sampleClient (Operation.endpoint (.translation "a\x7fb" "en" "fr"))
      (generateRequest_none_of_ctl lib sampleClient _ (by decide))
    exact ⟨congrArg Run.result h, congrArg Run.sent h⟩

/-! ## Decoding of the reply -/

/-- C8 (counterexample): two responses that no operation returns from a
reply with status 200 whose body is their JSON encoding, whatever the number
conversion.  The response whose metadata map holds the `int` 1 under the key
`total` has the encoding `{"metadata":{"total":1},"query":"cat","results":null}`,
and the decoder stores a number under an `interface{}` as a float64 (or
fails on it), never as an `int`.  The response with one sense whose
`Subsenses` nest 5000 senses deep has an encoding that nests arrays and
objects more than 10000 deep, which the decoder's scanner refuses. -/
theorem roundtrip_fails_int_or_deep :
    (¬ ∃ fc : FloatCodec, RoundTripAt fc intMetaResponse) ∧
    (¬ ∃ fc : FloatCodec, RoundTripAt fc (deepResponse 5000)) := by
  constructor
  · rintro ⟨fc, h⟩
    have h1 := h (fun _ => true)
      (fun _ _ => .ok { StatusCode := 200, Status := "200 OK",
                        Body := scanned (.object [("metadata", .object [("total", .number "1")]),
                                                  ("query", .string "cat"), ("results", .null)]) })
      sampleClient (.entry "cat") { Timeout := defaultTimeout }
      { Method := "GET",
        URL := "https://od-api.oxforddictionaries.com/api/v2/entries/en-gb/cat?strictMatch=false",
        Header := [("App_id", ["id"]), ("App_key", ["key"]), ("Accept", ["application/json"])],
        Body := none }
      "200 OK" _ rfl rfl rfl rfl
    rw [Operation.run_eq_doHTTP,
      doHTTP_eq _ sampleClient _ _ { Timeout := defaultTimeout } rfl (by rfl)] at h1
    have hs : scanned (.object [("metadata", .object [("total", .number "1")]),
          ("query", .string "cat"), ("results", .null)])
        = .json (.object [("metadata", .object [("total", .number "1")]),
          ("query", .string "cat"), ("results", .null)]) := rfl
    simp only [stdLib, StatusOK, ne_eq, not_true_eq_false, if_false, hs, jsonDecode,
      decodeOxfordResponse_total] at h1
    rw [decodeAny] at h1
    cases hp : fc.parse "1" with
    | none => simp [hp, intMetaResponse] at h1
    | some f => simp [hp, intMetaResponse] at h1
  · rintro ⟨fc, h⟩
    exact deepResponse_not_roundtrip fc 5000 (by decide) h

/-- C8 (amended): round trip.  For every response `r` (its strings are valid
UTF-8 text) whose metadata map is nil or holds only values of the kinds the
decoder produces (nil, bool, float64, string, non-nil `[]interface{}` and
non-nil `map[string]interface{}` of such values), whose JSON encoding nests
arrays and objects at most 10000 deep, the limit of the decoder, which
bounds the nesting depth of `Subsenses`, and for a number conversion that
parses back the literals it writes for a float64: when the reply has status
200 and its body is the JSON encoding of `r` under the declared field names,
every operation returns a nil error and a response equal to `r`, field by
field and every sequence in the same order. -/
theorem roundtrip_native_metadata (fc : FloatCodec) (hfc : fc.RoundTrips)
    (r : OxfordResponse) (hn : GoMap.jsonNative r.Meta)
    (hd : ∀ j, encodeOxfordResponse fc r = some j → j.depth ≤ maxNestingDepth) :
    RoundTripAt fc r := by
  intro urlParse Do c op hc req status j hcl hg hdo henc
  rw [Operation.run_eq_doHTTP, doHTTP_eq _ c _ req hc hcl hg]
  have hs : scanned j = .json j := by
    unfold scanned
    rw [if_pos (hd j henc)]
  have hdo2 : (stdLib fc urlParse Do).Do hc req
      = .ok { StatusCode := 200, Status := status, Body := .json j } := by
    rw [← hs]
    exact hdo
  rw [hdo2]
  have hdec : (stdLib fc urlParse Do).Decode (.json j) OxfordResponse.zero = (r, none) :=
    decodeOxfordResponse_encode fc hfc r j hn henc
  simp only [StatusOK, ne_eq, not_true_eq_false, if_false, hdec]

set_option maxRecDepth 8000 in
theorem roundtrip_native_metadata_witness :
    sampleCodec.RoundTrips ∧ GoMap.jsonNative sampleResponse.Meta ∧
    encodeOxfordResponse sampleCodec sampleResponse = some sampleBody ∧
    sampleBody.depth = 14 ∧
    (Operation.run
        (stdLib sampleCodec (fun _ => true)
          (fun _ _ => .ok { StatusCode := 200, Status := "200 OK", Body := scanned sampleBody }))
        sampleClient (.thesaurus "cat")).result
      = some (sampleResponse, none) :=
  have hfc : sampleCodec.RoundTrips := by
    intro f s h
    obtain ⟨bits⟩ := f
    simp only [sampleCodec] at h ⊢
    by_cases h1 : bits = 0x3FF0000000000000
    · rw [if_pos h1] at h
      cases h
      rw [h1]
      rfl
    · by_cases h2 : bits = 0x3FF8000000000000
      · rw [if_neg h1, if_pos h2] at h
        cases h
        rw [h2]
        rfl
      · rw [if_neg h1, if_neg h2] at h
        cases h
  have hn : GoMap.jsonNative sampleResponse.Meta := by
    simp [sampleResponse, GoMap.jsonNative, GoAny.jsonNativeMembers, GoAny.jsonNative,
      GoAny.jsonNativeSlice, GoAny.jsonNativeMap, GoAny.jsonNativeElems]
  have henc : encodeOxfordResponse sampleCodec sampleResponse = some sampleBody := rfl
  have h14 : sampleBody.depth = 14 := rfl
  have hd : ∀ j, encodeOxfordResponse sampleCodec sampleResponse = some j →
      j.depth ≤ maxNestingDepth := by
    intro j h
    rw [henc] at h
    cases h
    rw [h14]
    decide
  ⟨hfc, hn, henc, h14,
    roundtrip_native_metadata sampleCodec hfc sampleResponse hn hd (fun _ => true)
      (fun _ _ => .ok { StatusCode := 200, Status := "200 OK", Body := scanned sampleBody })
      sampleClient (.thesaurus "cat") { Timeout := defaultTimeout }
      { Method := "GET",
        URL := "https://od-api.oxforddictionaries.com/api/v2/thesaurus/en/cat?strictMatch=false",
        Header := [("App_id", ["id"]), ("App_key", ["key"]), ("Accept", ["application/json"])],
        Body := none }
      "200 OK" sampleBody rfl rfl rfl henc⟩

/-- C9 (counterexample): a member whose name is not one of the declared
names can change the decoded response.  `QUERY` is not a declared name, and
the reply `{"query":"a","QUERY":"b"}` decodes to the query `b` where
`{"query":"a"}` decodes to the query `a` (the decoder matches `QUERY` with
the field `query` under case folding); `zzz` is not a declared name, and the
reply `{"metadata":{"zzz":null}}` decodes to a metadata map with the entry
`zzz` where `{"metadata":{}}` decodes to the empty map. -/
theorem added_member_changes_response :
    "QUERY" ∉ schemaNames ∧
    (Operation.run (libBody (.object [("query", .string "a")])) sampleClient
        (.wordInfo "a")).result
      = some ({ Meta := none, Query := "a", Results := none }, none) ∧
    (Operation.run (libBody (.object [("query", .string "a"), ("QUERY", .string "b")]))
        sampleClient (.wordInfo "a")).result
      = some ({ Meta := none, Query := "b", Results := none }, none) ∧
    "zzz" ∉ schemaNames ∧
    (Operation.run (libBody (.object [("metadata", .object [])])) sampleClient
        (.wordInfo "a")).result
      = some ({ Meta := some [], Query := "", Results := none }, none) ∧
    (Operation.run (libBody (.object [("metadata", .object [("zzz", .null)])])) sampleClient
        (.wordInfo "a")).result
      = some ({ Meta := some [("zzz", .nil)], Query := "", Results := none }, none) :=
  ⟨by decide, rfl, rfl, by decide, rfl, rfl⟩

/-- C9 (amended): for every JSON object returned with status 200.
Missing members: the decoder of every struct type of the schema is the
object decoder over the declared names; an error of the decoding of an
object is the error of one of the members that are present, so no missing
member makes decoding fail; a field that no key of the object selects holds
its zero value after decoding into a zero value (the empty string, the nil
slice, of length 0, the nil map, the zero struct); the empty object decodes
to the zero value without error; and in the response an operation returns,
the metadata is nil, the query empty, the results a slice of length 0
whenever no key of the body selects that field.
Added members: when a body is extended, at any depth outside the value of a
`metadata` member, by members whose names match no declared name under the
decoder's case folding, the decoder returns the same value and the same
error, and every operation returns the same result. -/
theorem missing_and_added_members (fc : FloatCodec) :
    (∀ d ∈ schemaStructs fc,
      (∀ j t, d.decode j t = decodeStruct d.names d.setField d.goType j t) ∧
      (∀ (ms : List (String × Json)) (t : d.T), (d.decode (.object ms) t).2 ≠ none →
        ∃ kv ∈ ms, ∃ (i : Nat) (t2 : d.T),
          lookupName d.names kv.1 = some i ∧ (d.setField i kv.2 t2).2 ≠ none) ∧
      (∀ (ms : List (String × Json)) (i : Nat),
        (∀ kv ∈ ms, lookupName d.names kv.1 ≠ some i) →
        d.fieldZero i (d.decode (.object ms) d.zero).1) ∧
      d.decode (.object []) d.zero = (d.zero, none)) ∧
    (∀ (urlParse : String → Bool) (Do : HTTPClient → Request → Except GoError HTTPResponse)
      (c : Client) (op : Operation) (hc : HTTPClient) (req : Request) (status : String)
      (ms : List (String × Json)) (r : OxfordResponse) (e : Option GoError),
      c.client = some hc →
      c.generateRequest (stdLib fc urlParse Do) op.endpoint MethodGet = some req →
      Do hc req = .ok { StatusCode := 200, Status := status, Body := .json (.object ms) } →
      (op.run (stdLib fc urlParse Do) c).result = some (r, e) →
      ((∀ kv ∈ ms, lookupName OxfordResponse.names kv.1 ≠ some 0) → r.Meta = none) ∧
      ((∀ kv ∈ ms, lookupName OxfordResponse.names kv.1 ≠ some 1) → r.Query = "") ∧
      ((∀ kv ∈ ms, lookupName OxfordResponse.names kv.1 ≠ some 2) →
        r.Results = none ∧ Slice.len r.Results = 0)) ∧
    (∀ (j j2 : Json) (data : OxfordResponse), Extends j j2 →
      jsonDecode fc (.json j2) data = jsonDecode fc (.json j) data) ∧
    (∀ (urlParse : String → Bool)
      (Do Do2 : HTTPClient → Request → Except GoError HTTPResponse)
      (c : Client) (op : Operation) (hc : HTTPClient) (req : Request) (status : String)
      (j j2 : Json),
      c.client = some hc →
      c.generateRequest (stdLib fc urlParse Do) op.endpoint MethodGet = some req →
      Do hc req = .ok { StatusCode := 200, Status := status, Body := .json j } →
      Do2 hc req = .ok { StatusCode := 200, Status := status, Body := .json j2 } →
      Extends j j2 →
      (op.run (stdLib fc urlParse Do2) c).result = (op.run (stdLib fc urlParse Do) c).result) := by
  refine ⟨schemaStructs_missing_members fc, ?_, ?_, ?_⟩
  · intro urlParse Do c op hc req status ms r e hcl hg hdo hres
    have hmiss := (schemaStructs_missing_members fc
      ⟨OxfordResponse, OxfordResponse.zero, OxfordResponse.names, OxfordResponse.setField fc,
        OxfordResponse.fieldZero, "main.OxfordResponse", decodeOxfordResponse fc⟩
      (List.mem_cons_self _ _)).2.2.1 ms
    rw [Operation.run_eq_doHTTP, doHTTP_eq _ c _ req hc hcl hg] at hres
    have hdo2 : (stdLib fc urlParse Do).Do hc req
        = .ok { StatusCode := 200, Status := status, Body := .json (.object ms) } := hdo
    rw [hdo2] at hres
    simp only [StatusOK, ne_eq, not_true_eq_false, if_false] at hres
    have hD : (stdLib fc urlParse Do).Decode (.json (.object ms)) OxfordResponse.zero
        = decodeOxfordResponse fc (.object ms) OxfordResponse.zero := rfl
    rw [hD] at hres
    rcases hdec : decodeOxfordResponse fc (.object ms) OxfordResponse.zero with ⟨data, _ | err⟩
    · rw [hdec] at hres
      simp only [Option.some.injEq, Prod.mk.injEq] at hres
      have hr : r = data := hres.1.symm
      have hd1 : (decodeOxfordResponse fc (.object ms) OxfordResponse.zero).1 = data := by
        rw [hdec]
      refine ⟨fun h => ?_, fun h => ?_, fun h => ?_⟩
      · have := hmiss 0 h
        rw [hr, ← hd1]
        exact this
      · have := hmiss 1 h
        rw [hr, ← hd1]
        exact this
      · have := hmiss 2 h
        have h3 : r.Results = none := by
          rw [hr, ← hd1]
          exact this
        exact ⟨h3, by rw [h3]; rfl⟩
    · rw [hdec] at hres
      simp only [Option.some.injEq, Prod.mk.injEq] at hres
      have hr : r = OxfordResponse.zero := hres.1.symm
      rw [hr]
      exact ⟨fun _ => rfl, fun _ => rfl, fun _ => ⟨rfl, rfl⟩⟩
  · intro j j2 data h
    exact decodeOxfordResponse_extends fc j j2 data h
  · intro urlParse Do Do2 c op hc req status j j2 hcl hg hdo hdo2 hext
    have hg2 : c.generateRequest (stdLib fc urlParse Do2) op.endpoint MethodGet = some req := hg
    have e1 : (stdLib fc urlParse Do).Do hc req
        = .ok { StatusCode := 200, Status := status, Body := .json j } := hdo
    have e2 : (stdLib fc urlParse Do2).Do hc req
        = .ok { StatusCode := 200, Status := status, Body := .json j2 } := hdo2
    have d1 : (stdLib fc urlParse Do).Decode (.json j) OxfordResponse.zero
        = decodeOxfordResponse fc j OxfordResponse.zero := rfl
    have d2 : (stdLib fc urlParse Do2).Decode (.json j2) OxfordResponse.zero
        = decodeOxfordResponse fc j OxfordResponse.zero :=
      decodeOxfordResponse_extends fc j j2 OxfordResponse.zero hext
    rw [Operation.run_eq_doHTTP, Operation.run_eq_doHTTP, doHTTP_eq _ c _ req hc hcl hg,
      doHTTP_eq _ c _ req hc hcl hg2, e1, e2]
    simp only [StatusOK, ne_eq, not_true_eq_false, if_false, d1, d2]
    rcases decodeOxfordResponse fc j OxfordResponse.zero with ⟨data, _ | err⟩ <;> rfl

theorem missing_and_added_members_witness :
    (jsonDecode sampleCodec (.json (.object [("query", .string "cat")]))
        OxfordResponse.zero).1.Results = none ∧
    Extends plainBody extendedBody ∧
    (Operation.run (libBody extendedBody) sampleClient (.entry "cat")).result
      = some ({ Meta := none, Query := "cat",
                Results := some [{ Id := "cat", Language := "", LexicalEntries := none,
                                   «Type» := "", Word := "" }] }, none) :=
  have hzzz : outsideSchema "zzz" := by unfold outsideSchema; decide
  have hfoo : outsideSchema "foo" := by unfold outsideSchema; decide
  have hext : Extends plainBody extendedBody :=
    Extends.object (ExtendsMembers.same "query" _ (ExtendsMembers.add "zzz" _ hzzz
      (ExtendsMembers.keep "results" (by decide)
        (Extends.array (ExtendsList.cons
          (Extends.object (ExtendsMembers.same "id" _
            (ExtendsMembers.add "foo" _ hfoo ExtendsMembers.nil)))
          ExtendsList.nil))
        ExtendsMembers.nil)))
  ⟨((missing_and_added_members sampleCodec).1
      ⟨OxfordResponse, OxfordResponse.zero, OxfordResponse.names,
        OxfordResponse.setField sampleCodec, OxfordResponse.fieldZero, "main.OxfordResponse",
        decodeOxfordResponse sampleCodec⟩
      (List.mem_cons_self _ _)).2.2.1 [("query", .string "cat")] 2
      (by decide),
   hext,
   ((missing_and_added_members sampleCodec).2.2.2 (fun _ => true)
      (fun _ _ => .ok { StatusCode := 200, Status := "200 OK", Body := .json plainBody })
      (fun _ _ => .ok { StatusCode := 200, Status := "200 OK", Body := .json extendedBody })
      sampleClient (.entry "cat") { Timeout := defaultTimeout }
      { Method := "GET",
        URL := "https://od-api.oxforddictionaries.com/api/v2/entries/en-gb/cat?strictMatch=false",
        Header := [("App_id", ["id"]), ("App_key", ["key"]), ("Accept", ["application/json"])],
        Body := none }
      "200 OK" _ _ rfl rfl rfl rfl hext).trans rfl⟩

end Oxford
